import Mathlib

/-!
Verification development for the hue-kai palette generator.

The definitions below are a shallow embedding of `src/utils/colorUtils.ts`
(first revision in the file, lines 1-709, the one the application
uses), of the visual-progression sort, and of the image extraction
pipeline of `src/pages/ImageExtractor.tsx` (`processImage`).

JavaScript numbers are modelled as exact rationals (ℚ); `Math.round`,
`Math.floor` and the `%` remainder follow the JavaScript semantics
(round half towards +∞, floor towards -∞, remainder with the sign of the
dividend).  `Math.random()` is modelled as an explicit stream
`rng : ℕ → ℚ` of draws together with a cursor, so that properties can be
quantified over every sequence of RNG draws.
-/

unseal Rat.add Rat.mul Rat.sub Rat.inv

namespace HueKai

/-- JavaScript `Math.round`: round half towards positive infinity. -/
def jsRound (q : ℚ) : ℤ := ⌊q + 1/2⌋

/-- JavaScript `Math.floor`. -/
def jsFloor (q : ℚ) : ℤ := ⌊q⌋

/-- Truncation towards zero, as used by the JavaScript `%` operator. -/
def jsTrunc (q : ℚ) : ℤ := if 0 ≤ q then ⌊q⌋ else -⌊-q⌋

/-- JavaScript `%` remainder: `a % b = a - b * trunc (a / b)`,
so the result carries the sign of the dividend. -/
def jsRem (a b : ℚ) : ℚ := a - b * (jsTrunc (a / b) : ℚ)

/-- `clamp` from colorUtils.ts: `Math.min(max, Math.max(min, val))`. -/
def clamp (val mn mx : ℚ) : ℚ := min mx (max mn val)

/-- RGB triple as produced by `hexToRgb` / `hslToRgb` (integer channels). -/
structure RGB where
  r : ℤ
  g : ℤ
  b : ℤ
deriving DecidableEq, Repr

/-- HSL triple as produced by `rgbToHsl`.  The fields are rationals because
the generation engine later mixes them with fractional hue arithmetic. -/
structure HSL where
  h : ℚ
  s : ℚ
  l : ℚ
deriving DecidableEq, Repr

/-- Lowercase hexadecimal digits of a natural number
(JavaScript `Number.prototype.toString(16)` for non-negative integers). -/
def natToHex (n : ℕ) : String := ⟨Nat.toDigits 16 n⟩

/-- `componentToHex` from colorUtils.ts: `toString(16)`, left-padded with a
single `0` when the representation has one character.  The source performs
no rounding and no clamping. -/
def componentToHex (c : ℤ) : String :=
  let hex := if c < 0 then "-" ++ natToHex (-c).toNat else natToHex c.toNat
  if hex.length = 1 then "0" ++ hex else hex

/-- `rgbToHex` from colorUtils.ts. -/
def rgbToHex (r g b : ℤ) : String :=
  "#" ++ componentToHex r ++ componentToHex g ++ componentToHex b

/-- Value of one hexadecimal digit, case-insensitive (the `[a-f\d]` class of
`hexToRgb`'s regular expression with the `i` flag). -/
def hexDigitVal (c : Char) : Option ℕ :=
  if '0' ≤ c ∧ c ≤ '9' then some (c.toNat - '0'.toNat)
  else if 'a' ≤ c ∧ c ≤ 'f' then some (c.toNat - 'a'.toNat + 10)
  else if 'A' ≤ c ∧ c ≤ 'F' then some (c.toNat - 'A'.toNat + 10)
  else none

/-- `hexToRgb` from colorUtils.ts: parses `^#?([a-f\d]{2})([a-f\d]{2})([a-f\d]{2})$`
case-insensitively and falls back to black on any malformed input. -/
def hexToRgb (hex : String) : RGB :=
  let cs := hex.data
  let cs := match cs with
    | '#' :: rest => rest
    | _ => cs
  match cs with
  | [c1, c2, c3, c4, c5, c6] =>
    match hexDigitVal c1, hexDigitVal c2, hexDigitVal c3,
          hexDigitVal c4, hexDigitVal c5, hexDigitVal c6 with
    | some v1, some v2, some v3, some v4, some v5, some v6 =>
      ⟨(16 * v1 + v2 : ℕ), (16 * v3 + v4 : ℕ), (16 * v5 + v6 : ℕ)⟩
    | _, _, _, _, _, _ => ⟨0, 0, 0⟩
  | _ => ⟨0, 0, 0⟩

/-- `rgbToHsl` from colorUtils.ts.  Channels are first scaled to `[0,1]`;
the hue/saturation/lightness are rounded to integer degrees/percents.
The `switch (max)` statement tests `case r`, `case g`, `case b` in order,
which the nested conditional reproduces. -/
def rgbToHsl (r0 g0 b0 : ℚ) : HSL :=
  let r := r0 / 255
  let g := g0 / 255
  let b := b0 / 255
  let mx := max r (max g b)
  let mn := min r (min g b)
  let l := (mx + mn) / 2
  if mx = mn then
    ⟨((jsRound (0 * 360) : ℤ) : ℚ), ((jsRound (0 * 100) : ℤ) : ℚ),
     ((jsRound (l * 100) : ℤ) : ℚ)⟩
  else
    let d := mx - mn
    let s := if l > 1/2 then d / (2 - mx - mn) else d / (mx + mn)
    let h6 :=
      if mx = r then (g - b) / d + (if g < b then 6 else 0)
      else if mx = g then (b - r) / d + 2
      else (r - g) / d + 4
    let h := h6 / 6
    ⟨((jsRound (h * 360) : ℤ) : ℚ), ((jsRound (s * 100) : ℤ) : ℚ),
     ((jsRound (l * 100) : ℤ) : ℚ)⟩

/-- `hslToRgb` from colorUtils.ts: `k(n) = (n + h/30) % 12` with the
JavaScript remainder, `a = s * min(l, 1-l)`,
`f(n) = l - a * max(-1, min(k-3, min(9-k, 1)))`. -/
def hslToRgb (h s0 l0 : ℚ) : RGB :=
  let s := s0 / 100
  let l := l0 / 100
  let k : ℚ → ℚ := fun n => jsRem (n + h / 30) 12
  let a := s * min l (1 - l)
  let f : ℚ → ℚ := fun n =>
    l - a * max (-1) (min (k n - 3) (min (9 - k n) 1))
  ⟨jsRound (255 * f 0), jsRound (255 * f 8), jsRound (255 * f 4)⟩

/-- `rgbToCmyk` from colorUtils.ts; when `k = 1` (pure black) the c/m/y
components stay `0`, avoiding the division by zero. -/
def rgbToCmyk (r0 g0 b0 : ℚ) : String :=
  let r := r0 / 255
  let g := g0 / 255
  let b := b0 / 255
  let k := min (1 - r) (min (1 - g) (1 - b))
  let c := if k = 1 then 0 else (1 - r - k) / (1 - k)
  let m := if k = 1 then 0 else (1 - g - k) / (1 - k)
  let y := if k = 1 then 0 else (1 - b - k) / (1 - k)
  let cc := jsRound (c * 100)
  let mm := jsRound (m * 100)
  let yy := jsRound (y * 100)
  let kk := jsRound (k * 100)
  toString cc ++ "% " ++ toString mm ++ "% " ++ toString yy ++ "% " ++
    toString kk ++ "%"

/-- `ColorData` from types.ts. -/
structure ColorData where
  hex : String
  rgb : String
  hsl : String
  cmyk : String
  locked : Bool
  name : Option String := none
deriving DecidableEq, Repr

/-- `hex.toUpperCase()`: character-wise ASCII uppercase. -/
def toUpperStr (s : String) : String := ⟨s.data.map Char.toUpper⟩

/-- `createColorData` from colorUtils.ts: derives the display record from the
hex string; the hex is canonicalised to uppercase. -/
def createColorData (hex : String) : ColorData :=
  let rgb := hexToRgb hex
  let hsl := rgbToHsl (rgb.r : ℚ) (rgb.g : ℚ) (rgb.b : ℚ)
  let cmyk := rgbToCmyk (rgb.r : ℚ) (rgb.g : ℚ) (rgb.b : ℚ)
  { hex := toUpperStr hex
    rgb := toString rgb.r ++ ", " ++ toString rgb.g ++ ", " ++ toString rgb.b
    hsl := toString hsl.h ++ "°, " ++ toString hsl.s ++ "%, " ++
      toString hsl.l ++ "%"
    cmyk := cmyk
    locked := false }

/-- `PaletteMode` from types.ts. -/
inductive PaletteMode
  | analogous | monochromatic | triadic | complementary | splitComplementary
  | tetradic | compound | shades | random | cyberpunk | modernUi
  | retroFuture | warmEarth | hyperWarm
deriving DecidableEq, Repr

/-- The process-wide anti-repetition memory (colorUtils.ts lines 215-247):
`globalHistory` (a `Set` iterated in insertion order, capacity 60),
`recentBaseHues` (capacity 5) and `recentSignatures` (capacity 30). -/
structure Memory where
  hexHistory : List String
  baseHues : List ℚ
  sigs : List String
deriving DecidableEq, Repr

/-- Fresh memory at process start. -/
def Memory.init : Memory := ⟨[], [], []⟩

/-- Engine state: the cursor into the `Math.random()` draw stream together
with the anti-repetition memory. -/
structure St where
  ix : ℕ
  mem : Memory
deriving DecidableEq, Repr

/-- One `Math.random()` call: consume the next draw of the stream. -/
def mrand (rng : ℕ → ℚ) (s : St) : ℚ × St := (rng s.ix, ⟨s.ix + 1, s.mem⟩)

/-- `randomRange` from colorUtils.ts. -/
def randomRange (rng : ℕ → ℚ) (mn mx : ℚ) (s : St) : ℚ × St :=
  let (r, s) := mrand rng s
  (r * (mx - mn) + mn, s)

/-- `randomInt` from colorUtils.ts (`Math.floor` of `randomRange`). -/
def randomInt (rng : ℕ → ℚ) (mn mx : ℚ) (s : St) : ℤ × St :=
  let (v, s) := randomRange rng mn mx s
  (jsFloor v, s)

/-- `chance` from colorUtils.ts. -/
def chance (rng : ℕ → ℚ) (p : ℚ) (s : St) : Bool × St :=
  let (r, s) := mrand rng s
  (decide (r < p), s)

/-- `registerColor`: add to `globalHistory`, evicting the oldest entry once
the size exceeds `HISTORY_LIMIT = 60`.  Adding an already-present hex does
not grow the set (JavaScript `Set.add`). -/
def registerColor (hex : String) (m : Memory) : Memory :=
  let hist := if hex ∈ m.hexHistory then m.hexHistory else m.hexHistory ++ [hex]
  { m with hexHistory := if 60 < hist.length then hist.tail else hist }

/-- `registerBaseHue`: push, shifting the oldest once over `BASE_HUE_LIMIT = 5`. -/
def registerBaseHue (h : ℚ) (m : Memory) : Memory :=
  let l := m.baseHues ++ [h]
  { m with baseHues := if 5 < l.length then l.tail else l }

/-- `registerSignature`: push, shifting the oldest once over
`SIGNATURE_LIMIT = 30`. -/
def registerSignature (sig : String) (m : Memory) : Memory :=
  let l := m.sigs ++ [sig]
  { m with sigs := if 30 < l.length then l.tail else l }

/-- `isHueRecentlyUsed`: 30° circular exclusion zone around the recent
base hues. -/
def isHueRecentlyUsed (h : ℚ) (m : Memory) : Bool :=
  m.baseHues.any fun recent =>
    decide (min |h - recent| (360 - |h - recent|) < 30)

/-- `Vibe` from colorUtils.ts. -/
structure Vibe where
  name : String
  sMin : ℚ
  sMax : ℚ
  lMin : ℚ
  lMax : ℚ
deriving DecidableEq, Repr

/-- `getWeightedVibe`: the fixed probability table over the six vibes. -/
def getWeightedVibe (rng : ℕ → ℚ) (s : St) : Vibe × St :=
  let (r, s) := mrand rng s
  if r < 40/100 then (⟨"vivid", 70, 100, 40, 65⟩, s)
  else if r < 65/100 then (⟨"bright", 60, 90, 70, 90⟩, s)
  else if r < 80/100 then (⟨"deep", 40, 80, 15, 35⟩, s)
  else if r < 90/100 then (⟨"dynamic", 20, 100, 20, 90⟩, s)
  else if r < 95/100 then (⟨"pastel", 30, 60, 85, 96⟩, s)
  else (⟨"muted", 5, 30, 40, 70⟩, s)

/-- `areColorsTooSimilar` from colorUtils.ts. -/
def areColorsTooSimilar (h1 s1 l1 h2 s2 l2 : ℚ) : Bool :=
  let hDiff := min |h1 - h2| (360 - |h1 - h2|)
  let sDiff := |s1 - s2|
  let lDiff := |l1 - l2|
  if hDiff < 10 then
    if s1 < 10 ∧ s2 < 10 then decide (lDiff < 15)
    else decide (lDiff < 20 ∧ sDiff < 20)
  else if hDiff < 30 then decide (lDiff < 15 ∧ sDiff < 15)
  else false

/-- Accumulator of `calculatePaletteSignature`'s `forEach` pass. -/
structure SigAcc where
  minL : ℚ
  maxL : ℚ
  neutralCount : ℕ
  hueB : List ℤ
  satB : List ℤ
  lumB : List ℤ
  roles : List String

/-- `calculatePaletteSignature`: the coarse, order-independent structural
fingerprint of a palette (hue/sat/lum buckets, role letters, neutral count,
contrast bucket). -/
def calculatePaletteSignature (colors : List ColorData) : String :=
  let hsls := colors.map fun c =>
    let rgb := hexToRgb c.hex
    rgbToHsl (rgb.r : ℚ) (rgb.g : ℚ) (rgb.b : ℚ)
  let acc : SigAcc := hsls.foldl (fun acc hsl =>
    let acc := { acc with
      minL := min acc.minL hsl.l
      maxL := max acc.maxL hsl.l
      satB := acc.satB ++ [jsFloor (hsl.s / 20)]
      lumB := acc.lumB ++ [jsFloor (hsl.l / 20)] }
    if hsl.s < 12 then
      { acc with
        neutralCount := acc.neutralCount + 1
        roles := acc.roles ++
          [if hsl.l < 30 then "ND" else if hsl.l > 70 then "NL" else "NM"] }
    else
      { acc with
        hueB := acc.hueB ++ [jsFloor (hsl.h / 15)]
        roles := acc.roles ++
          [if hsl.s > 75 then "V"
           else if hsl.l < 30 then "D"
           else if hsl.l > 70 then "L"
           else "M"] })
    ⟨100, 0, 0, [], [], [], []⟩
  let hueB := acc.hueB.mergeSort fun a b => decide (a ≤ b)
  let satB := acc.satB.mergeSort fun a b => decide (a ≤ b)
  let lumB := acc.lumB.mergeSort fun a b => decide (a ≤ b)
  let roles := acc.roles.mergeSort fun a b => !(decide (b < a))
  let contrast := jsFloor ((acc.maxL - acc.minL) / 20)
  "H:" ++ String.intercalate "," (hueB.map toString) ++
  "|S:" ++ String.intercalate "," (satB.map toString) ++
  "|L:" ++ String.intercalate "," (lumB.map toString) ++
  "|R:" ++ String.intercalate "," roles ++
  "|N:" ++ toString acc.neutralCount ++
  "|C:" ++ toString contrast

/-- Default `ColorData` (used only as the `getD` fallback of in-bounds
list accesses). -/
def cdDefault : ColorData := ⟨"", "", "", "", false, none⟩

/-- Default `HSL` (used only as the `getD` fallback of in-bounds accesses). -/
def hslDefault : HSL := ⟨0, 0, 0⟩

/-- The local state of one `generateCandidate` run: the `palette` array,
the `paletteColors` HSL trace, and the engine state. -/
structure GenSt where
  palette : List ColorData
  pcs : List HSL
  st : St
deriving Repr

/-- `addColor` (colorUtils.ts lines 410-435): normalize the hue into
`[0,360)`, clamp saturation/lightness, reject candidates too similar to an
already-accepted color, nudge lightness by ±5 when the hex is already in
the global history, then accept and register. -/
def addColor (rng : ℕ → ℚ) (h0 s0 l0 : ℚ) (g : GenSt) : Bool × GenSt :=
  let h1 := jsRem h0 360
  let h := if h1 < 0 then h1 + 360 else h1
  let s := clamp s0 0 100
  let l := clamp l0 5 98
  if g.pcs.any (fun pc => areColorsTooSimilar h s l pc.h pc.s pc.l) then
    (false, g)
  else
    let rgb := hslToRgb h s l
    let hex := rgbToHex rgb.r rgb.g rgb.b
    if hex ∈ g.st.mem.hexHistory then
      let cr := chance rng (1/2) g.st
      let l2 := clamp (l + (if cr.1 then 5 else -5)) 5 95
      let rgb2 := hslToRgb h s l2
      let hex2 := rgbToHex rgb2.r rgb2.g rgb2.b
      (true, { palette := g.palette ++ [createColorData hex2]
               pcs := g.pcs ++ [⟨h, s, l2⟩]
               st := { cr.2 with mem := registerColor hex2 cr.2.mem } })
    else
      (true, { palette := g.palette ++ [createColorData hex]
               pcs := g.pcs ++ [⟨h, s, l⟩]
               st := { g.st with mem := registerColor hex g.st.mem } })

/-- `safeAddColor`: retry with a +20 lightness shift, then a +30 hue shift,
then give up (the third `addColor`'s failure is ignored). -/
def safeAddColor (rng : ℕ → ℚ) (h s l : ℚ) (g : GenSt) : GenSt :=
  let r1 := addColor rng h s l g
  if r1.1 then r1.2
  else
    let r2 := addColor rng h s (clamp (l + 20) 0 100) r1.2
    if r2.1 then r2.2
    else (addColor rng (h + 30) s l r2.2).2

/-- The base-hue `do ... while` of `generateCandidate`: redraw (at most 10
attempts in total, so at most 9 retries) while the drawn hue falls in the
exclusion zone of a recent base hue. -/
def pickFreshHue (rng : ℕ → ℚ) : ℕ → St → ℚ × St
  | 0, s =>
    let r := randomInt rng 0 360 s
    ((r.1 : ℚ), r.2)
  | k + 1, s =>
    let r := randomInt rng 0 360 s
    if isHueRecentlyUsed (r.1 : ℚ) r.2.mem then pickFreshHue rng k r.2
    else ((r.1 : ℚ), r.2)

/-- The golden-ratio hue step `0.618033988749895 * 360` of the
`golden-ratio` strategy. -/
def goldenStep : ℚ := 618033988749895 / 10 ^ 15 * 360

/-- The `polychrome` strategy. -/
def stratPolychrome (rng : ℕ → ℚ) (count : ℕ) (g : GenSt) : GenSt :=
  let slice := 360 / (count : ℚ)
  let off := randomInt rng 0 360 g.st
  (List.range count).foldl (fun g i =>
    let j := randomInt rng (-20) 20 g.st
    let sv := randomInt rng 50 95 j.2
    let lv := randomInt rng 30 80 sv.2
    safeAddColor rng ((off.1 : ℚ) + (i : ℚ) * slice + (j.1 : ℚ)) (sv.1 : ℚ)
      (lv.1 : ℚ) { g with st := lv.2 }) { g with st := off.2 }

/-- The `divergent` strategy. -/
def stratDivergent (rng : ℕ → ℚ) (count : ℕ) (baseH : ℚ) (g : GenSt) : GenSt :=
  let h1 := baseH
  let h2 := jsRem (baseH + 180) 360
  (List.range count).foldl (fun g i =>
    let target := if i % 2 = 0 then h1 else h2
    let j := randomInt rng (-40) 40 g.st
    let sv := randomInt rng 40 90 j.2
    let lv := randomInt rng 20 80 sv.2
    safeAddColor rng (target + (j.1 : ℚ)) (sv.1 : ℚ) (lv.1 : ℚ)
      { g with st := lv.2 }) g

/-- The `complex-rhythm` strategy (137.5° stepping). -/
def stratComplexRhythm (rng : ℕ → ℚ) (count : ℕ) (vibe : Vibe) (baseH : ℚ)
    (g : GenSt) : GenSt :=
  let step : ℚ := 275 / 2
  (List.range count).foldl (fun g i =>
    let sv := randomInt rng vibe.sMin (min 100 (vibe.sMax + 20)) g.st
    let lv := randomInt rng vibe.lMin vibe.lMax sv.2
    safeAddColor rng (baseH + (i : ℚ) * step) (sv.1 : ℚ) (lv.1 : ℚ)
      { g with st := lv.2 }) g

/-- The `cinematic` strategy (warm/cool pairing). -/
def stratCinematic (rng : ℕ → ℚ) (count : ℕ) (g : GenSt) : GenSt :=
  let pt := mrand rng g.st
  let wc : ℚ × ℚ :=
    if pt.1 < 33/100 then (25, 195)
    else if pt.1 < 66/100 then (340, 160)
    else (50, 240)
  let sh := randomInt rng (-20) 20 pt.2
  let warmH := wc.1 + (sh.1 : ℚ)
  let coolH := wc.2 + (sh.1 : ℚ)
  (List.range count).foldl (fun g _ =>
    let cw := chance rng (40/100) g.st
    let h := if cw.1 then warmH else coolH
    let j := randomInt rng (-15) 15 cw.2
    let sv := randomInt rng 50 90 j.2
    let lv := if cw.1 then randomInt rng 50 70 sv.2 else randomInt rng 20 50 sv.2
    safeAddColor rng (h + (j.1 : ℚ)) (sv.1 : ℚ) (lv.1 : ℚ)
      { g with st := lv.2 }) { g with st := sh.2 }

/-- The `structural-duo` strategy. -/
def stratStructuralDuo (rng : ℕ → ℚ) (count : ℕ) (vibe : Vibe) (baseH : ℚ)
    (g : GenSt) : GenSt :=
  let dv := randomInt rng 80 280 g.st
  let h2 := jsRem (baseH + (dv.1 : ℚ)) 360
  (List.range count).foldl (fun g i =>
    let targetH := if (i : ℚ) < (count : ℚ) / 2 then baseH else h2
    let j := randomInt rng (-10) 10 g.st
    let sv := randomInt rng vibe.sMin vibe.sMax j.2
    let lv := randomInt rng 10 90 sv.2
    safeAddColor rng (targetH + (j.1 : ℚ)) (sv.1 : ℚ) (lv.1 : ℚ)
      { g with st := lv.2 }) { g with st := dv.2 }

/-- The `structural-trio` strategy. -/
def stratStructuralTrio (rng : ℕ → ℚ) (count : ℕ) (baseH : ℚ) (g : GenSt) :
    GenSt :=
  let d1 := randomInt rng 90 150 g.st
  let h2 := jsRem (baseH + (d1.1 : ℚ)) 360
  let d2 := randomInt rng 90 150 d1.2
  let h3 := jsRem (h2 + (d2.1 : ℚ)) 360
  let hues := [baseH, h2, h3]
  (List.range count).foldl (fun g i =>
    let j := randomInt rng (-10) 10 g.st
    let sv := randomInt rng 40 90 j.2
    let lv := randomInt rng 30 80 sv.2
    safeAddColor rng (hues.getD (i % 3) 0 + (j.1 : ℚ)) (sv.1 : ℚ) (lv.1 : ℚ)
      { g with st := lv.2 }) { g with st := d2.2 }

/-- The `anchor-focus` strategy. -/
def stratAnchorFocus (rng : ℕ → ℚ) (count : ℕ) (baseH : ℚ) (g : GenSt) :
    GenSt :=
  let isDark := chance rng (1/2) g.st
  let na := randomInt rng 1 2 isDark.2
  (List.range count).foldl (fun g i =>
    if (i : ℤ) < na.1 then
      if isDark.1 then
        let lv := randomInt rng 5 12 g.st
        safeAddColor rng baseH 5 (lv.1 : ℚ) { g with st := lv.2 }
      else
        let lv := randomInt rng 90 98 g.st
        safeAddColor rng baseH 5 (lv.1 : ℚ) { g with st := lv.2 }
    else
      let accentH := jsRem (baseH + (i : ℚ) * 50 + 60) 360
      let sv := randomInt rng 70 100 g.st
      let lv := randomInt rng 45 65 sv.2
      safeAddColor rng accentH (sv.1 : ℚ) (lv.1 : ℚ) { g with st := lv.2 })
    { g with st := na.2 }

/-- The `golden-ratio` strategy (golden-angle hue stepping). -/
def stratGoldenAngle (rng : ℕ → ℚ) (count : ℕ) (vibe : Vibe) (baseH : ℚ)
    (g : GenSt) : GenSt :=
  (List.range count).foldl (fun g i =>
    let sv := randomInt rng vibe.sMin vibe.sMax g.st
    let lv := randomInt rng vibe.lMin vibe.lMax sv.2
    safeAddColor rng (jsRem (baseH + (i : ℚ) * goldenStep) 360) (sv.1 : ℚ)
      (lv.1 : ℚ) { g with st := lv.2 }) g

/-- The `analogous-walk` strategy (directional hue walk). -/
def stratAnalogousWalk (rng : ℕ → ℚ) (count : ℕ) (baseH baseS baseL : ℚ)
    (g : GenSt) : GenSt :=
  let stepI := randomInt rng 30 50 g.st
  let dir := chance rng (1/2) stepI.2
  let step := (stepI.1 : ℚ) * (if dir.1 then 1 else -1)
  ((List.range count).foldl (fun (p : GenSt × ℚ) _ =>
    let j1 := randomInt rng (-10) 10 p.1.st
    let j2 := randomInt rng (-15) 15 j1.2
    (safeAddColor rng p.2 (clamp (baseS + (j1.1 : ℚ)) 30 90)
      (clamp (baseL + (j2.1 : ℚ)) 30 80) { p.1 with st := j2.2 },
     p.2 + step)) ({ g with st := dir.2 }, baseH)).1

/-- The `triadic-scatter` strategy. -/
def stratTriadicScatter (rng : ℕ → ℚ) (count : ℕ) (baseH : ℚ) (g : GenSt) :
    GenSt :=
  (List.range count).foldl (fun g i =>
    let j := randomInt rng (-30) 30 g.st
    let offset := ((i % 3 : ℕ) : ℚ) * 120 + (j.1 : ℚ)
    let sv := randomInt rng 60 95 j.2
    let lv := randomInt rng 30 80 sv.2
    safeAddColor rng (baseH + offset) (sv.1 : ℚ) (lv.1 : ℚ)
      { g with st := lv.2 }) g

/-- The `neutral-pop` strategy. -/
def stratNeutralPop (rng : ℕ → ℚ) (count : ℕ) (baseH : ℚ) (g : GenSt) :
    GenSt :=
  let popIndex := randomInt rng 0 ((count : ℚ) - 1) g.st
  (List.range count).foldl (fun g i =>
    if (i : ℤ) = popIndex.1 then
      let sv := randomInt rng 80 100 g.st
      safeAddColor rng (jsRem (baseH + 180) 360) (sv.1 : ℚ) 60
        { g with st := sv.2 }
    else
      let j := randomInt rng (-20) 20 g.st
      let sv := randomInt rng 0 20 j.2
      let lv := randomInt rng 20 90 sv.2
      safeAddColor rng (baseH + (j.1 : ℚ)) (sv.1 : ℚ) (lv.1 : ℚ)
        { g with st := lv.2 }) { g with st := popIndex.2 }

/-- The `pastel-dream` strategy. -/
def stratPastelDream (rng : ℕ → ℚ) (count : ℕ) (baseH : ℚ) (g : GenSt) :
    GenSt :=
  (List.range count).foldl (fun g i =>
    let j := randomInt rng (-20) 20 g.st
    let sv := randomInt rng 40 70 j.2
    let lv := randomInt rng 80 94 sv.2
    safeAddColor rng (jsRem (baseH + (i : ℚ) * 70 + (j.1 : ℚ)) 360) (sv.1 : ℚ)
      (lv.1 : ℚ) { g with st := lv.2 }) g

/-- The `high-contrast-clash` strategy. -/
def stratHighContrastClash (rng : ℕ → ℚ) (count : ℕ) (baseH : ℚ)
    (g : GenSt) : GenSt :=
  (List.range count).foldl (fun g i =>
    let c := chance rng (1/2) g.st
    let lv := if c.1 then randomInt rng 10 25 c.2 else randomInt rng 80 95 c.2
    let sv := randomInt rng 60 90 lv.2
    safeAddColor rng (jsRem (baseH + (i : ℚ) * 140) 360) (sv.1 : ℚ) (lv.1 : ℚ)
      { g with st := sv.2 }) g

/-- The `monochromatic-texture` strategy, also the switch default. -/
def stratMonoTexture (rng : ℕ → ℚ) (count : ℕ) (baseH : ℚ) (g : GenSt) :
    GenSt :=
  let startL : ℚ := 20
  let endL : ℚ := 90
  let stepL := (endL - startL) / (count : ℚ)
  (List.range count).foldl (fun g i =>
    let j := randomInt rng (-15) 15 g.st
    let sv := randomInt rng 30 80 j.2
    let l2 := randomInt rng (-5) 5 sv.2
    safeAddColor rng (baseH + (j.1 : ℚ)) (sv.1 : ℚ)
      (startL + (i : ℚ) * stepL + (l2.1 : ℚ)) { g with st := l2.2 }) g

/-- One strategy of the `random` meta-mode (the `switch (strategy)` of
`generateCandidate`); the `default` case runs `monochromatic-texture`. -/
def runRandomStrategy (rng : ℕ → ℚ) (strategy : String) (count : ℕ)
    (vibe : Vibe) (baseH baseS baseL : ℚ) (g : GenSt) : GenSt :=
  match strategy with
  | "polychrome" => stratPolychrome rng count g
  | "divergent" => stratDivergent rng count baseH g
  | "complex-rhythm" => stratComplexRhythm rng count vibe baseH g
  | "cinematic" => stratCinematic rng count g
  | "structural-duo" => stratStructuralDuo rng count vibe baseH g
  | "structural-trio" => stratStructuralTrio rng count baseH g
  | "anchor-focus" => stratAnchorFocus rng count baseH g
  | "golden-ratio" => stratGoldenAngle rng count vibe baseH g
  | "analogous-walk" => stratAnalogousWalk rng count baseH baseS baseL g
  | "triadic-scatter" => stratTriadicScatter rng count baseH g
  | "neutral-pop" => stratNeutralPop rng count baseH g
  | "pastel-dream" => stratPastelDream rng count baseH g
  | "high-contrast-clash" => stratHighContrastClash rng count baseH g
  | _ => stratMonoTexture rng count baseH g

/-- The strategy list of the `random` meta-mode, in source order. -/
def randomStrategies : List String :=
  ["golden-ratio", "analogous-walk", "triadic-scatter",
   "neutral-pop", "high-contrast-clash",
   "monochromatic-texture", "structural-duo", "structural-trio",
   "anchor-focus", "polychrome", "divergent",
   "complex-rhythm", "cinematic"]

/-- The mode-execution block of `generateCandidate` (colorUtils.ts lines
445-658): runs one generation procedure selected by the mode, drawing from
the RNG stream in source evaluation order. -/
def runModePhase (rng : ℕ → ℚ) (mode : PaletteMode) (count : ℕ) (vibe : Vibe)
    (baseH baseS baseL : ℚ) (g : GenSt) : GenSt :=
  match mode with
  | .random =>
    let (pd, s) := chance rng (5/100) g.st
    let strategies := if pd then randomStrategies ++ ["pastel-dream"]
                      else randomStrategies
    let (r, s) := mrand rng s
    let strategy := strategies.getD (jsFloor (r * (strategies.length : ℚ))).toNat ""
    runRandomStrategy rng strategy count vibe baseH baseS baseL { g with st := s }
  | .warmEarth =>
    let (shI, s) := randomInt rng 350 390 g.st
    let startH := jsRem (shI : ℚ) 360
    let (totalShift, s) := randomInt rng 30 60 s
    let (startL, s) := randomInt rng 15 25 s
    let (endL, s) := randomInt rng 65 85 s
    (List.range count).foldl (fun g i =>
      let denom : ℚ := if (count : ℚ) - 1 = 0 then 1 else (count : ℚ) - 1
      let progress := (i : ℚ) / denom
      let currentH := jsRem (startH + progress * (totalShift : ℚ)) 360
      let (svI, s) := randomInt rng 50 80 g.st
      let sv := clamp ((svI : ℚ) + progress * 20) 40 100
      let (ljI, s) := randomInt rng (-5) 5 s
      let lv := clamp ((startL : ℚ) + progress * ((endL : ℚ) - (startL : ℚ)) + (ljI : ℚ)) 10 95
      safeAddColor rng currentH sv lv { g with st := s }) { g with st := s }
  | .hyperWarm =>
    (List.range count).foldl (fun g _ =>
      let hI := randomInt rng 320 410 g.st
      let h := jsRem (hI.1 : ℚ) 360
      let sv := randomInt rng 80 100 hI.2
      let lv :=
        if 40 ≤ h ∧ h ≤ 70 then randomInt rng 60 90 sv.2
        else if 10 ≤ h ∧ h < 40 then randomInt rng 50 75 sv.2
        else randomInt rng 45 65 sv.2
      safeAddColor rng h (sv.1 : ℚ) (lv.1 : ℚ) { g with st := lv.2 }) g
  | .cyberpunk =>
    let stp := mrand rng g.st
    if stp.1 < 33/100 then
      let sv := randomInt rng 20 40 stp.2
      let lv := randomInt rng 5 12 sv.2
      let g1 := safeAddColor rng baseH (sv.1 : ℚ) (lv.1 : ℚ) { g with st := lv.2 }
      (List.range' 1 (count - 1)).foldl (fun g i =>
        safeAddColor rng (jsRem (baseH + 120 + (i : ℚ) * 50) 360) 100 60 g) g1
    else if stp.1 < 66/100 then
      let g1 := safeAddColor rng 0 0 5 { g with st := stp.2 }
      (List.range' 1 (count - 1)).foldl (fun g _ =>
        let j := randomInt rng (-30) 30 g.st
        let sv := randomInt rng 80 100 j.2
        let lv := randomInt rng 30 80 sv.2
        safeAddColor rng (baseH + (j.1 : ℚ)) (sv.1 : ℚ) (lv.1 : ℚ)
          { g with st := lv.2 }) g1
    else
      (List.range count).foldl (fun g i =>
        let sv := randomInt rng 80 100 g.st
        let lv := randomInt rng 40 70 sv.2
        safeAddColor rng (jsRem (baseH + (i : ℚ) * 40) 360) (sv.1 : ℚ) (lv.1 : ℚ)
          { g with st := lv.2 }) { g with st := stp.2 }
  | .modernUi =>
    let bd := randomInt rng 0 60 g.st
    let brandH := jsRem (baseH + (bd.1 : ℚ)) 360
    let sv1 := randomInt rng 70 90 bd.2
    let lv1 := randomInt rng 45 60 sv1.2
    let g1 := safeAddColor rng brandH (sv1.1 : ℚ) (lv1.1 : ℚ) { g with st := lv1.2 }
    let g2 := safeAddColor rng brandH 5 96 g1
    let g3 := safeAddColor rng brandH 10 15 g2
    let sv2 := randomInt rng 60 80 g3.st
    let lv2 := randomInt rng 50 70 sv2.2
    let g4 := safeAddColor rng (jsRem (brandH + 180) 360) (sv2.1 : ℚ) (lv2.1 : ℚ)
      { g3 with st := lv2.2 }
    (List.range' 4 (count - 4)).foldl (fun g _ =>
      let lv := randomInt rng 80 90 g.st
      safeAddColor rng brandH 5 (lv.1 : ℚ) { g with st := lv.2 }) g4
  | .retroFuture =>
    (List.range count).foldl (fun g i =>
      let c := chance rng (40/100) g.st
      if c.1 then
        let sv := randomInt rng 0 5 c.2
        let lv := randomInt rng 75 95 sv.2
        safeAddColor rng baseH (sv.1 : ℚ) (lv.1 : ℚ) { g with st := lv.2 }
      else
        let sv := randomInt rng 80 100 c.2
        let lv := randomInt rng 50 70 sv.2
        safeAddColor rng (jsRem (baseH + (i : ℚ) * 90) 360) (sv.1 : ℚ) (lv.1 : ℚ)
          { g with st := lv.2 }) g
  | .compound =>
    let hues := [baseH, jsRem (baseH + 180) 360, jsRem (baseH + 30) 360,
                 jsRem (baseH + 210) 360, jsRem (baseH + 150) 360]
    (List.range count).foldl (fun g i =>
      let (j, s) := randomInt rng (-10) 10 g.st
      let (sv, s) := randomInt rng vibe.sMin vibe.sMax s
      let (lv, s) := randomInt rng vibe.lMin vibe.lMax s
      safeAddColor rng (hues.getD (i % 5) 0 + (j : ℚ)) (sv : ℚ) (lv : ℚ)
        { g with st := s }) g
  | .shades =>
    (List.range count).foldl (fun g _ =>
      let (j, s) := randomInt rng (-5) 5 g.st
      let (sv, s) := randomInt rng 10 90 s
      let (lv, s) := randomInt rng 10 90 s
      safeAddColor rng (baseH + (j : ℚ)) (sv : ℚ) (lv : ℚ) { g with st := s }) g
  | _ =>
    -- monochromatic / analogous / triadic / tetradic / split-complementary
    -- and the complementary default: build the hue list, then add
    let hp : List ℚ × St :=
      match mode with
      | .monochromatic =>
        (List.range count).foldl (fun (p : List ℚ × St) _ =>
          let (j, s) := randomInt rng (-10) 10 p.2
          (p.1 ++ [baseH + (j : ℚ)], s)) ([], g.st)
      | .analogous =>
        let (spread, s) := randomInt rng 30 60 g.st
        let start := baseH - ((count : ℚ) - 1) * (spread : ℚ) / 2
        ((List.range count).map fun i => start + (i : ℚ) * (spread : ℚ), s)
      | .triadic =>
        (List.range count).foldl (fun (p : List ℚ × St) i =>
          let (j, s) := randomInt rng (-15) 15 p.2
          (p.1 ++ [baseH + (i : ℚ) * 120 + (j : ℚ)], s)) ([], g.st)
      | .tetradic =>
        let bases := [baseH, baseH + 180, baseH + 90, baseH + 270]
        (List.range count).foldl (fun (p : List ℚ × St) i =>
          let (j, s) := randomInt rng (-15) 15 p.2
          (p.1 ++ [bases.getD (i % 4) 0 + (j : ℚ)], s)) ([], g.st)
      | .splitComplementary =>
        let (spread, s) := randomInt rng 30 50 g.st
        let bases := [baseH, baseH + 180 - (spread : ℚ), baseH + 180 + (spread : ℚ)]
        (List.range count).foldl (fun (p : List ℚ × St) i =>
          let (j, s) := randomInt rng (-10) 10 p.2
          (p.1 ++ [bases.getD (i % 3) 0 + (j : ℚ)], s)) ([], s)
      | _ =>
        (List.range count).foldl (fun (p : List ℚ × St) i =>
          let (j, s) := randomInt rng (-10) 10 p.2
          (p.1 ++ [baseH + ((i % 2 : ℕ) : ℚ) * 180 + (j : ℚ)], s)) ([], g.st)
    let hues := hp.1
    let g := { g with st := hp.2 }
    if mode = .monochromatic then
      let startL : ℚ := 15
      let endL : ℚ := 95
      let denom : ℚ := if (count : ℚ) - 1 = 0 then 1 else (count : ℚ) - 1
      let step := (endL - startL) / denom
      (List.range count).foldl (fun g i =>
        let (j, s) := randomInt rng (-10) 10 g.st
        safeAddColor rng (hues.getD i 0) (clamp (baseS + (j : ℚ)) 0 90)
          (startL + (i : ℚ) * step) { g with st := s }) g
    else
      (List.range count).foldl (fun g i =>
        let (sv, s) := randomInt rng vibe.sMin vibe.sMax g.st
        let (lv, s) := randomInt rng vibe.lMin vibe.lMax s
        safeAddColor rng (hues.getD i 0) (sv : ℚ) (lv : ℚ) { g with st := s }) g

/-- The `while (palette.length < count) safeAddColor(...)` fill loop.  The
source loop is unbounded, so the model carries fuel; the Boolean records
whether the loop exited normally (`true`) or the fuel ran out while the
palette was still short (`false`, the source would keep looping). -/
def fillLoop (rng : ℕ → ℚ) (count : ℕ) : ℕ → GenSt → Bool × GenSt
  | 0, g => (decide (¬ g.palette.length < count), g)
  | fuel + 1, g =>
    if g.palette.length < count then
      let (h, s) := randomInt rng 0 360 g.st
      let (sv, s) := randomInt rng 50 90 s
      let (lv, s) := randomInt rng 40 60 s
      fillLoop rng count fuel
        (safeAddColor rng (h : ℚ) (sv : ℚ) (lv : ℚ) { g with st := s })
    else (true, g)

/-- The decoded HSL list `enforceContrastAndVibrancy` computes from the
palette. -/
def enforceHsls (palette : List ColorData) : List HSL :=
  palette.map fun c =>
    let rgb := hexToRgb c.hex
    rgbToHsl (rgb.r : ℚ) (rgb.g : ℚ) (rgb.b : ℚ)

/-- The washed-out test of `enforceContrastAndVibrancy`. -/
def isWashedOutB (palette : List ColorData) : Bool :=
  decide (((((enforceHsls palette).filter fun c =>
    c.l > 75 ∧ c.s < 70).length : ℚ)) / (palette.length : ℚ) ≥ 7/10)

/-- The dull test of `enforceContrastAndVibrancy`. -/
def isDullB (palette : List ColorData) : Bool :=
  decide (((((enforceHsls palette).filter fun c =>
    c.s < 30).length : ℚ)) / (palette.length : ℚ) ≥ 8/10)

/-- The lightness-range (flat) test of `enforceContrastAndVibrancy`. -/
def isFlatB (palette : List ColorData) : Bool :=
  decide (((enforceHsls palette).map HSL.l).foldl max 0 -
    ((enforceHsls palette).map HSL.l).foldl min 100 < 25)

/-- The darkest/lightest index scan of the flat branch. -/
def enforceIdxs (palette : List ColorData) : ℕ × ℕ :=
  let hsls := enforceHsls palette
  (List.range hsls.length).foldl (fun (p : ℕ × ℕ) i =>
    let c := hsls.getD i hslDefault
    let mi := if c.l < (hsls.getD p.1 hslDefault).l then i else p.1
    let ma := if c.l > (hsls.getD p.2 hslDefault).l then i else p.2
    (mi, ma)) (0, 0)

/-- Whether the flat branch darkens the darkest palette entry. -/
def stretched1B (palette : List ColorData) : Bool :=
  decide (((enforceHsls palette).getD (enforceIdxs palette).1 hslDefault).l > 20)

/-- The HSL list after the flat branch's darkening step. -/
def flatHsls1 (palette : List ColorData) : List HSL :=
  let hsls := enforceHsls palette
  let minIdx := (enforceIdxs palette).1
  if stretched1B palette then
    hsls.set minIdx
      (let c := hsls.getD minIdx hslDefault; { c with l := max 5 (c.l - 25) })
  else hsls

/-- Whether the flat branch lightens the lightest palette entry (tested
after the darkening step). -/
def stretched2B (palette : List ColorData) : Bool :=
  decide (((flatHsls1 palette).getD (enforceIdxs palette).2 hslDefault).l < 85)

/-- The HSL list after both flat-branch stretches. -/
def flatHsls2 (palette : List ColorData) : List HSL :=
  let hsls := flatHsls1 palette
  let maxIdx := (enforceIdxs palette).2
  if stretched2B palette then
    hsls.set maxIdx
      (let c := hsls.getD maxIdx hslDefault; { c with l := min 98 (c.l + 15) })
  else hsls

/-- Rebuild `ColorData` entries from an updated HSL list (the `map` at the
end of every modifying branch of `enforceContrastAndVibrancy`). -/
def rebuildPalette (hsls : List HSL) : List ColorData :=
  hsls.map fun hc =>
    let rgb := hslToRgb hc.h hc.s hc.l
    createColorData (rgbToHex rgb.r rgb.g rgb.b)

/-- `enforceContrastAndVibrancy` (colorUtils.ts lines 298-374): classify the
palette as washed-out / dull / flat and surgically modify one or two
entries, rebuilding every color from the (partially) updated HSL list. -/
def enforceContrastAndVibrancy (rng : ℕ → ℚ) (palette : List ColorData)
    (s : St) : List ColorData × St :=
  if palette.length < 2 then (palette, s)
  else
    let hsls := enforceHsls palette
    if isWashedOutB palette then
      let lv := randomInt rng 15 30 s
      let hsls1 := hsls.set 0
        (let c := hsls.getD 0 hslDefault;
         { c with l := (lv.1 : ℚ), s := max c.s 50 })
      if 4 ≤ palette.length then
        let idx2 := palette.length - 1
        let lv2 := randomInt rng 45 60 lv.2
        let sv2 := randomInt rng 80 100 lv2.2
        let hsls2 := hsls1.set idx2
          (let c := hsls1.getD idx2 hslDefault;
           { c with l := (lv2.1 : ℚ), s := (sv2.1 : ℚ) })
        (rebuildPalette hsls2, sv2.2)
      else (rebuildPalette hsls1, lv.2)
    else if isDullB palette then
      let idxI := randomInt rng 0 ((palette.length : ℚ) - 1) s
      let idx := idxI.1.toNat
      let sv := randomInt rng 85 100 idxI.2
      let lv := randomInt rng 50 65 sv.2
      let hsls1 := hsls.set idx
        (let c := hsls.getD idx hslDefault;
         { c with s := (sv.1 : ℚ), l := (lv.1 : ℚ) })
      (rebuildPalette hsls1, lv.2)
    else if isFlatB palette then
      if stretched1B palette ∨ stretched2B palette then
        (rebuildPalette (flatHsls2 palette), s)
      else (palette, s)
    else (palette, s)

/-- Fisher–Yates shuffle as written in `generateCandidate`:
`for (i = len-1; i > 0; i--) { j = floor(random() * (i+1)); swap(i, j) }`.
The first argument is the current swap index `i`. -/
def fisherYates (rng : ℕ → ℚ) : ℕ → List ColorData → St → List ColorData × St
  | 0, l, s => (l, s)
  | i + 1, l, s =>
    let (r, s) := mrand rng s
    let j := (jsFloor (r * ((i + 2 : ℕ) : ℚ))).toNat
    let vi := l.getD (i + 1) cdDefault
    let vj := l.getD j cdDefault
    fisherYates rng i ((l.set (i + 1) vj).set j vi) s

/-- `noShuffleModes` from `generateCandidate`. -/
def noShuffleModes : List PaletteMode :=
  [.monochromatic, .analogous, .warmEarth, .hyperWarm]

/-- The arrangement step of `generateCandidate` (colorUtils.ts lines
671-683), transcribed with its guards verbatim: the `else if` branch keeps
the condition `!noShuffleModes.includes(mode) && chance(0.5)`, whose left
conjunct short-circuits before `chance` is evaluated. -/
def arrangeStage (rng : ℕ → ℚ) (mode : PaletteMode) (palette : List ColorData)
    (s : St) : List ColorData × St :=
  if ¬ (mode ∈ noShuffleModes) then
    fisherYates rng (palette.length - 1) palette s
  else
    if ¬ (mode ∈ noShuffleModes) then
      let (c, s) := chance rng (1/2) s
      if c then fisherYates rng (palette.length - 1) palette s else (palette, s)
    else (palette, s)

/-- The base-point selection of `generateCandidate`: a caller-supplied seed
is decoded to HSL and used directly (no draw, no anti-repetition); otherwise
a fresh base hue is drawn, registered, and saturation/lightness are drawn
from the vibe bracket. -/
def generateBase (rng : ℕ → ℚ) (vibe : Vibe) (baseColor : Option String)
    (s1 : St) : ℚ × ℚ × ℚ × St :=
  match baseColor with
  | some bc =>
    let rgb := hexToRgb bc
    let hsl := rgbToHsl (rgb.r : ℚ) (rgb.g : ℚ) (rgb.b : ℚ)
    (hsl.h, hsl.s, hsl.l, s1)
  | none =>
    let (h, s) := pickFreshHue rng 9 s1
    let s : St := { s with mem := registerBaseHue h s.mem }
    let (bS, s) := randomInt rng vibe.sMin vibe.sMax s
    let (bL, s) := randomInt rng vibe.lMin vibe.lMax s
    (h, (bS : ℚ), (bL : ℚ), s)

/-- The vibe draw, base-point selection and mode execution of one
`generateCandidate` run, up to (not including) the fill loop. -/
def candidateStart (rng : ℕ → ℚ) (mode : PaletteMode) (count : ℕ)
    (baseColor : Option String) (s0 : St) : GenSt :=
  let (vibe, s1) := getWeightedVibe rng s0
  let base := generateBase rng vibe baseColor s1
  runModePhase rng mode count vibe base.1 base.2.1 base.2.2.1
    ⟨[], [], base.2.2.2⟩

/-- `generateCandidate` (colorUtils.ts lines 381-685): vibe selection, base
point selection, mode execution, fill loop, contrast enforcement (skipped
for monochromatic/shades) and the arrangement step.  Returns `none` when
the fill loop's fuel is exhausted (the source would loop forever); the
returned `GenSt` carries the final engine state and the `paletteColors`
trace. -/
def generateCandidate (rng : ℕ → ℚ) (mode : PaletteMode) (count : ℕ)
    (baseColor : Option String) (fuel : ℕ) (s0 : St) :
    Option (List ColorData) × GenSt :=
  let g1 := candidateStart rng mode count baseColor s0
  let filled := fillLoop rng count fuel g1
  if filled.1 then
    let g2 := filled.2
    let finalPalette := g2.palette.take count
    let afterEnforce :=
      if mode ≠ .monochromatic ∧ mode ≠ .shades then
        enforceContrastAndVibrancy rng finalPalette g2.st
      else (finalPalette, g2.st)
    let arranged := arrangeStage rng mode afterEnforce.1 afterEnforce.2
    (some arranged.1, { g2 with st := arranged.2 })
  else (none, filled.2)

/-- `generatePalette` (colorUtils.ts lines 378-709): run `generateCandidate`
with the signature-based single retry for the check-worthy seedless modes,
and register the final signature. -/
def generatePalette (rng : ℕ → ℚ) (mode : PaletteMode) (count : ℕ)
    (baseColor : Option String) (fuel : ℕ) (s : St) :
    Option (List ColorData) × St :=
  let shouldCheckSignature : Bool :=
    (mode = .random ∨ mode = .warmEarth ∨ mode = .hyperWarm) ∧ baseColor = none
  match generateCandidate rng mode count baseColor fuel s with
  | (none, g) => (none, g.st)
  | (some r1, g1) =>
    if shouldCheckSignature then
      let sig := calculatePaletteSignature r1
      if sig ∈ g1.st.mem.sigs then
        match generateCandidate rng mode count baseColor fuel g1.st with
        | (none, g2) => (none, g2.st)
        | (some r2, g2) =>
          let sig2 := calculatePaletteSignature r2
          (some r2, { g2.st with mem := registerSignature sig2 g2.st.mem })
      else (some r1, { g1.st with mem := registerSignature sig g1.st.mem })
    else (some r1, g1.st)

/-- The HSL values `sortColorsByVisualProgression` computes per color
(`getVals`). -/
def colorHsl (c : ColorData) : HSL :=
  let rgb := hexToRgb c.hex
  rgbToHsl (rgb.r : ℚ) (rgb.g : ℚ) (rgb.b : ℚ)

/-- The achromatic block of `sortColorsByVisualProgression`: colors with
saturation below 12, sorted by lightness ascending (JavaScript `sort` is
stable, as is `mergeSort`). -/
def achromaticSorted (colors : List ColorData) : List (ColorData × HSL) :=
  (((colors.map fun c => (c, colorHsl c)).filter fun x =>
      decide (x.2.s < 12)).mergeSort fun a b => decide (a.2.l ≤ b.2.l))

/-- The chromatic block before rotation: saturation at least 12, sorted by
hue ascending. -/
def chromaticSorted (colors : List ColorData) : List (ColorData × HSL) :=
  (((colors.map fun c => (c, colorHsl c)).filter fun x =>
      !decide (x.2.s < 12)).mergeSort fun a b => decide (a.2.h ≤ b.2.h))

/-- The circular hue distance walked from `c1` to `c2`
(`diff = next - curr; if (diff < 0) diff += 360`). -/
def hueGap (c1 c2 : HSL) : ℚ :=
  let diff := c2.h - c1.h
  if diff < 0 then diff + 360 else diff

/-- The gap scan of `sortColorsByVisualProgression`: the largest circular
hue jump between consecutive (cyclically adjacent) chromatic colors, with
the first index kept on ties (`diff > maxGap`). -/
def largestGapScan (l : List (ColorData × HSL)) : ℚ × ℕ :=
  let m := l.length
  (List.range m).foldl (fun p i =>
    let d := hueGap (l.getD i (cdDefault, hslDefault)).2
               (l.getD ((i + 1) % m) (cdDefault, hslDefault)).2
    if d > p.1 then (d, i) else p) (0, 0)

/-- The chromatic block after rotation: it starts with the element right
after the largest circular hue gap. -/
def chromaticRotated (colors : List ColorData) : List (ColorData × HSL) :=
  let chrom := chromaticSorted colors
  if chrom.length = 0 then chrom
  else
    let startIdx := ((largestGapScan chrom).2 + 1) % chrom.length
    chrom.drop startIdx ++ chrom.take startIdx

/-- `sortColorsByVisualProgression` (colorUtils.ts lines 87-147):
achromatic block first, rotated chromatic block second. -/
def sortColorsByVisualProgression (colors : List ColorData) : List ColorData :=
  (achromaticSorted colors).map Prod.fst ++ (chromaticRotated colors).map Prod.fst

/-- An Oklch color (the perceptual space used by the extraction pipeline
through the external `culori` converter). -/
structure Oklch where
  l : ℚ
  c : ℚ
  h : ℚ
deriving DecidableEq, Repr

/-- One RGBA pixel of the decoded, already-downscaled image buffer
(`imageData` is walked with stride 4). -/
structure Pixel where
  r : ℕ
  g : ℕ
  b : ℕ
  a : ℕ
deriving DecidableEq, Repr

/-- One quantization bin of `processImage`: running channel sums plus a
pixel count. -/
structure Bin where
  r : ℕ
  g : ℕ
  b : ℕ
  count : ℕ
deriving DecidableEq, Repr

/-- The quantized bucket key `rQ,gQ,bQ` of a pixel.  The source keys the
`Map` with the string `rQ + "," + gQ + "," + bQ`; the integer triple is in
bijection with those strings, so the triple is used directly. -/
def quantizeKey (p : Pixel) : ℤ × ℤ × ℤ :=
  (jsRound ((p.r : ℚ) / 10) * 10, jsRound ((p.g : ℚ) / 10) * 10,
   jsRound ((p.b : ℚ) / 10) * 10)

/-- Insertion-ordered `Map` update: accumulate into an existing bin or
append a fresh bin seeded with this pixel. -/
def updateBins (key : ℤ × ℤ × ℤ) (r g b : ℕ) :
    List ((ℤ × ℤ × ℤ) × Bin) → List ((ℤ × ℤ × ℤ) × Bin)
  | [] => [(key, ⟨r, g, b, 1⟩)]
  | (k, bin) :: rest =>
    if k = key then (k, ⟨bin.r + r, bin.g + g, bin.b + b, bin.count + 1⟩) :: rest
    else (k, bin) :: updateBins key r g b rest

/-- Step 1 of `processImage`: alpha filtering (threshold 128) and RGB
binning with bucket size 10. -/
def buildBins (pixels : List Pixel) : List ((ℤ × ℤ × ℤ) × Bin) :=
  pixels.foldl (fun bins p =>
    if p.a < 128 then bins
    else updateBins (quantizeKey p) p.r p.g p.b bins) []

/-- A bin promoted to an analyzable color (step 2 of `processImage`). -/
structure ExtractColor where
  hex : String
  r : ℤ
  g : ℤ
  b : ℤ
  ok : Oklch
  count : ℕ
deriving Repr

/-- Step 2 of `processImage`: average each bin's accumulated pixels and
convert to Oklch.  `toOk` stands for culori's `converter('oklch')` applied
to the 0-1 scaled RGB (with the `|| {l:0,c:0,h:0}` fallback folded in,
which keeps it a total function). -/
def binToColor (toOk : ℚ → ℚ → ℚ → Oklch) (bin : Bin) : ExtractColor :=
  let r := jsRound ((bin.r : ℚ) / (bin.count : ℚ))
  let g := jsRound ((bin.g : ℚ) / (bin.count : ℚ))
  let b := jsRound ((bin.b : ℚ) / (bin.count : ℚ))
  ⟨rgbToHex r g b, r, g, b, toOk ((r : ℚ) / 255) ((g : ℚ) / 255) ((b : ℚ) / 255),
   bin.count⟩

/-- Absorb a color into the first already-kept cluster within the merge
threshold `0.08`, adding its pixel count to that cluster. -/
def absorbColor (dist : Oklch → Oklch → ℚ) (c : ExtractColor) :
    List ExtractColor → Option (List ExtractColor)
  | [] => none
  | m :: rest =>
    if dist c.ok m.ok < 8/100 then
      some ({ m with count := m.count + c.count } :: rest)
    else (absorbColor dist c rest).map (fun r => m :: r)

/-- Step 3 of `processImage`: greedy perceptual clustering over the
count-descending color list. -/
def mergePass (dist : Oklch → Oklch → ℚ) (colors : List ExtractColor) :
    List ExtractColor :=
  colors.foldl (fun merged c =>
    match absorbColor dist c merged with
    | some merged => merged
    | none => merged ++ [c]) []

/-- A scored cluster (step 4 of `processImage`). -/
structure ScoredColor where
  color : ExtractColor
  score : ℚ
deriving Repr

/-- Step 4 of `processImage`: score =
frequency × (1 + 8·chroma) × lightness penalty. -/
def scorePass (totalPixels : ℕ) (merged : List ExtractColor) :
    List ScoredColor :=
  merged.map fun c =>
    let frequency := (c.count : ℚ) / (totalPixels : ℚ)
    let chromaBonus := 1 + c.ok.c * 8
    let lightnessPenalty : ℚ :=
      if c.ok.l < 5/100 ∨ c.ok.l > 98/100 then 6/10 else 1
    ⟨c, frequency * chromaBonus * lightnessPenalty⟩

/-- Step 5 of `processImage`: walk the score-sorted list keeping only
clusters farther than `0.12` from every kept cluster, stopping at 20. -/
def distinctSelect (dist : Oklch → Oklch → ℚ) :
    List ScoredColor → List ScoredColor → List ScoredColor
  | acc, [] => acc
  | acc, c :: rest =>
    let acc :=
      if acc.any (fun e => decide (dist c.color.ok e.color.ok < 12/100)) then acc
      else acc ++ [c]
    if 20 ≤ acc.length then acc else distinctSelect dist acc rest

/-- The extraction pipeline of `processImage` (ImageExtractor, lines
49-175), from the RGBA buffer to the candidate `ColorData` list.  `toOk`
and `dist` model the external culori `oklch` converter and
`differenceEuclidean('oklch')` metric. -/
def processImagePixels (toOk : ℚ → ℚ → ℚ → Oklch) (dist : Oklch → Oklch → ℚ)
    (pixels : List Pixel) : List ColorData :=
  let totalPixels := pixels.length
  let bins := buildBins pixels
  let colors := (bins.map fun kb => binToColor toOk kb.2).mergeSort
    fun a b => decide (b.count ≤ a.count)
  let merged := mergePass dist colors
  let scored := (scorePass totalPixels merged).mergeSort
    fun a b => decide (b.score ≤ a.score)
  let finalCandidates := distinctSelect dist [] scored
  finalCandidates.map fun c => createColorData c.color.hex

/-- The extraction pipeline placed in the ambient program state (RNG stream
cursor and anti-repetition memory): `processImage` neither draws from the
RNG nor touches the memory, which the embedding makes explicit. -/
def processImage (toOk : ℚ → ℚ → ℚ → Oklch) (dist : Oklch → Oklch → ℚ)
    (pixels : List Pixel) (s : St) : List ColorData × St :=
  (processImagePixels toOk dist pixels, s)

/-! ## Theorems -/

/-- **C6** (code bug).  `hslToRgb` does not normalize negative hues: the
JavaScript `%` remainder keeps the dividend's sign, so `k(n) = (n + h/30) % 12`
is negative for sufficiently negative hue and the clamp formula lands in the
wrong branch.  At hue `-180` (which normalizes to `180`, cyan), the function
returns white `(255,255,255)` instead of cyan `(0,255,255)`. -/
theorem hslToRgb_misses_negative_hue_normalization :
    hslToRgb (-180) 100 50 = ⟨255, 255, 255⟩ ∧
    hslToRgb 180 100 50 = ⟨0, 255, 255⟩ ∧
    hslToRgb (-180) 100 50 ≠ hslToRgb 180 100 50 := by
  refine ⟨by decide, by decide, by decide⟩

/-- **C5** (counterexample).  `rgbToHex` performs no rounding and no
clamping: channel `256` yields the seven-digit string `"#1000000"` (nine
characters), not a six-digit hex of a clamped channel. -/
theorem rgbToHex_no_clamp_counterexample :
    rgbToHex 256 0 0 = "#1000000" ∧ ("#1000000" : String).length ≠ 7 ∧
    rgbToHex 256 0 0 ≠ rgbToHex 255 0 0 := by
  refine ⟨by decide, by decide, by decide⟩

/-- A lowercase hexadecimal digit. -/
def isLowerHexDigit (c : Char) : Bool :=
  decide ('0' ≤ c ∧ c ≤ '9') || decide ('a' ≤ c ∧ c ≤ 'f')

set_option maxRecDepth 4000 in
/-- `componentToHex` of an integer channel already in `[0,255]` is exactly
two lowercase hex digits. -/
theorem componentToHex_in_range (c : ℤ) (h0 : 0 ≤ c) (h1 : c ≤ 255) :
    (componentToHex c).length = 2 ∧
    (componentToHex c).data.all isLowerHexDigit = true := by
  have key : ∀ n : ℕ, n < 256 →
      (componentToHex (n : ℤ)).length = 2 ∧
      (componentToHex (n : ℤ)).data.all isLowerHexDigit = true := by decide
  have hn : c.toNat < 256 := by omega
  have := key c.toNat hn
  rwa [Int.toNat_of_nonneg h0] at this

/-- **C5** (amended).  For integer channels already in `[0,255]` — the only
values the application ever passes — `rgbToHex` returns `'#'` followed by
exactly six lowercase hexadecimal digits, each channel zero-padded to two
digits; but it does not itself round or clamp anything. -/
theorem rgbToHex_in_range_format (r g b : ℤ)
    (hr : 0 ≤ r ∧ r ≤ 255) (hg : 0 ≤ g ∧ g ≤ 255) (hb : 0 ≤ b ∧ b ≤ 255) :
    (rgbToHex r g b).length = 7 ∧
    (rgbToHex r g b).data.head? = some '#' ∧
    (rgbToHex r g b).data.tail.all isLowerHexDigit = true := by
  obtain ⟨hrl, hra⟩ := componentToHex_in_range r hr.1 hr.2
  obtain ⟨hgl, hga⟩ := componentToHex_in_range g hg.1 hg.2
  obtain ⟨hbl, hba⟩ := componentToHex_in_range b hb.1 hb.2
  unfold rgbToHex
  have hhash : ("#" : String).data = ['#'] := rfl
  refine ⟨?_, ?_, ?_⟩
  · simp only [String.length_append, hrl, hgl, hbl]
    rfl
  · simp only [String.data_append, hhash, List.cons_append, List.head?_cons]
  · simp only [String.data_append, hhash, List.cons_append, List.tail_cons,
      List.all_append]
    simp [hra, hga, hba]

/-- **C5** (witness). -/
theorem rgbToHex_in_range_format_witness :
    (rgbToHex 0 128 255).length = 7 ∧
    (rgbToHex 0 128 255).data.head? = some '#' ∧
    (rgbToHex 0 128 255).data.tail.all isLowerHexDigit = true :=
  rgbToHex_in_range_format 0 128 255 (by decide) (by decide) (by decide)

/-- **C4** (code bug).  The `else if` branch that was meant to shuffle the
strict harmony modes with probability one half is guarded by
`!noShuffleModes.includes(mode)` inside the `else` of that very test, so it
can never run: for the four no-shuffle modes the arrangement step returns
the palette unchanged and consumes no RNG draw, for every draw stream and
every state. -/
theorem arrangeStage_strict_modes_never_shuffle (rng : ℕ → ℚ)
    (mode : PaletteMode) (palette : List ColorData) (s : St)
    (h : mode ∈ noShuffleModes) :
    arrangeStage rng mode palette s = (palette, s) := by
  unfold arrangeStage
  simp [h]

/-- **C4** (witness). -/
theorem arrangeStage_strict_modes_never_shuffle_witness :
    arrangeStage (fun _ => 0) .monochromatic [cdDefault] ⟨0, Memory.init⟩ =
      ([cdDefault], ⟨0, Memory.init⟩) :=
  arrangeStage_strict_modes_never_shuffle _ _ _ _ (by decide)

/-- **C8** (confirmed).  The extraction pipeline is a pure function of the
pixel buffer: placed in the ambient program state, it returns the same
candidate list for any two states (any RNG cursor, any anti-repetition
memory) and leaves the state untouched.  This holds for every perceptual
converter and distance metric supplied by the external library. -/
theorem processImage_deterministic (toOk : ℚ → ℚ → ℚ → Oklch)
    (dist : Oklch → Oklch → ℚ) (pixels : List Pixel) (s1 s2 : St) :
    (processImage toOk dist pixels s1).1 = (processImage toOk dist pixels s2).1 ∧
    (processImage toOk dist pixels s1).2 = s1 :=
  ⟨rfl, rfl⟩

/-- A fold that skips every element leaves its accumulator unchanged. -/
theorem buildBins_all_transparent (pixels : List Pixel)
    (h : ∀ p ∈ pixels, p.a < 128) : buildBins pixels = [] := by
  unfold buildBins
  induction pixels with
  | nil => rfl
  | cons p rest ih =>
    have hp := h p (by simp)
    simp only [List.foldl_cons, if_pos hp]
    exact ih fun q hq => h q (by simp [hq])

/-- **C9** (confirmed).  When every pixel's alpha is below the threshold
128, the binning pass collects nothing and the pipeline returns the empty
candidate list (a value, not an error — the model is a total function). -/
theorem processImage_all_transparent_empty (toOk : ℚ → ℚ → ℚ → Oklch)
    (dist : Oklch → Oklch → ℚ) (pixels : List Pixel)
    (h : ∀ p ∈ pixels, p.a < 128) :
    processImagePixels toOk dist pixels = [] := by
  unfold processImagePixels
  rw [buildBins_all_transparent pixels h]
  simp [List.mergeSort_nil, mergePass, scorePass, distinctSelect]

/-- **C9** (witness). -/
theorem processImage_all_transparent_empty_witness :
    processImagePixels (fun _ _ _ => ⟨0, 0, 0⟩) (fun _ _ => 0)
      [⟨10, 20, 30, 0⟩, ⟨200, 5, 90, 127⟩] = [] :=
  processImage_all_transparent_empty _ _ _ (by decide)

/-- RNG draw stream exhibiting a duplicate hex: two seeded `random`-mode
calls, the first burning grey `#737373` into the global hex history, the
second steering a neutral-pop candidate onto that hex so that the ±5
anti-repetition lightness nudge lands exactly on the palette's existing
`#808080`. -/
def dupDraws : List ℚ :=
  [0, 1/2, 3/13, 0, 1/2, 0, 0, 5/14, 0,
   0, 1/2, 3/13, 2/3, 0, 0, 3/7, 0, 0, 0, 0, 3/4, 0, 5/14, 0, 0, 0, 0]

/-- The duplicate-hex draw stream as a function. -/
def rngDup : ℕ → ℚ := fun n => dupDraws.getD n 0

set_option maxRecDepth 40000 in
/-- **C1** (counterexample).  There is a sequence of RNG draws (all in
`[0,1)`) under which the second of two `generatePalette('random', ·, '#FF0000')`
calls returns four colors two of which share the hex `#808080`: the
similarity check runs on HSL triples before hex rounding, and the history
nudge recomputes the hex without rechecking it against the palette.  So
"no two returned colors have the same hex string, for every sequence of
RNG draws" is false (the spec itself calls the dedup best-effort). -/
theorem generatePalette_duplicate_hex_counterexample :
    ((generatePalette rngDup .random 4 (some "#FF0000") 50
        (generatePalette rngDup .random 2 (some "#FF0000") 50
          ⟨0, Memory.init⟩).2).1.map (List.map ColorData.hex)
      = some ["#333333", "#47EBEB", "#808080", "#808080"]) ∧
    ¬ List.Pairwise (fun a b => a ≠ b)
      ["#333333", "#47EBEB", "#808080", "#808080"] := by
  refine ⟨by decide, by decide⟩

/-- RNG draw stream drawing the `pastel` vibe (first draw `0.9`) and zeros
afterwards, for the complementary-with-seed scenario. -/
def rngPastel : ℕ → ℚ := fun n => ([9/10] ++ List.replicate 8 0 : List ℚ).getD n 0

set_option maxRecDepth 40000 in
/-- **C3** (counterexample).  With seed `#FF0000` (HSL `(0,100,50)`), mode
`complementary`, count 2, there is a draw stream (pastel vibe) for which
the two returned colors have saturation/lightness `(30,85)` and `(50,15)`:
the engine draws saturation and lightness from the weighted random vibe
bracket (and the contrast post-processing), not from the seed, so "both
colors' saturation and lightness are near the seed's values" is false. -/
theorem complementary_seed_vibe_counterexample :
    rgbToHsl 255 0 0 = ⟨0, 100, 50⟩ ∧
    ((generatePalette rngPastel .complementary 2 (some "#FF0000") 50
        ⟨0, Memory.init⟩).1.map
      (List.map fun c => ((colorHsl c).s, (colorHsl c).l)))
      = some [(30, 85), (50, 15)] := by
  refine ⟨by decide, by decide⟩

/-- When the fill loop reports success, the palette has reached `count`. -/
theorem fillLoop_length (rng : ℕ → ℚ) (count : ℕ) :
    ∀ (fuel : ℕ) (g g' : GenSt), fillLoop rng count fuel g = (true, g') →
      count ≤ g'.palette.length := by
  intro fuel
  induction fuel with
  | zero =>
    intro g g' h
    unfold fillLoop at h
    rw [Prod.mk.injEq] at h
    obtain ⟨h1, h2⟩ := h
    subst h2
    have := of_decide_eq_true h1
    omega
  | succ fuel ih =>
    intro g g' h
    unfold fillLoop at h
    by_cases hc : g.palette.length < count
    · rw [if_pos hc] at h
      exact ih _ _ h
    · rw [if_neg hc] at h
      rw [Prod.mk.injEq] at h
      obtain ⟨-, h2⟩ := h
      subst h2
      omega

/-- The contrast/vibrancy post-processing never changes the palette length. -/
theorem enforceContrastAndVibrancy_length (rng : ℕ → ℚ) (p : List ColorData)
    (s : St) : ((enforceContrastAndVibrancy rng p s).1).length = p.length := by
  unfold enforceContrastAndVibrancy
  split
  · rfl
  · simp only [randomInt, randomRange, mrand]
    split_ifs <;> simp [rebuildPalette, flatHsls2, flatHsls1, enforceHsls]
    split_ifs <;> simp

/-- The Fisher–Yates pass never changes the palette length. -/
theorem fisherYates_length (rng : ℕ → ℚ) :
    ∀ (i : ℕ) (l : List ColorData) (s : St),
      ((fisherYates rng i l s).1).length = l.length := by
  intro i
  induction i with
  | zero => intro l s; rfl
  | succ i ih =>
    intro l s
    unfold fisherYates
    simp only [mrand]
    rw [ih]
    simp

/-- The arrangement step never changes the palette length. -/
theorem arrangeStage_length (rng : ℕ → ℚ) (mode : PaletteMode)
    (p : List ColorData) (s : St) :
    ((arrangeStage rng mode p s).1).length = p.length := by
  unfold arrangeStage
  split
  · exact fisherYates_length rng _ p _
  · rfl

/-- A successful `generateCandidate` run returns exactly `count` colors. -/
theorem generateCandidate_length (rng : ℕ → ℚ) (mode : PaletteMode)
    (count : ℕ) (bc : Option String) (fuel : ℕ) (s : St)
    (out : List ColorData) (g' : GenSt)
    (h : generateCandidate rng mode count bc fuel s = (some out, g')) :
    out.length = count := by
  simp only [generateCandidate] at h
  rcases hfl : fillLoop rng count fuel (candidateStart rng mode count bc s)
    with ⟨ok, g2⟩
  rw [hfl] at h
  cases ok
  · simp at h
  · rw [if_pos rfl] at h
    rw [Prod.mk.injEq] at h
    obtain ⟨h1, -⟩ := h
    rw [Option.some.injEq] at h1
    subst h1
    rw [arrangeStage_length]
    have hlen := fillLoop_length rng count fuel _ _ hfl
    split
    · rw [enforceContrastAndVibrancy_length]
      simp only [List.length_take]
      omega
    · simp only [List.length_take]
      omega

/-- **C1** (amended).  Whenever `generatePalette` terminates (its fill loop
finds room within the modelled fuel — the source would otherwise spin
forever), it returns a palette of exactly `count` colors, for every mode,
seed, draw stream and starting state.  Distinctness of the hex strings,
the other half of the original claim, is only best-effort
(see the counterexample). -/
theorem generatePalette_returns_count (rng : ℕ → ℚ) (mode : PaletteMode)
    (count : ℕ) (bc : Option String) (fuel : ℕ) (s : St)
    (out : List ColorData)
    (h : (generatePalette rng mode count bc fuel s).1 = some out) :
    out.length = count := by
  unfold generatePalette at h
  rcases hg : generateCandidate rng mode count bc fuel s with ⟨o, g⟩
  rw [hg] at h
  match o, hg with
  | none, hg => simp at h
  | some r1, hg =>
    dsimp only at h
    split at h
    · split at h
      · rcases hg2 : generateCandidate rng mode count bc fuel g.st with ⟨o2, g2⟩
        rw [hg2] at h
        match o2, hg2 with
        | none, hg2 => simp at h
        | some r2, hg2 =>
          simp only [Option.some.injEq] at h
          subst h
          exact generateCandidate_length _ _ _ _ _ _ _ _ hg2
      · simp only [Option.some.injEq] at h
        subst h
        exact generateCandidate_length _ _ _ _ _ _ _ _ hg
    · simp only [Option.some.injEq] at h
      subst h
      exact generateCandidate_length _ _ _ _ _ _ _ _ hg

/-- The palette of the witness run below. -/
def lenWitnessPalette : List ColorData :=
  ((generatePalette (fun _ => 0) .shades 1 (some "#FF0000") 5
    ⟨0, Memory.init⟩).1).getD []

set_option maxRecDepth 40000 in
/-- **C1** (witness). -/
theorem generatePalette_returns_count_witness :
    (generatePalette (fun _ => 0) .shades 1 (some "#FF0000") 5
      ⟨0, Memory.init⟩).1 = some lenWitnessPalette ∧
    lenWitnessPalette.length = 1 :=
  ⟨by decide,
   generatePalette_returns_count (fun _ => 0) .shades 1 (some "#FF0000") 5
     ⟨0, Memory.init⟩ lenWitnessPalette (by decide)⟩

/-- Frame relation for C10: the base-hue history and the signature history
agree between two engine states (the hex history may differ). -/
def MemFrame (s1 s0 : St) : Prop :=
  s1.mem.baseHues = s0.mem.baseHues ∧ s1.mem.sigs = s0.mem.sigs

theorem MemFrame.refl (s : St) : MemFrame s s := ⟨rfl, rfl⟩

theorem MemFrame.trans {s2 s1 s0 : St} (h1 : MemFrame s2 s1)
    (h0 : MemFrame s1 s0) : MemFrame s2 s0 :=
  ⟨h1.1.trans h0.1, h1.2.trans h0.2⟩

/-- `registerColor` touches only the hex history. -/
theorem registerColor_frame (hex : String) (m : Memory) :
    (registerColor hex m).baseHues = m.baseHues ∧
    (registerColor hex m).sigs = m.sigs := by
  simp [registerColor]

/-- Two states with identical memories are in the frame relation. -/
theorem frame_of_mem_eq {S s0 : St} (hS : S.mem = s0.mem) : MemFrame S s0 :=
  ⟨congrArg Memory.baseHues hS, congrArg Memory.sigs hS⟩

/-- A `randomInt` draw only advances the stream cursor. -/
theorem randomInt_frame (rng : ℕ → ℚ) {mn mx : ℚ} {s : St} :
    MemFrame ((randomInt rng mn mx s).2) s := ⟨rfl, rfl⟩

/-- An `mrand` draw only advances the stream cursor. -/
theorem mrand_frame (rng : ℕ → ℚ) {s : St} :
    MemFrame ((mrand rng s).2) s := ⟨rfl, rfl⟩

/-- A `chance` draw only advances the stream cursor. -/
theorem chance_frame (rng : ℕ → ℚ) {p : ℚ} {s : St} :
    MemFrame ((chance rng p s).2) s := ⟨rfl, rfl⟩

/-- `addColor` registers only hex values: base hues and signatures keep. -/
theorem addColor_frame (rng : ℕ → ℚ) (h0 s0 l0 : ℚ) (g : GenSt) :
    MemFrame ((addColor rng h0 s0 l0 g).2).st g.st := by
  simp only [addColor]
  split_ifs <;> simp [MemFrame, chance, mrand, registerColor]

/-- `safeAddColor` keeps base hues and signatures. -/
theorem safeAddColor_frame (rng : ℕ → ℚ) (h s l : ℚ) (g : GenSt) :
    MemFrame ((safeAddColor rng h s l g).st) g.st := by
  simp only [safeAddColor]
  split_ifs
  · exact addColor_frame rng h s l g
  · exact (addColor_frame rng h s _ _).trans (addColor_frame rng h s l g)
  · exact ((addColor_frame rng _ s l _).trans
      (addColor_frame rng h s _ _)).trans (addColor_frame rng h s l g)

/-- `safeAddColor` on a palette-state update: frame against the new state. -/
theorem safeAdd_upd_frame (rng : ℕ → ℚ) {h s l : ℚ}
    {pal : List ColorData} {pcs : List HSL} {S : St} :
    MemFrame ((safeAddColor rng h s l ⟨pal, pcs, S⟩).st) S :=
  safeAddColor_frame rng h s l ⟨pal, pcs, S⟩

/-- A fold whose body keeps base hues and signatures keeps them overall. -/
theorem foldl_frame {σ β : Type} (π : σ → St) (f : σ → β → σ)
    (hf : ∀ x b, MemFrame (π (f x b)) (π x)) :
    ∀ (l : List β) (x : σ), MemFrame (π (l.foldl f x)) (π x) := by
  intro l
  induction l with
  | nil => intro x; exact MemFrame.refl _
  | cons b t ih =>
    intro x
    simp only [List.foldl_cons]
    exact (ih (f x b)).trans (hf x b)

theorem stratPolychrome_frame (rng : ℕ → ℚ) (count : ℕ) (g : GenSt) :
    MemFrame (stratPolychrome rng count g).st g.st := by
  unfold stratPolychrome
  refine (foldl_frame GenSt.st _ (fun x b => ?_) _ _).trans ?_
  · refine (safeAddColor_frame rng _ _ _ _).trans ?_
    exact frame_of_mem_eq rfl
  · exact frame_of_mem_eq rfl

theorem stratDivergent_frame (rng : ℕ → ℚ) (count : ℕ) (baseH : ℚ)
    (g : GenSt) : MemFrame (stratDivergent rng count baseH g).st g.st := by
  unfold stratDivergent
  refine foldl_frame GenSt.st _ (fun x b => ?_) _ _
  refine (safeAddColor_frame rng _ _ _ _).trans ?_
  exact frame_of_mem_eq rfl

theorem stratComplexRhythm_frame (rng : ℕ → ℚ) (count : ℕ) (vibe : Vibe)
    (baseH : ℚ) (g : GenSt) :
    MemFrame (stratComplexRhythm rng count vibe baseH g).st g.st := by
  unfold stratComplexRhythm
  refine foldl_frame GenSt.st _ (fun x b => ?_) _ _
  refine (safeAddColor_frame rng _ _ _ _).trans ?_
  exact frame_of_mem_eq rfl

theorem stratCinematic_frame (rng : ℕ → ℚ) (count : ℕ) (g : GenSt) :
    MemFrame (stratCinematic rng count g).st g.st := by
  unfold stratCinematic
  refine (foldl_frame GenSt.st _ (fun x b => ?_) _ _).trans ?_
  · dsimp only
    split <;>
      (refine (safeAddColor_frame rng _ _ _ _).trans ?_
       exact frame_of_mem_eq rfl)
  · exact frame_of_mem_eq rfl

theorem stratStructuralDuo_frame (rng : ℕ → ℚ) (count : ℕ) (vibe : Vibe)
    (baseH : ℚ) (g : GenSt) :
    MemFrame (stratStructuralDuo rng count vibe baseH g).st g.st := by
  unfold stratStructuralDuo
  refine (foldl_frame GenSt.st _ (fun x b => ?_) _ _).trans ?_
  · refine (safeAddColor_frame rng _ _ _ _).trans ?_
    exact frame_of_mem_eq rfl
  · exact frame_of_mem_eq rfl

theorem stratStructuralTrio_frame (rng : ℕ → ℚ) (count : ℕ) (baseH : ℚ)
    (g : GenSt) :
    MemFrame (stratStructuralTrio rng count baseH g).st g.st := by
  unfold stratStructuralTrio
  refine (foldl_frame GenSt.st _ (fun x b => ?_) _ _).trans ?_
  · refine (safeAddColor_frame rng _ _ _ _).trans ?_
    exact frame_of_mem_eq rfl
  · exact frame_of_mem_eq rfl

theorem stratAnchorFocus_frame (rng : ℕ → ℚ) (count : ℕ) (baseH : ℚ)
    (g : GenSt) : MemFrame (stratAnchorFocus rng count baseH g).st g.st := by
  unfold stratAnchorFocus
  refine (foldl_frame GenSt.st _ (fun x b => ?_) _ _).trans ?_
  · dsimp only
    split
    · split <;>
        (refine (safeAddColor_frame rng _ _ _ _).trans ?_
         exact frame_of_mem_eq rfl)
    · refine (safeAddColor_frame rng _ _ _ _).trans ?_
      exact frame_of_mem_eq rfl
  · exact frame_of_mem_eq rfl

theorem stratGoldenAngle_frame (rng : ℕ → ℚ) (count : ℕ) (vibe : Vibe)
    (baseH : ℚ) (g : GenSt) :
    MemFrame (stratGoldenAngle rng count vibe baseH g).st g.st := by
  unfold stratGoldenAngle
  refine foldl_frame GenSt.st _ (fun x b => ?_) _ _
  refine (safeAddColor_frame rng _ _ _ _).trans ?_
  exact frame_of_mem_eq rfl

theorem stratAnalogousWalk_frame (rng : ℕ → ℚ) (count : ℕ)
    (baseH baseS baseL : ℚ) (g : GenSt) :
    MemFrame (stratAnalogousWalk rng count baseH baseS baseL g).st g.st := by
  unfold stratAnalogousWalk
  refine (foldl_frame (fun p : GenSt × ℚ => p.1.st) _
    (fun x b => ?_) _ _).trans ?_
  · dsimp only
    refine (safeAddColor_frame rng _ _ _ _).trans ?_
    exact frame_of_mem_eq rfl
  · exact frame_of_mem_eq rfl

theorem stratTriadicScatter_frame (rng : ℕ → ℚ) (count : ℕ) (baseH : ℚ)
    (g : GenSt) :
    MemFrame (stratTriadicScatter rng count baseH g).st g.st := by
  unfold stratTriadicScatter
  refine foldl_frame GenSt.st _ (fun x b => ?_) _ _
  refine (safeAddColor_frame rng _ _ _ _).trans ?_
  exact frame_of_mem_eq rfl

theorem stratNeutralPop_frame (rng : ℕ → ℚ) (count : ℕ) (baseH : ℚ)
    (g : GenSt) : MemFrame (stratNeutralPop rng count baseH g).st g.st := by
  unfold stratNeutralPop
  refine (foldl_frame GenSt.st _ (fun x b => ?_) _ _).trans ?_
  · dsimp only
    split <;>
      (refine (safeAddColor_frame rng _ _ _ _).trans ?_
       exact frame_of_mem_eq rfl)
  · exact frame_of_mem_eq rfl

theorem stratPastelDream_frame (rng : ℕ → ℚ) (count : ℕ) (baseH : ℚ)
    (g : GenSt) : MemFrame (stratPastelDream rng count baseH g).st g.st := by
  unfold stratPastelDream
  refine foldl_frame GenSt.st _ (fun x b => ?_) _ _
  refine (safeAddColor_frame rng _ _ _ _).trans ?_
  exact frame_of_mem_eq rfl

theorem stratHighContrastClash_frame (rng : ℕ → ℚ) (count : ℕ) (baseH : ℚ)
    (g : GenSt) :
    MemFrame (stratHighContrastClash rng count baseH g).st g.st := by
  unfold stratHighContrastClash
  refine foldl_frame GenSt.st _ (fun x b => ?_) _ _
  dsimp only
  split <;>
    (refine (safeAddColor_frame rng _ _ _ _).trans ?_
     exact frame_of_mem_eq rfl)

theorem stratMonoTexture_frame (rng : ℕ → ℚ) (count : ℕ) (baseH : ℚ)
    (g : GenSt) : MemFrame (stratMonoTexture rng count baseH g).st g.st := by
  unfold stratMonoTexture
  refine foldl_frame GenSt.st _ (fun x b => ?_) _ _
  refine (safeAddColor_frame rng _ _ _ _).trans ?_
  exact frame_of_mem_eq rfl

/-- Every strategy of the `random` meta-mode keeps base hues and
signatures. -/
theorem runRandomStrategy_frame (rng : ℕ → ℚ) (strategy : String)
    (count : ℕ) (vibe : Vibe) (baseH baseS baseL : ℚ) (g : GenSt) :
    MemFrame ((runRandomStrategy rng strategy count vibe baseH baseS baseL
      g).st) g.st := by
  unfold runRandomStrategy
  split
  · exact stratPolychrome_frame rng count g
  · exact stratDivergent_frame rng count baseH g
  · exact stratComplexRhythm_frame rng count vibe baseH g
  · exact stratCinematic_frame rng count g
  · exact stratStructuralDuo_frame rng count vibe baseH g
  · exact stratStructuralTrio_frame rng count baseH g
  · exact stratAnchorFocus_frame rng count baseH g
  · exact stratGoldenAngle_frame rng count vibe baseH g
  · exact stratAnalogousWalk_frame rng count baseH baseS baseL g
  · exact stratTriadicScatter_frame rng count baseH g
  · exact stratNeutralPop_frame rng count baseH g
  · exact stratPastelDream_frame rng count baseH g
  · exact stratHighContrastClash_frame rng count baseH g
  · exact stratMonoTexture_frame rng count baseH g

/-- A fold whose body keeps the projected memory keeps it overall. -/
theorem foldl_mem_eq {σ β : Type} (π : σ → St) (f : σ → β → σ)
    (hf : ∀ x b, (π (f x b)).mem = (π x).mem) :
    ∀ (l : List β) (x : σ), (π (l.foldl f x)).mem = (π x).mem := by
  intro l
  induction l with
  | nil => intro x; rfl
  | cons b t ih =>
    intro x
    simp only [List.foldl_cons]
    exact (ih (f x b)).trans (hf x b)



/-- The whole mode-execution phase keeps base hues and signatures. -/
theorem runModePhase_frame (rng : ℕ → ℚ) (mode : PaletteMode) (count : ℕ)
    (vibe : Vibe) (baseH baseS baseL : ℚ) (g : GenSt) :
    MemFrame ((runModePhase rng mode count vibe baseH baseS baseL g).st)
      g.st := by
  cases mode <;> simp only [runModePhase]
  case random =>
    refine (runRandomStrategy_frame rng _ count vibe baseH baseS baseL
      _).trans ?_
    exact frame_of_mem_eq rfl
  case warmEarth =>
    refine (foldl_frame GenSt.st _ (fun x b => ?_) _ _).trans ?_
    · refine (safeAddColor_frame rng _ _ _ _).trans ?_
      exact frame_of_mem_eq rfl
    · exact frame_of_mem_eq rfl
  case hyperWarm =>
    refine foldl_frame GenSt.st _ (fun x b => ?_) _ _
    dsimp only
    split
    · refine (safeAddColor_frame rng _ _ _ _).trans ?_
      exact frame_of_mem_eq rfl
    · split <;>
        (refine (safeAddColor_frame rng _ _ _ _).trans ?_
         exact frame_of_mem_eq rfl)
  case cyberpunk =>
    split
    · refine (foldl_frame GenSt.st _ (fun x b => ?_) _ _).trans ?_
      · exact safeAddColor_frame rng _ _ _ _
      · refine (safeAdd_upd_frame rng).trans ?_
        exact (randomInt_frame rng).trans ((randomInt_frame rng).trans
          (mrand_frame rng))
    · split
      · refine (foldl_frame GenSt.st _ (fun x b => ?_) _ _).trans ?_
        · refine (safeAddColor_frame rng _ _ _ _).trans ?_
          exact frame_of_mem_eq rfl
        · refine (safeAdd_upd_frame rng).trans ?_
          exact mrand_frame rng
      · refine (foldl_frame GenSt.st _ (fun x b => ?_) _ _).trans ?_
        · refine (safeAddColor_frame rng _ _ _ _).trans ?_
          exact frame_of_mem_eq rfl
        · exact frame_of_mem_eq rfl
  case modernUi =>
    refine (foldl_frame GenSt.st _ (fun x b => ?_) _ _).trans ?_
    · refine (safeAddColor_frame rng _ _ _ _).trans ?_
      exact frame_of_mem_eq rfl
    · refine (safeAdd_upd_frame rng).trans ?_
      refine (randomInt_frame rng).trans ((randomInt_frame rng).trans ?_)
      refine (safeAddColor_frame rng _ _ _ _).trans ?_
      refine (safeAddColor_frame rng _ _ _ _).trans ?_
      refine (safeAdd_upd_frame rng).trans ?_
      exact (randomInt_frame rng).trans ((randomInt_frame rng).trans
        (randomInt_frame rng))
  case retroFuture =>
    refine foldl_frame GenSt.st _ (fun x b => ?_) _ _
    dsimp only
    split <;>
      (refine (safeAddColor_frame rng _ _ _ _).trans ?_
       exact frame_of_mem_eq rfl)
  case compound =>
    refine foldl_frame GenSt.st _ (fun x b => ?_) _ _
    refine (safeAddColor_frame rng _ _ _ _).trans ?_
    exact frame_of_mem_eq rfl
  case shades =>
    refine foldl_frame GenSt.st _ (fun x b => ?_) _ _
    refine (safeAddColor_frame rng _ _ _ _).trans ?_
    exact frame_of_mem_eq rfl
  case analogous =>
    refine (foldl_frame GenSt.st _ (fun x b => ?_) _ _).trans ?_
    · refine (safeAddColor_frame rng _ _ _ _).trans ?_
      exact frame_of_mem_eq rfl
    · exact frame_of_mem_eq rfl
  all_goals
    refine (foldl_frame GenSt.st _ (fun x b => ?_) _ _).trans ?_
  all_goals
    try (refine (safeAddColor_frame rng _ _ _ _).trans ?_
         exact frame_of_mem_eq rfl)
  all_goals
    refine frame_of_mem_eq (foldl_mem_eq Prod.snd _ (fun x b => ?_) _ _)
  all_goals exact rfl


/-- The vibe draw only advances the stream cursor. -/
theorem getWeightedVibe_mem_eq (rng : ℕ → ℚ) (s : St) :
    (getWeightedVibe rng s).2.mem = s.mem := by
  simp only [getWeightedVibe]
  split_ifs <;> rfl

/-- With a caller-supplied seed color, the start of a candidate run (vibe
draw, seed decoding, mode execution) keeps base hues and signatures. -/
theorem candidateStart_seed_frame (rng : ℕ → ℚ) (mode : PaletteMode)
    (count : ℕ) (bc : String) (s0 : St) :
    MemFrame (candidateStart rng mode count (some bc) s0).st s0 := by
  have hv := getWeightedVibe_mem_eq rng s0
  unfold candidateStart
  rcases hg : getWeightedVibe rng s0 with ⟨vibe, s1⟩
  rw [hg] at hv
  refine (runModePhase_frame rng mode count _ _ _ _ _).trans
    (frame_of_mem_eq ?_)
  exact hv

/-- The fill loop keeps base hues and signatures. -/
theorem fillLoop_frame (rng : ℕ → ℚ) (count : ℕ) :
    ∀ (fuel : ℕ) (g : GenSt), MemFrame ((fillLoop rng count fuel g).2).st g.st := by
  intro fuel
  induction fuel with
  | zero => intro g; exact MemFrame.refl _
  | succ fuel ih =>
    intro g
    simp only [fillLoop]
    split
    · refine (ih _).trans ?_
      refine (safeAddColor_frame rng _ _ _ _).trans ?_
      exact frame_of_mem_eq rfl
    · exact MemFrame.refl _

/-- `enforceContrastAndVibrancy` only consumes draws: the anti-repetition
memory is untouched. -/
theorem enforce_mem_eq (rng : ℕ → ℚ) (palette : List ColorData) (s : St) :
    (enforceContrastAndVibrancy rng palette s).2.mem = s.mem := by
  rw [enforceContrastAndVibrancy]
  repeat' (first | rfl | split)

/-- The Fisher–Yates shuffle only consumes draws: the memory is untouched. -/
theorem fisherYates_mem_eq (rng : ℕ → ℚ) :
    ∀ (i : ℕ) (l : List ColorData) (s : St),
      (fisherYates rng i l s).2.mem = s.mem := by
  intro i
  induction i with
  | zero => intro l s; rfl
  | succ i ih =>
    intro l s
    simp only [fisherYates]
    exact ih _ _

/-- The arrangement stage keeps the memory. -/
theorem arrangeStage_mem_eq (rng : ℕ → ℚ) (mode : PaletteMode)
    (palette : List ColorData) (s : St) :
    (arrangeStage rng mode palette s).2.mem = s.mem := by
  simp only [arrangeStage]
  split
  · exact fisherYates_mem_eq rng _ _ _
  · rfl

/-- With a seed color, one whole candidate run keeps base hues and
signatures. -/
theorem generateCandidate_seed_frame (rng : ℕ → ℚ) (mode : PaletteMode)
    (count : ℕ) (bc : String) (fuel : ℕ) (s0 : St) :
    MemFrame ((generateCandidate rng mode count (some bc) fuel s0).2).st s0 := by
  simp only [generateCandidate]
  rcases hfl : fillLoop rng count fuel
    (candidateStart rng mode count (some bc) s0) with ⟨ok, g2⟩
  have hg2 : MemFrame g2.st s0 := by
    have h := fillLoop_frame rng count fuel
      (candidateStart rng mode count (some bc) s0)
    rw [hfl] at h
    exact h.trans (candidateStart_seed_frame rng mode count bc s0)
  cases ok
  · exact hg2
  · refine (frame_of_mem_eq ?_).trans hg2
    show (arrangeStage rng mode _ _).2.mem = g2.st.mem
    rw [arrangeStage_mem_eq]
    split
    · exact enforce_mem_eq rng _ _
    · rfl

/-- C10: a seeded `generatePalette` call leaves the recent-base-hue history
and the recent-signature history of the anti-repetition memory unchanged
(the seed path skips base-hue registration and the signature retry). -/
theorem generatePalette_seed_frame (rng : ℕ → ℚ) (mode : PaletteMode)
    (count : ℕ) (bc : String) (fuel : ℕ) (s : St) :
    ((generatePalette rng mode count (some bc) fuel s).2).mem.baseHues =
      s.mem.baseHues ∧
    ((generatePalette rng mode count (some bc) fuel s).2).mem.sigs =
      s.mem.sigs := by
  have h := generateCandidate_seed_frame rng mode count bc fuel s
  simp only [generatePalette]
  rcases hc : generateCandidate rng mode count (some bc) fuel s with ⟨opt, g⟩
  rw [hc] at h
  cases opt
  · exact h
  · have hsc : decide ((mode = PaletteMode.random ∨ mode = PaletteMode.warmEarth
        ∨ mode = PaletteMode.hyperWarm) ∧ (some bc : Option String) = none)
        = false := by simp
    rw [hsc]
    exact h



theorem jsRound_nonneg {q : ℚ} (h : 0 ≤ q) : (0 : ℚ) ≤ ((jsRound q : ℤ) : ℚ) := by
  have h2 : (0 : ℤ) ≤ jsRound q := by
    simp only [jsRound]
    positivity
  exact_mod_cast h2

theorem jsRound_le_360 {q : ℚ} (h : q ≤ 360) : ((jsRound q : ℤ) : ℚ) ≤ 360 := by
  have h2 : jsRound q ≤ (360 : ℤ) := by
    simp only [jsRound]
    have h3 : q + 1/2 < ((361 : ℤ) : ℚ) := by push_cast; linarith
    have h4 := Int.floor_lt.mpr h3
    omega
  exact_mod_cast h2

theorem hueGap_nonneg {x y : HSL} (hx2 : x.h ≤ 360)
    (hy1 : 0 ≤ y.h) : 0 ≤ hueGap x y := by
  simp only [hueGap]
  split_ifs with h
  · linarith
  · linarith


theorem rgbToHsl_h_bounds (r0 g0 b0 : ℚ) :
    0 ≤ (rgbToHsl r0 g0 b0).h ∧ (rgbToHsl r0 g0 b0).h ≤ 360 := by
  simp only [rgbToHsl]
  set r := r0 / 255 with hr
  set g := g0 / 255 with hg
  set b := b0 / 255 with hb
  set M := r ⊔ (g ⊔ b) with hM
  set m := r ⊓ (g ⊓ b) with hm
  have hrM : r ≤ M := le_sup_left
  have hgM : g ≤ M := le_sup_of_le_right le_sup_left
  have hbM : b ≤ M := le_sup_of_le_right le_sup_right
  have hmr : m ≤ r := inf_le_left
  have hmg : m ≤ g := inf_le_of_right_le inf_le_left
  have hmb : m ≤ b := inf_le_of_right_le inf_le_right
  split
  · exact ⟨jsRound_nonneg (by norm_num), jsRound_le_360 (by norm_num)⟩
  · next hmx =>
    have hd : (0 : ℚ) < M - m :=
      sub_pos.mpr (lt_of_le_of_ne (hmr.trans hrM) (Ne.symm hmx))
    have h6b : 0 ≤ (if M = r then (g - b) / (M - m) + (if g < b then 6 else 0)
          else if M = g then (b - r) / (M - m) + 2
          else (r - g) / (M - m) + 4) ∧
        (if M = r then (g - b) / (M - m) + (if g < b then 6 else 0)
          else if M = g then (b - r) / (M - m) + 2
          else (r - g) / (M - m) + 4) ≤ 6 := by
      have e1 : (g - b) / (M - m) ≤ 1 := (div_le_one hd).mpr (by linarith)
      have e3 : (b - r) / (M - m) ≤ 1 := (div_le_one hd).mpr (by linarith)
      have e4 : (-1 : ℚ) ≤ (b - r) / (M - m) := by
        rw [le_div_iff₀ hd]; linarith
      have e5 : (r - g) / (M - m) ≤ 1 := (div_le_one hd).mpr (by linarith)
      have e6 : (-1 : ℚ) ≤ (r - g) / (M - m) := by
        rw [le_div_iff₀ hd]; linarith
      split_ifs with k1 k2 k3
      · have e2 : (-1 : ℚ) ≤ (g - b) / (M - m) := by
          rw [le_div_iff₀ hd]; linarith
        constructor
        · linarith
        · have e7 : (g - b) / (M - m) ≤ 0 :=
            div_nonpos_of_nonpos_of_nonneg (by linarith) hd.le
          linarith
      · have e0 : (0:ℚ) ≤ (g - b) / (M - m) := div_nonneg (by linarith) hd.le
        exact ⟨by linarith, by linarith⟩
      · exact ⟨by linarith, by linarith⟩
      · exact ⟨by linarith, by linarith⟩
    constructor
    · refine jsRound_nonneg ?_
      have h0 := h6b.1
      nlinarith
    · refine jsRound_le_360 ?_
      have h0 := h6b.2
      nlinarith

theorem mem_withVals {colors : List ColorData} {x : ColorData × HSL}
    (hx : x ∈ colors.map fun c => (c, colorHsl c)) : x.2 = colorHsl x.1 := by
  rcases List.mem_map.mp hx with ⟨c, _, rfl⟩
  rfl

theorem mem_chromaticSorted {colors : List ColorData} {x : ColorData × HSL}
    (hx : x ∈ chromaticSorted colors) : x.2 = colorHsl x.1 := by
  have h1 : x ∈ (colors.map fun c => (c, colorHsl c)).filter
      (fun y => !decide (y.2.s < 12)) :=
    ((List.mergeSort_perm _ _).mem_iff).mp hx
  exact mem_withVals (List.mem_filter.mp h1).1

theorem mem_achromaticSorted {colors : List ColorData} {x : ColorData × HSL}
    (hx : x ∈ achromaticSorted colors) : x.2 = colorHsl x.1 := by
  have h1 : x ∈ (colors.map fun c => (c, colorHsl c)).filter
      (fun y => decide (y.2.s < 12)) :=
    ((List.mergeSort_perm _ _).mem_iff).mp hx
  exact mem_withVals (List.mem_filter.mp h1).1

theorem mapFst_filter_withVals (p : ColorData × HSL → Bool)
    (colors : List ColorData) :
    (((colors.map fun c => (c, colorHsl c)).filter p).map Prod.fst) =
      colors.filter fun c => p (c, colorHsl c) := by
  induction colors with
  | nil => rfl
  | cons c t ih =>
    simp only [List.map_cons, List.filter_cons]
    split
    · simp only [List.map_cons, ih]
    · exact ih

theorem achro_block_perm (colors : List ColorData) :
    ((achromaticSorted colors).map Prod.fst).Perm
      (colors.filter fun c => decide ((colorHsl c).s < 12)) := by
  have h1 := (List.mergeSort_perm
    ((colors.map fun c => (c, colorHsl c)).filter fun y => decide (y.2.s < 12))
    (fun a b => decide (a.2.l ≤ b.2.l))).map Prod.fst
  rw [mapFst_filter_withVals] at h1
  exact h1

theorem chrom_rot_perm_sorted (colors : List ColorData) :
    (chromaticRotated colors).Perm (chromaticSorted colors) := by
  rw [chromaticRotated]
  split
  · exact .refl _
  · exact (List.perm_append_comm).trans
      (by rw [List.take_append_drop])

theorem chrom_sorted_perm (colors : List ColorData) :
    (chromaticSorted colors).Perm
      ((colors.map fun c => (c, colorHsl c)).filter fun y =>
        !decide (y.2.s < 12)) :=
  List.mergeSort_perm _ _

theorem chrom_block_perm (colors : List ColorData) :
    ((chromaticRotated colors).map Prod.fst).Perm
      (colors.filter fun c => !decide ((colorHsl c).s < 12)) := by
  have h1 := ((chrom_rot_perm_sorted colors).trans
    (chrom_sorted_perm colors)).map Prod.fst
  rw [mapFst_filter_withVals] at h1
  exact h1

theorem sortColors_perm (colors : List ColorData) :
    (sortColorsByVisualProgression colors).Perm colors := by
  rw [sortColorsByVisualProgression]
  refine ((achro_block_perm colors).append (chrom_block_perm colors)).trans ?_
  exact List.filter_append_perm _ colors





theorem achro_block_sorted (colors : List ColorData) :
    ((achromaticSorted colors).map Prod.fst).Pairwise
      fun a b => (colorHsl a).l ≤ (colorHsl b).l := by
  have hs : (achromaticSorted colors).Pairwise
      (fun a b => decide (a.2.l ≤ b.2.l) = true) :=
    List.sorted_mergeSort
      (fun a b c hab hbc => by
        simp only [decide_eq_true_eq] at hab hbc ⊢
        exact hab.trans hbc)
      (fun a b => by
        simp only [Bool.or_eq_true, decide_eq_true_eq]
        exact le_total _ _)
      _
  rw [List.pairwise_map]
  refine hs.imp_of_mem ?_
  intro a b ha hb hab
  rw [← mem_achromaticSorted ha, ← mem_achromaticSorted hb]
  simpa using hab

theorem chrom_sorted_sorted (colors : List ColorData) :
    (chromaticSorted colors).Pairwise fun a b => a.2.h ≤ b.2.h := by
  have hs : (chromaticSorted colors).Pairwise
      (fun a b => decide (a.2.h ≤ b.2.h) = true) :=
    List.sorted_mergeSort
      (fun a b c hab hbc => by
        simp only [decide_eq_true_eq] at hab hbc ⊢
        exact hab.trans hbc)
      (fun a b => by
        simp only [Bool.or_eq_true, decide_eq_true_eq]
        exact le_total _ _)
      _
  exact hs.imp fun h => by simpa using h

theorem chrom_isRotated (colors : List ColorData) :
    (chromaticSorted colors).IsRotated (chromaticRotated colors) := by
  rw [chromaticRotated]
  split
  · exact ⟨0, List.rotate_zero _⟩
  · next hne =>
    refine ⟨((largestGapScan (chromaticSorted colors)).2 + 1) %
      (chromaticSorted colors).length, ?_⟩
    exact List.rotate_eq_drop_append_take
      (Nat.mod_lt _ (Nat.pos_of_ne_zero hne)).le





theorem scan_fold_spec (d : ℕ → ℚ) (hd : ∀ i, 0 ≤ d i) :
    ∀ m : ℕ,
      ((List.range m).foldl
        (fun p i => if d i > p.1 then (d i, i) else p) (0, 0)).2 < max 1 m ∧
      ((List.range m).foldl
        (fun p i => if d i > p.1 then (d i, i) else p) (0, 0)).1 ≤
        d ((List.range m).foldl
          (fun p i => if d i > p.1 then (d i, i) else p) (0, 0)).2 ∧
      ∀ j < m, d j ≤
        ((List.range m).foldl
          (fun p i => if d i > p.1 then (d i, i) else p) (0, 0)).1 := by
  intro m
  induction m with
  | zero =>
    refine ⟨by norm_num, by simpa using hd 0, by omega⟩
  | succ m ih =>
    rw [List.range_succ, List.foldl_append]
    rcases ih with ⟨ih1, ih2, ih3⟩
    simp only [List.foldl_cons, List.foldl_nil]
    split
    · next hgt =>
      refine ⟨by simp [Nat.lt_succ_self], le_refl _, ?_⟩
      intro j hj
      rcases Nat.lt_succ_iff_lt_or_eq.mp hj with hj2 | rfl
      · exact (ih3 j hj2).trans hgt.le
      · exact le_refl _
    · next hle =>
      push_neg at hle
      refine ⟨lt_of_lt_of_le ih1 (by omega), ih2, ?_⟩
      intro j hj
      rcases Nat.lt_succ_iff_lt_or_eq.mp hj with hj2 | rfl
      · exact ih3 j hj2
      · exact hle





theorem largestGapScan_spec (l : List (ColorData × HSL))
    (hH : ∀ x ∈ l, 0 ≤ x.2.h ∧ x.2.h ≤ 360) :
    (largestGapScan l).2 < max 1 l.length ∧
    ∀ j < l.length,
      hueGap (l.getD j (cdDefault, hslDefault)).2
        (l.getD ((j + 1) % l.length) (cdDefault, hslDefault)).2 ≤
      hueGap (l.getD (largestGapScan l).2 (cdDefault, hslDefault)).2
        (l.getD (((largestGapScan l).2 + 1) % l.length)
          (cdDefault, hslDefault)).2 := by
  have harg : ∀ i, 0 ≤ (l.getD i (cdDefault, hslDefault)).2.h ∧
      (l.getD i (cdDefault, hslDefault)).2.h ≤ 360 := by
    intro i
    by_cases hi : i < l.length
    · rw [List.getD_eq_getElem _ _ hi]
      exact hH _ (List.getElem_mem hi)
    · rw [List.getD_eq_default _ _ (le_of_not_lt hi)]
      norm_num [hslDefault]
  have hd : ∀ i, 0 ≤ hueGap (l.getD i (cdDefault, hslDefault)).2
      (l.getD ((i + 1) % l.length) (cdDefault, hslDefault)).2 := by
    intro i
    exact hueGap_nonneg (harg i).2 (harg ((i + 1) % l.length)).1
  have hfold := scan_fold_spec
    (fun i => hueGap (l.getD i (cdDefault, hslDefault)).2
      (l.getD ((i + 1) % l.length) (cdDefault, hslDefault)).2) hd l.length
  refine ⟨hfold.1, ?_⟩
  intro j hj
  exact (hfold.2.2 j hj).trans hfold.2.1

theorem chromRot_seam (colors : List ColorData) :
    ∀ i, i + 1 < (chromaticRotated colors).length →
      hueGap ((chromaticRotated colors).getD i (cdDefault, hslDefault)).2
        ((chromaticRotated colors).getD (i + 1) (cdDefault, hslDefault)).2 ≤
      hueGap ((chromaticRotated colors).getD
          ((chromaticRotated colors).length - 1) (cdDefault, hslDefault)).2
        ((chromaticRotated colors).getD 0 (cdDefault, hslDefault)).2 := by
  intro i hi
  by_cases hn : (chromaticSorted colors).length = 0
  · rw [chromaticRotated, if_pos hn] at hi
    omega
  · have hpos : 0 < (chromaticSorted colors).length := Nat.pos_of_ne_zero hn
    set chrom := chromaticSorted colors with hchrom
    set n := chrom.length with hn2
    set g := (largestGapScan chrom).2 with hg
    set start := (g + 1) % n with hstart
    have hstartlt : start < n := Nat.mod_lt _ hpos
    have hrot : chromaticRotated colors = chrom.rotate start := by
      rw [chromaticRotated, if_neg hn]
      exact (List.rotate_eq_drop_append_take hstartlt.le).symm
    have hH : ∀ x ∈ chrom, 0 ≤ x.2.h ∧ x.2.h ≤ 360 := by
      intro x hx
      rw [mem_chromaticSorted hx]
      exact rgbToHsl_h_bounds _ _ _
    have hspec := largestGapScan_spec chrom hH
    have hglt : g < n := by
      have := hspec.1
      omega
    have hlen : (chromaticRotated colors).length = n := by
      rw [hrot, List.length_rotate]
    rw [hlen] at hi
    -- translate rotated getD accesses into chrom getD accesses
    have hacc : ∀ j, j < n →
        (chromaticRotated colors).getD j (cdDefault, hslDefault) =
          chrom.getD ((j + start) % n) (cdDefault, hslDefault) := by
      intro j hj
      have hj3 : (j + start) % n < n := Nat.mod_lt _ hpos
      rw [hrot, List.getD_eq_getElem _ _ (by
          rw [List.length_rotate]; exact hj),
        List.getD_eq_getElem _ _ hj3, List.getElem_rotate]
    have e1 : (i + 1 + start) % n = ((i + start) % n + 1) % n := by
      rw [Nat.mod_add_mod]
      congr 1
      omega
    have e2 : (n - 1 + start) % n = g := by
      rw [hstart, Nat.add_mod_mod]
      have e3 : n - 1 + (g + 1) = n + g := by omega
      rw [e3, Nat.add_mod_left, Nat.mod_eq_of_lt hglt]
    have e4 : (0 + start) % n = start := by
      rw [Nat.zero_add, Nat.mod_eq_of_lt hstartlt]
    rw [hlen, hacc i (by omega), hacc (i + 1) hi, hacc (n - 1) (by omega),
      hacc 0 hpos, e1, e2, e4, hstart]
    exact hspec.2 ((i + start) % n) (Nat.mod_lt _ hpos)





/-- C7: `sortColorsByVisualProgression` is a pure reordering: it returns a
permutation of its input, consisting of the achromatic colors (saturation
below 12) sorted by lightness ascending, followed by the chromatic colors
(sorted by hue, then rotated); the rotation places the largest circular hue
gap at the seam, so every hue jump inside the chromatic block is at most
the wrap-around jump from its last color back to its first. -/
theorem sortColorsByVisualProgression_spec (colors : List ColorData) :
    (sortColorsByVisualProgression colors).Perm colors ∧
    ((achromaticSorted colors).map Prod.fst).Perm
      (colors.filter fun c => decide ((colorHsl c).s < 12)) ∧
    (((achromaticSorted colors).map Prod.fst).Pairwise
      fun a b => (colorHsl a).l ≤ (colorHsl b).l) ∧
    ((chromaticRotated colors).map Prod.fst).Perm
      (colors.filter fun c => !decide ((colorHsl c).s < 12)) ∧
    ((chromaticSorted colors).Pairwise fun a b => a.2.h ≤ b.2.h) ∧
    (chromaticSorted colors).IsRotated (chromaticRotated colors) ∧
    ∀ i, i + 1 < (chromaticRotated colors).length →
      hueGap ((chromaticRotated colors).getD i (cdDefault, hslDefault)).2
        ((chromaticRotated colors).getD (i + 1) (cdDefault, hslDefault)).2 ≤
      hueGap ((chromaticRotated colors).getD
          ((chromaticRotated colors).length - 1) (cdDefault, hslDefault)).2
        ((chromaticRotated colors).getD 0 (cdDefault, hslDefault)).2 :=
  ⟨sortColors_perm colors, achro_block_perm colors, achro_block_sorted colors,
   chrom_block_perm colors, chrom_sorted_sorted colors, chrom_isRotated colors,
   chromRot_seam colors⟩





/-- The hue normalization `addColor` performs: the JavaScript remainder,
folded into `[0, 360)` by one `+ 360` when negative. -/
def normHue (h0 : ℚ) : ℚ :=
  let h1 := jsRem h0 360
  if h1 < 0 then h1 + 360 else h1

theorem jsRem_small {h0 : ℚ} (hlb : -360 < h0) (hub : h0 < 360) :
    jsRem h0 360 = h0 := by
  have htr : jsTrunc (h0 / 360) = 0 := by
    simp only [jsTrunc]
    split_ifs with hs
    · rw [Int.floor_eq_zero_iff]
      constructor
      · exact hs
      · rw [div_lt_one (by norm_num : (0:ℚ) < 360)]
        exact hub
    · push_neg at hs
      have h1 : ⌊-(h0 / 360)⌋ = 0 := by
        rw [Int.floor_eq_zero_iff]
        constructor
        · linarith
        · rw [← neg_div, div_lt_one (by norm_num : (0:ℚ) < 360)]
          linarith
      rw [h1, neg_zero]
  rw [jsRem, htr]
  push_cast
  ring

theorem normHue_nonneg_case {h0 : ℚ} (h1 : 0 ≤ h0) (h2 : h0 < 360) :
    normHue h0 = h0 := by
  rw [normHue, jsRem_small (by linarith) h2, if_neg (by linarith)]

theorem normHue_neg_case {h0 : ℚ} (h1 : -360 < h0) (h2 : h0 < 0) :
    normHue h0 = h0 + 360 := by
  rw [normHue, jsRem_small h1 (by linarith), if_pos h2]

theorem tooSimilar_far {h1 s1 l1 h2 s2 l2 : ℚ}
    (hd : 30 ≤ min |h1 - h2| (360 - |h1 - h2|)) :
    areColorsTooSimilar h1 s1 l1 h2 s2 l2 = false := by
  simp only [areColorsTooSimilar]
  split_ifs with k1 k2 <;> first
    | rfl
    | (exfalso; rw [le_min_iff] at hd
       have hmin := le_min hd.1 hd.2
       linarith)

theorem randomInt_val_lb (rng : ℕ → ℚ) (mn mx : ℚ) (s : St)
    (h0 : 0 ≤ rng s.ix) (hle : mn ≤ mx) :
    mn - 1 < (((randomInt rng mn mx s).1 : ℤ) : ℚ) := by
  simp only [randomInt, randomRange, mrand, jsFloor]
  have hv : mn ≤ rng s.ix * (mx - mn) + mn := by nlinarith
  have h2 := Int.sub_one_lt_floor (rng s.ix * (mx - mn) + mn)
  have h3 : ((⌊rng s.ix * (mx - mn) + mn⌋ : ℤ) : ℚ) >
      rng s.ix * (mx - mn) + mn - 1 := by linarith
  linarith

theorem randomInt_val_ub (rng : ℕ → ℚ) (mn mx : ℚ) (s : St)
    (_h0 : 0 ≤ rng s.ix) (h1 : rng s.ix < 1) (hlt : mn < mx) :
    (((randomInt rng mn mx s).1 : ℤ) : ℚ) < mx := by
  simp only [randomInt, randomRange, mrand, jsFloor]
  have hv : rng s.ix * (mx - mn) + mn < mx := by nlinarith
  have h2 := Int.floor_le (rng s.ix * (mx - mn) + mn)
  linarith





theorem addColor_fresh_spec (rng : ℕ → ℚ) (h s l : ℚ) (g : GenSt)
    (hfar : g.pcs.all (fun pc =>
      !areColorsTooSimilar (normHue h) (clamp s 0 100) (clamp l 5 98)
        pc.h pc.s pc.l) = true) :
    (addColor rng h s l g).1 = true ∧
    ((addColor rng h s l g).2).pcs.map HSL.h = g.pcs.map HSL.h ++ [normHue h] ∧
    ((addColor rng h s l g).2).palette.length = g.palette.length + 1 := by
  simp only [addColor]
  rw [show (if jsRem h 360 < 0 then jsRem h 360 + 360 else jsRem h 360) =
    normHue h from rfl]
  have hany : (g.pcs.any fun pc =>
      areColorsTooSimilar (normHue h) (clamp s 0 100) (clamp l 5 98)
        pc.h pc.s pc.l) = false := by
    rw [List.any_eq_false]
    intro x hx
    have hx2 := List.all_eq_true.mp hfar x hx
    simpa using hx2
  rw [hany]
  simp only [Bool.false_eq_true, if_false]
  split
  · exact ⟨rfl, by simp, by simp⟩
  · exact ⟨rfl, by simp, by simp⟩





theorem safeAddColor_fresh_spec (rng : ℕ → ℚ) (h s l : ℚ) (g : GenSt)
    (hfar : g.pcs.all (fun pc =>
      !areColorsTooSimilar (normHue h) (clamp s 0 100) (clamp l 5 98)
        pc.h pc.s pc.l) = true) :
    (safeAddColor rng h s l g).pcs.map HSL.h = g.pcs.map HSL.h ++ [normHue h] ∧
    (safeAddColor rng h s l g).palette.length = g.palette.length + 1 := by
  have ha := addColor_fresh_spec rng h s l g hfar
  simp only [safeAddColor]
  rw [if_pos ha.1]
  exact ⟨ha.2.1, ha.2.2⟩





theorem min_circ_le_180 (x : ℚ) : min x (360 - x) ≤ 180 := by
  rcases le_total x 180 with h | h
  · exact (min_le_left _ _).trans h
  · exact (min_le_right _ _).trans (by linarith)

theorem candidateStart_complementary (rng : ℕ → ℚ) (s0 : St)
    (hr : ∀ n, 0 ≤ rng n ∧ rng n < 1) :
    ∃ h0 h1 : ℚ,
      (candidateStart rng .complementary 2 (some "#FF0000") s0).pcs.map HSL.h
        = [h0, h1] ∧
      (candidateStart rng .complementary 2 (some "#FF0000") s0).palette.length
        = 2 ∧
      min |h0 - 0| (360 - |h0 - 0|) ≤ 10 ∧
      min |h1 - 180| (360 - |h1 - 180|) ≤ 10 ∧
      160 ≤ min |h1 - h0| (360 - |h1 - h0|) ∧
      min |h1 - h0| (360 - |h1 - h0|) ≤ 180 := by
  unfold candidateStart
  rcases hgv : getWeightedVibe rng s0 with ⟨vibe, s1⟩
  have hbase : rgbToHsl ((hexToRgb "#FF0000").r : ℚ)
      ((hexToRgb "#FF0000").g : ℚ) ((hexToRgb "#FF0000").b : ℚ) =
      ⟨0, 100, 50⟩ := by decide
  simp only [generateBase, hbase]
  simp only [runModePhase]
  rw [show List.range 2 = [0, 1] from rfl]
  simp only [List.foldl_cons, List.foldl_nil]
  rcases hj0 : randomInt rng (-10) 10 s1 with ⟨j0, sA⟩
  rcases hj1 : randomInt rng (-10) 10 sA with ⟨j1, sB⟩
  have hb0a := randomInt_val_lb rng (-10) 10 s1 (hr s1.ix).1 (by norm_num)
  have hb0b := randomInt_val_ub rng (-10) 10 s1 (hr s1.ix).1 (hr s1.ix).2
    (by norm_num)
  rw [hj0] at hb0a hb0b
  have hb1a := randomInt_val_lb rng (-10) 10 sA (hr sA.ix).1 (by norm_num)
  have hb1b := randomInt_val_ub rng (-10) 10 sA (hr sA.ix).1 (hr sA.ix).2
    (by norm_num)
  rw [hj1] at hb1a hb1b
  simp only at hb0a hb0b hb1a hb1b
  have hq0a : (-10 : ℚ) ≤ (j0 : ℚ) := by
    have h1 : (-11 : ℤ) < j0 := by exact_mod_cast hb0a
    have h2 : (-10 : ℤ) ≤ j0 := by omega
    exact_mod_cast h2
  have hq1a : (-10 : ℚ) ≤ (j1 : ℚ) := by
    have h1 : (-11 : ℤ) < j1 := by exact_mod_cast hb1a
    have h2 : (-10 : ℤ) ≤ j1 := by omega
    exact_mod_cast h2
  rw [if_neg (by decide)]
  dsimp only
  simp only [show ((0:ℕ) % 2) = 0 from rfl, show ((1:ℕ) % 2) = 1 from rfl,
    Nat.cast_zero, Nat.cast_one, zero_mul, one_mul, zero_add,
    List.nil_append, List.cons_append, List.getD_cons_zero,
    List.getD_cons_succ]
  rcases hsv0 : randomInt rng vibe.sMin vibe.sMax sB with ⟨sv0, sC⟩
  rcases hlv0 : randomInt rng vibe.lMin vibe.lMax sC with ⟨lv0, sD⟩
  dsimp only
  set A := safeAddColor rng (j0 : ℚ) ((sv0 : ℤ) : ℚ) ((lv0 : ℤ) : ℚ)
    ⟨[], [], sD⟩ with hA
  rcases hsv1 : randomInt rng vibe.sMin vibe.sMax A.st with ⟨sv1, sE⟩
  rcases hlv1 : randomInt rng vibe.lMin vibe.lMax sE with ⟨lv1, sF⟩
  dsimp only
  obtain ⟨hA1, hA2⟩ := safeAddColor_fresh_spec rng (j0 : ℚ) ((sv0 : ℤ) : ℚ)
    ((lv0 : ℤ) : ℚ) ⟨[], [], sD⟩ (by simp)
  rw [← hA] at hA1 hA2
  simp only [List.map_nil, List.nil_append] at hA1
  have h0form : (0 ≤ (j0 : ℚ) ∧ normHue (j0 : ℚ) = (j0 : ℚ)) ∨
      ((j0 : ℚ) < 0 ∧ normHue (j0 : ℚ) = (j0 : ℚ) + 360) := by
    by_cases hs : (0 : ℚ) ≤ (j0 : ℚ)
    · exact Or.inl ⟨hs, normHue_nonneg_case hs (by linarith)⟩
    · push_neg at hs
      exact Or.inr ⟨hs, normHue_neg_case (by linarith) hs⟩
  have h1form : normHue (180 + (j1 : ℚ)) = 180 + (j1 : ℚ) :=
    normHue_nonneg_case (by linarith) (by linarith)
  have hfar : (A.pcs.all fun pc =>
      !areColorsTooSimilar (normHue (180 + (j1 : ℚ)))
        (clamp ((sv1 : ℤ) : ℚ) 0 100) (clamp ((lv1 : ℤ) : ℚ) 5 98)
        pc.h pc.s pc.l) = true := by
    rw [List.all_eq_true]
    intro pc hpc
    have hh : pc.h = normHue (j0 : ℚ) := by
      have hmem := List.mem_map_of_mem HSL.h hpc
      rw [hA1] at hmem
      simpa using hmem
    have hdist : (160 : ℚ) <
        |normHue (180 + (j1 : ℚ)) - pc.h| ∧
        |normHue (180 + (j1 : ℚ)) - pc.h| < 200 := by
      rw [hh, h1form]
      rcases h0form with ⟨hs, he⟩ | ⟨hs, he⟩ <;> rw [he]
      · rw [abs_of_pos (by linarith)]
        exact ⟨by linarith, by linarith⟩
      · rw [abs_of_neg (by linarith)]
        exact ⟨by linarith, by linarith⟩
    rw [tooSimilar_far (le_min (by linarith [hdist.1]) (by linarith [hdist.2]))]
    rfl
  obtain ⟨hB1, hB2⟩ := safeAddColor_fresh_spec rng (180 + (j1 : ℚ))
    ((sv1 : ℤ) : ℚ) ((lv1 : ℤ) : ℚ) ⟨A.palette, A.pcs, sF⟩ hfar
  refine ⟨normHue (j0 : ℚ), normHue (180 + (j1 : ℚ)), ?_, ?_, ?_, ?_, ?_, ?_⟩
  · rw [hB1]
    simp only [hA1]
    rfl
  · rw [hB2]
    simp only [hA2]
    rfl
  · rcases h0form with ⟨hs, he⟩ | ⟨hs, he⟩ <;> rw [he, sub_zero]
    · rw [abs_of_nonneg hs]
      exact (min_le_left _ _).trans (by linarith)
    · rw [abs_of_nonneg (by linarith)]
      exact (min_le_right _ _).trans (by linarith)
  · rw [h1form, show (180 : ℚ) + (j1 : ℚ) - 180 = (j1 : ℚ) from by ring]
    rcases le_total (0 : ℚ) (j1 : ℚ) with hs | hs
    · rw [abs_of_nonneg hs]
      exact (min_le_left _ _).trans (by linarith)
    · rw [abs_of_nonpos hs]
      exact (min_le_left _ _).trans (by linarith)
  · rw [h1form]
    rcases h0form with ⟨hs, he⟩ | ⟨hs, he⟩ <;> rw [he]
    · rw [abs_of_pos (by linarith)]
      exact le_min (by linarith) (by linarith)
    · rw [abs_of_neg (by linarith)]
      exact le_min (by linarith) (by linarith)
  · exact min_circ_le_180 _





theorem fillLoop_full (rng : ℕ → ℚ) (count : ℕ) (fuel : ℕ) (g : GenSt)
    (h : ¬ g.palette.length < count) : (fillLoop rng count fuel g).2 = g := by
  cases fuel <;> simp [fillLoop, h]

theorem generateCandidate_pcs (rng : ℕ → ℚ) (mode : PaletteMode) (count : ℕ)
    (bc : Option String) (fuel : ℕ) (s0 : St) :
    ((generateCandidate rng mode count bc fuel s0).2).pcs =
      ((fillLoop rng count fuel (candidateStart rng mode count bc s0)).2).pcs := by
  simp only [generateCandidate]
  split <;> rfl

/-- C3 (amended): with mode `complementary`, count 2 and seed `#FF0000`,
the two colors the candidate run accepts have hues within 10° of 0° and
180° respectively, and their circular hue difference lies in [160°, 180°] —
for every draw stream taking values in `[0, 1)`, every fuel and every
starting state.  (Saturation and lightness, by contrast, come from the
drawn vibe bracket, not from the seed: see the counterexample.) -/
theorem generateCandidate_complementary_hues (rng : ℕ → ℚ) (fuel : ℕ)
    (s0 : St) (hr : ∀ n, 0 ≤ rng n ∧ rng n < 1) :
    ∃ h0 h1 : ℚ,
      ((generateCandidate rng .complementary 2 (some "#FF0000") fuel
          s0).2).pcs.map HSL.h = [h0, h1] ∧
      min |h0 - 0| (360 - |h0 - 0|) ≤ 10 ∧
      min |h1 - 180| (360 - |h1 - 180|) ≤ 10 ∧
      160 ≤ min |h1 - h0| (360 - |h1 - h0|) ∧
      min |h1 - h0| (360 - |h1 - h0|) ≤ 180 := by
  obtain ⟨h0, h1, hmap, hlen, d1, d2, d3, d4⟩ :=
    candidateStart_complementary rng s0 hr
  have hfull := fillLoop_full rng 2 fuel
    (candidateStart rng .complementary 2 (some "#FF0000") s0)
    (by rw [hlen]; omega)
  refine ⟨h0, h1, ?_, d1, d2, d3, d4⟩
  rw [generateCandidate_pcs, hfull, hmap]

/-- Witness: the hue invariant of the amended C3 at the all-zeros draw
stream. -/
theorem generateCandidate_complementary_hues_witness :
    ∃ h0 h1 : ℚ,
      ((generateCandidate (fun _ => 0) .complementary 2 (some "#FF0000") 0
          ⟨0, Memory.init⟩).2).pcs.map HSL.h = [h0, h1] ∧
      min |h0 - 0| (360 - |h0 - 0|) ≤ 10 ∧
      min |h1 - 180| (360 - |h1 - 180|) ≤ 10 ∧
      160 ≤ min |h1 - h0| (360 - |h1 - h0|) ∧
      min |h1 - h0| (360 - |h1 - h0|) ≤ 180 :=
  generateCandidate_complementary_hues (fun _ => 0) 0 ⟨0, Memory.init⟩
    (fun _ => by norm_num)







/-- `Math.round` is within one half of its argument. -/
theorem jsRound_err (x : ℚ) : |((jsRound x : ℤ) : ℚ) - x| ≤ 1/2 := by
  rw [abs_le]
  have h1 := Int.floor_le (x + 1/2)
  have h2 := Int.lt_floor_add_one (x + 1/2)
  constructor <;> [skip; skip] <;> simp only [jsRound] <;> linarith

/-- The JavaScript remainder mod 12 of a small nonnegative argument. -/
theorem jsRem12_id {x : ℚ} (h1 : 0 ≤ x) (h2 : x < 12) : jsRem x 12 = x := by
  have htr : jsTrunc (x / 12) = 0 := by
    simp only [jsTrunc, if_pos (by positivity : (0:ℚ) ≤ x / 12)]
    rw [Int.floor_eq_zero_iff]
    constructor
    · positivity
    · rw [div_lt_one (by norm_num : (0:ℚ) < 12)]
      exact h2
  rw [jsRem, htr]
  push_cast
  ring

/-- The JavaScript remainder mod 12 in the first wrapped period. -/
theorem jsRem12_wrap {x : ℚ} (h1 : 12 ≤ x) (h2 : x < 24) :
    jsRem x 12 = x - 12 := by
  have htr : jsTrunc (x / 12) = 1 := by
    simp only [jsTrunc, if_pos (by positivity : (0:ℚ) ≤ x / 12)]
    have h3 : ⌊x / 12⌋ = 1 := by
      rw [Int.floor_eq_iff]
      push_cast
      constructor
      · rw [le_div_iff₀ (by norm_num : (0:ℚ) < 12)]
        linarith
      · rw [div_lt_iff₀ (by norm_num : (0:ℚ) < 12)]
        linarith
    exact h3
  rw [jsRem, htr]
  push_cast
  ring

/-- The clamp to `[-1, 1]` that gives `hslToRgb`'s tent function its
linear middle. -/
def clampc (x : ℚ) : ℚ := max (-1) (min x 1)

/-- The tent factor of `hslToRgb`'s channel formula. -/
def gfun (k : ℚ) : ℚ := max (-1) (min (k - 3) (min (9 - k) 1))

theorem gfun_flat_low {k : ℚ} (h : k ≤ 2) : gfun k = -1 := by
  rw [gfun, max_eq_left]
  exact le_trans (min_le_left _ _) (by linarith)

theorem gfun_flat_high {k : ℚ} (h : 10 ≤ k) : gfun k = -1 := by
  rw [gfun, max_eq_left]
  exact le_trans (min_le_right _ _) (le_trans (min_le_left _ _) (by linarith))

theorem gfun_low_form {k : ℚ} (h : k ≤ 8) : gfun k = clampc (k - 3) := by
  rw [gfun, clampc,
    show min (9 - k) 1 = 1 from min_eq_right (by linarith)]

theorem gfun_high_form {k : ℚ} (h : 6 ≤ k) : gfun k = clampc (9 - k) := by
  rw [gfun, clampc]
  congr 1
  exact min_eq_right (le_trans (min_le_left _ _) (by linarith))

theorem clampc_lip (u v : ℚ) : |clampc u - clampc v| ≤ |u - v| := by
  simp only [clampc, max_def, min_def]
  split_ifs <;> rw [abs_le] <;> constructor <;>
    cases abs_cases (u - v) <;> linarith

theorem clampc_bound (u : ℚ) : |clampc u| ≤ 1 := by
  simp only [clampc, max_def, min_def]
  split_ifs <;> rw [abs_le] <;> constructor <;> linarith





/-- Error composition: the channel value before rounding is within
255·(1/200 + 3/400 + 1/120) = 5.3125 of the exact channel. -/
theorem channel_err (lq la lG lGs d : ℚ)
    (hl : |lq| ≤ 1/200) (ha : |la| ≤ 3/400) (hGb : |lG| ≤ 1)
    (hGG : |lGs| ≤ 1/60) (hd0 : 0 ≤ d) (hd1 : d ≤ 1) :
    |lq - (la * lG + (d/2) * lGs)| ≤ 1/200 + 3/400 + 1/120 := by
  have h1 : |la * lG| ≤ 3/400 := by
    rw [abs_mul]
    calc |la| * |lG| ≤ (3/400) * 1 :=
          mul_le_mul ha hGb (abs_nonneg _) (by norm_num)
      _ = 3/400 := by ring
  have h2 : |(d/2) * lGs| ≤ 1/120 := by
    rw [abs_mul, abs_of_nonneg (by positivity : (0:ℚ) ≤ d/2)]
    calc d/2 * |lGs| ≤ (1/2) * (1/60) := by
          apply mul_le_mul (by linarith) hGG (abs_nonneg _) (by norm_num)
      _ = 1/120 := by norm_num
  calc |lq - (la * lG + (d/2) * lGs)|
      ≤ |lq| + |la * lG + (d/2) * lGs| := abs_sub _ _
    _ ≤ |lq| + (|la * lG| + |(d/2) * lGs|) := by
        have := abs_add (la * lG) ((d/2) * lGs)
        linarith
    _ ≤ 1/200 + 3/400 + 1/120 := by linarith

/-- Rounding an approximation of an integer channel: closer than 5.8125
means an integer distance of at most 5. -/
theorem round_channel_bound (x : ℚ) (c : ℤ)
    (hx : |x - (c : ℚ)| ≤ 85/16) : |jsRound x - c| ≤ 5 := by
  have h1 := jsRound_err x
  have h2 : |((jsRound x : ℤ) : ℚ) - (c : ℚ)| ≤ 85/16 + 1/2 := by
    calc |((jsRound x : ℤ) : ℚ) - (c : ℚ)|
        = |(((jsRound x : ℤ) : ℚ) - x) + (x - (c : ℚ))| := by ring_nf
      _ ≤ |((jsRound x : ℤ) : ℚ) - x| + |x - (c : ℚ)| := abs_add _ _
      _ ≤ 85/16 + 1/2 := by linarith
  have h3 : |((jsRound x - c : ℤ) : ℚ)| < 6 := by
    push_cast
    calc |((jsRound x : ℤ) : ℚ) - (c : ℚ)| ≤ 85/16 + 1/2 := h2
      _ < 6 := by norm_num
  have h4 : |jsRound x - c| < 6 := by exact_mod_cast h3
  omega





/-- All approximation ingredients for one output channel at once. -/
theorem channel_close (c : ℤ) (l0 G0 l1 a1 G1 d : ℚ)
    (hid : (c : ℚ) = 255 * (l0 - d/2 * G0))
    (hl : |l1 - l0| ≤ 1/200) (ha : |a1 - d/2| ≤ 3/400)
    (hGb : |G1| ≤ 1) (hGG : |G1 - G0| ≤ 1/60)
    (hd0 : 0 ≤ d) (hd1 : d ≤ 1) :
    |jsRound (255 * (l1 - a1 * G1)) - c| ≤ 5 := by
  apply round_channel_bound
  have key : 255 * (l1 - a1 * G1) - (c : ℚ) =
      255 * ((l1 - l0) - ((a1 - d/2) * G1 + (d/2) * (G1 - G0))) := by
    rw [hid]
    ring
  rw [key, abs_mul, abs_of_nonneg (by norm_num : (0:ℚ) ≤ 255)]
  have hce := channel_err (l1 - l0) (a1 - d/2) G1 (G1 - G0) d hl ha hGb hGG
    hd0 hd1
  calc 255 * |(l1 - l0) - ((a1 - d/2) * G1 + d/2 * (G1 - G0))|
      ≤ 255 * (1/200 + 3/400 + 1/120) := by linarith
    _ = 85/16 := by norm_num

theorem minl_lip (x y : ℚ) : |min x (1 - x) - min y (1 - y)| ≤ |x - y| := by
  simp only [min_def]
  split_ifs <;> rw [abs_le] <;> constructor <;>
    cases abs_cases (x - y) <;> linarith





theorem gfun_bound (k : ℚ) : |gfun k| ≤ 1 := by
  rw [abs_le, gfun]
  constructor
  · exact le_max_left _ _
  · exact max_le (by norm_num)
      (le_trans (min_le_right _ _) (min_le_right _ _))

theorem jsRound_nonneg_int {q : ℚ} (h : 0 ≤ q) : 0 ≤ jsRound q := by
  simp only [jsRound]
  positivity

theorem jsRound_le_int {q : ℚ} (n : ℤ) (h : q ≤ (n : ℚ)) : jsRound q ≤ n := by
  simp only [jsRound]
  have h2 : q + 1/2 < ((n + 1 : ℤ) : ℚ) := by push_cast; linarith
  have h3 := Int.floor_lt.mpr h2
  omega

/-- The drawn-and-rounded amplitude `s/100 * min(l, 1-l)` is within 3/400
of the exact amplitude `d/2`. -/
theorem a_close (S L : ℤ) (sstar lstar d : ℚ)
    (hS : |(S : ℚ) - 100 * sstar| ≤ 1/2) (hL : |(L : ℚ) - 100 * lstar| ≤ 1/2)
    (hs0' : 0 ≤ sstar) (hs1 : sstar ≤ 1) (hL0 : 0 ≤ L) (hL100 : L ≤ 100)
    (hastar : sstar * min lstar (1 - lstar) = d/2) :
    |(S : ℚ)/100 * min ((L : ℚ)/100) (1 - (L : ℚ)/100) - d/2| ≤ 3/400 := by
  have hs' : |(S : ℚ)/100 - sstar| ≤ 1/200 := by
    rw [show (S : ℚ)/100 - sstar = ((S : ℚ) - 100 * sstar)/100 from by ring,
      abs_div, abs_of_nonneg (by norm_num : (0:ℚ) ≤ 100)]
    linarith
  have hl' : |(L : ℚ)/100 - lstar| ≤ 1/200 := by
    rw [show (L : ℚ)/100 - lstar = ((L : ℚ) - 100 * lstar)/100 from by ring,
      abs_div, abs_of_nonneg (by norm_num : (0:ℚ) ≤ 100)]
    linarith
  have hq0 : (0 : ℚ) ≤ (L : ℚ) := by exact_mod_cast hL0
  have hq1 : (L : ℚ) ≤ 100 := by exact_mod_cast hL100
  have hm0 : 0 ≤ min ((L : ℚ)/100) (1 - (L : ℚ)/100) := by
    apply le_min
    · positivity
    · linarith [div_le_one_of_le₀ hq1 (by norm_num : (0:ℚ) ≤ 100)]
  have hm1 : min ((L : ℚ)/100) (1 - (L : ℚ)/100) ≤ 1/2 := by
    rcases le_total ((L : ℚ)/100) (1 - (L : ℚ)/100) with h | h
    · rw [min_eq_left h]; linarith
    · rw [min_eq_right h]
      have : (1 : ℚ)/2 ≤ (L : ℚ)/100 := by linarith
      linarith
  have hmlip := minl_lip ((L : ℚ)/100) lstar
  have key : (S : ℚ)/100 * min ((L : ℚ)/100) (1 - (L : ℚ)/100) - d/2 =
      ((S : ℚ)/100 - sstar) * min ((L : ℚ)/100) (1 - (L : ℚ)/100) +
      sstar * (min ((L : ℚ)/100) (1 - (L : ℚ)/100) - min lstar (1 - lstar)) := by
    rw [← hastar]
    ring
  rw [key]
  calc |((S : ℚ)/100 - sstar) * min ((L : ℚ)/100) (1 - (L : ℚ)/100) +
      sstar * (min ((L : ℚ)/100) (1 - (L : ℚ)/100) - min lstar (1 - lstar))|
      ≤ |((S : ℚ)/100 - sstar) * min ((L : ℚ)/100) (1 - (L : ℚ)/100)| +
        |sstar * (min ((L : ℚ)/100) (1 - (L : ℚ)/100) - min lstar (1 - lstar))| :=
        abs_add _ _
    _ ≤ (1/200) * (1/2) + 1 * (1/200) := by
        have e1 : |((S : ℚ)/100 - sstar) * min ((L : ℚ)/100) (1 - (L : ℚ)/100)| ≤
            (1/200) * (1/2) := by
          rw [abs_mul, abs_of_nonneg hm0]
          exact mul_le_mul hs' hm1 hm0 (by norm_num)
        have e2 : |sstar * (min ((L : ℚ)/100) (1 - (L : ℚ)/100) -
            min lstar (1 - lstar))| ≤ 1 * (1/200) := by
          rw [abs_mul, abs_of_nonneg hs0']
          exact mul_le_mul hs1 (hmlip.trans hl') (abs_nonneg _) (by norm_num)
        linarith
    _ ≤ 3/400 := by norm_num





theorem clampc_eq_id {x : ℚ} (h1 : -1 ≤ x) (h2 : x ≤ 1) : clampc x = x := by
  rw [clampc, min_eq_left h2, max_eq_right h1]

theorem clampc_eq_one {x : ℚ} (h : 1 ≤ x) : clampc x = 1 := by
  rw [clampc, min_eq_right h, max_eq_right (by norm_num)]

theorem div100_err {X : ℤ} {t : ℚ} (h : |(X : ℚ) - 100 * t| ≤ 1/2) :
    |(X : ℚ)/100 - t| ≤ 1/200 := by
  rw [show (X : ℚ)/100 - t = ((X : ℚ) - 100 * t)/100 from by ring,
    abs_div, abs_of_nonneg (by norm_num : (0:ℚ) ≤ 100)]
  linarith

theorem div30_err {X : ℤ} {t6 : ℚ} (h : |(X : ℚ) - 60 * t6| ≤ 1/2) :
    |(X : ℚ)/30 - 2 * t6| ≤ 1/60 := by
  rw [show (X : ℚ)/30 - 2 * t6 = ((X : ℚ) - 60 * t6)/30 from by ring,
    abs_div, abs_of_nonneg (by norm_num : (0:ℚ) ≤ 30)]
  linarith




theorem gfun_def_eq (k : ℚ) :
    max (-1) (min (k - 3) (min (9 - k) 1)) = gfun k := rfl

set_option maxHeartbeats 1000000 in
theorem roundtrip_A (r g b : ℤ)
    (hr1 : 0 ≤ r) (hr2 : r ≤ 255) (hg1 : 0 ≤ g) (hg2 : g ≤ 255)
    (hb1 : 0 ≤ b) (hb2 : b ≤ 255)
    (hgrey : ¬ ((r:ℚ)/255) ⊔ (((g:ℚ)/255) ⊔ ((b:ℚ)/255)) =
      ((r:ℚ)/255) ⊓ (((g:ℚ)/255) ⊓ ((b:ℚ)/255)))
    (hA : ((r:ℚ)/255) ⊔ (((g:ℚ)/255) ⊔ ((b:ℚ)/255)) = (r:ℚ)/255)
    (hgb : ¬ ((g:ℚ)/255 < (b:ℚ)/255)) :
    |(hslToRgb (rgbToHsl (r:ℚ) (g:ℚ) (b:ℚ)).h (rgbToHsl (r:ℚ) (g:ℚ) (b:ℚ)).s
        (rgbToHsl (r:ℚ) (g:ℚ) (b:ℚ)).l).r - r| ≤ 5 ∧
    |(hslToRgb (rgbToHsl (r:ℚ) (g:ℚ) (b:ℚ)).h (rgbToHsl (r:ℚ) (g:ℚ) (b:ℚ)).s
        (rgbToHsl (r:ℚ) (g:ℚ) (b:ℚ)).l).g - g| ≤ 5 ∧
    |(hslToRgb (rgbToHsl (r:ℚ) (g:ℚ) (b:ℚ)).h (rgbToHsl (r:ℚ) (g:ℚ) (b:ℚ)).s
        (rgbToHsl (r:ℚ) (g:ℚ) (b:ℚ)).l).b - b| ≤ 5 := by
  -- normalized channel values and their bounds
  have hrq0 : (0:ℚ) ≤ (r:ℚ)/255 := by positivity
  have hgq0 : (0:ℚ) ≤ (g:ℚ)/255 := by positivity
  have hbq0 : (0:ℚ) ≤ (b:ℚ)/255 := by positivity
  have hrc : ((r:ℚ)) ≤ 255 := by exact_mod_cast hr2
  have hgc : ((g:ℚ)) ≤ 255 := by exact_mod_cast hg2
  have hbc : ((b:ℚ)) ≤ 255 := by exact_mod_cast hb2
  have hrq1 : (r:ℚ)/255 ≤ 1 := by linarith
  have hgq1 : (g:ℚ)/255 ≤ 1 := by linarith
  have hbq1 : (b:ℚ)/255 ≤ 1 := by linarith
  -- max and min resolve in this sector: M = r, m = b
  have hbg : (b:ℚ)/255 ≤ (g:ℚ)/255 := le_of_not_lt hgb
  have hgr : (g:ℚ)/255 ≤ (r:ℚ)/255 := by
    have h1 : (g:ℚ)/255 ≤ ((r:ℚ)/255) ⊔ (((g:ℚ)/255) ⊔ ((b:ℚ)/255)) :=
      le_sup_of_le_right le_sup_left
    rw [hA] at h1
    exact h1
  have hbr : (b:ℚ)/255 ≤ (r:ℚ)/255 := hbg.trans hgr
  have hm : ((r:ℚ)/255) ⊓ (((g:ℚ)/255) ⊓ ((b:ℚ)/255)) = (b:ℚ)/255 := by
    rw [inf_eq_right.mpr hbg, inf_eq_right.mpr hbr]
  -- d and l facts
  have hd0 : (0:ℚ) < (r:ℚ)/255 - (b:ℚ)/255 := by
    rcases lt_or_eq_of_le hbr with h | h
    · linarith
    · exfalso
      apply hgrey
      rw [hA, hm, ← h]
  have hd1 : (r:ℚ)/255 - (b:ℚ)/255 ≤ 1 := by linarith
  have hl0 : (0:ℚ) < ((r:ℚ)/255 + (b:ℚ)/255)/2 := by linarith
  have hl1 : ((r:ℚ)/255 + (b:ℚ)/255)/2 < 1 := by linarith
  -- the exact saturation and its properties
  set sst : ℚ := if ((r:ℚ)/255 + (b:ℚ)/255)/2 > 1/2 then
      ((r:ℚ)/255 - (b:ℚ)/255) / (2 - (r:ℚ)/255 - (b:ℚ)/255)
    else ((r:ℚ)/255 - (b:ℚ)/255) / ((r:ℚ)/255 + (b:ℚ)/255) with hsstdef
  have hsst0 : 0 ≤ sst := by
    rw [hsstdef]
    split_ifs with hcase
    · apply div_nonneg (by linarith) (by linarith)
    · apply div_nonneg (by linarith) (by linarith)
  have hsst1 : sst ≤ 1 := by
    rw [hsstdef]
    split_ifs with hcase
    · rw [div_le_one (by linarith)]
      linarith
    · rw [div_le_one (by linarith)]
      linarith
  have hastar : sst * min (((r:ℚ)/255 + (b:ℚ)/255)/2)
      (1 - ((r:ℚ)/255 + (b:ℚ)/255)/2) = ((r:ℚ)/255 - (b:ℚ)/255)/2 := by
    rw [hsstdef]
    split_ifs with hcase
    · rw [min_eq_right (by linarith)]
      rw [div_mul_eq_mul_div, div_eq_div_iff (by linarith) (by norm_num)]
      ring
    · rw [min_eq_left (by linarith)]
      rw [div_mul_eq_mul_div, div_eq_div_iff (by linarith) (by norm_num)]
      ring
  -- the sector hue
  have hh60 : (0:ℚ) ≤ ((g:ℚ)/255 - (b:ℚ)/255) / ((r:ℚ)/255 - (b:ℚ)/255) :=
    div_nonneg (by linarith) (by linarith)
  have hh61 : ((g:ℚ)/255 - (b:ℚ)/255) / ((r:ℚ)/255 - (b:ℚ)/255) ≤ 1 := by
    rw [div_le_one hd0]
    linarith
  -- characterize the rgbToHsl output in this branch
  have hout : rgbToHsl (r:ℚ) (g:ℚ) (b:ℚ) =
      ⟨((jsRound ((((g:ℚ)/255 - (b:ℚ)/255) / ((r:ℚ)/255 - (b:ℚ)/255) + 0) / 6
          * 360) : ℤ) : ℚ),
       ((jsRound (sst * 100) : ℤ) : ℚ),
       ((jsRound ((((r:ℚ)/255 + (b:ℚ)/255))/2 * 100) : ℤ) : ℚ)⟩ := by
    simp only [rgbToHsl]
    rw [if_neg hgrey, if_pos hA, if_neg hgb, hA, hm]
  rw [hout]
  simp only [hslToRgb]
  simp only [gfun_def_eq]
  -- name the three rounded integers
  set H : ℤ := jsRound ((((g:ℚ)/255 - (b:ℚ)/255) / ((r:ℚ)/255 - (b:ℚ)/255) + 0)
    / 6 * 360) with hHdef
  set S : ℤ := jsRound (sst * 100) with hSdef
  set L : ℤ := jsRound ((((r:ℚ)/255 + (b:ℚ)/255))/2 * 100) with hLdef
  -- rounding errors
  have hHerr : |(H:ℚ) - 60 * (((g:ℚ)/255 - (b:ℚ)/255) /
      ((r:ℚ)/255 - (b:ℚ)/255))| ≤ 1/2 := by
    have h1 := jsRound_err ((((g:ℚ)/255 - (b:ℚ)/255) /
      ((r:ℚ)/255 - (b:ℚ)/255) + 0) / 6 * 360)
    rw [hHdef]
    calc |(jsRound ((((g:ℚ)/255 - (b:ℚ)/255) / ((r:ℚ)/255 - (b:ℚ)/255) + 0)
          / 6 * 360) : ℚ) - 60 * (((g:ℚ)/255 - (b:ℚ)/255) /
          ((r:ℚ)/255 - (b:ℚ)/255))|
        = |(jsRound ((((g:ℚ)/255 - (b:ℚ)/255) / ((r:ℚ)/255 - (b:ℚ)/255) + 0)
          / 6 * 360) : ℚ) - (((g:ℚ)/255 - (b:ℚ)/255) /
          ((r:ℚ)/255 - (b:ℚ)/255) + 0) / 6 * 360| := by ring_nf
      _ ≤ 1/2 := h1
  have hSerr : |(S:ℚ) - 100 * sst| ≤ 1/2 := by
    have h1 := jsRound_err (sst * 100)
    rw [hSdef]
    calc |(jsRound (sst * 100) : ℚ) - 100 * sst|
        = |(jsRound (sst * 100) : ℚ) - sst * 100| := by ring_nf
      _ ≤ 1/2 := h1
  have hLerr : |(L:ℚ) - 100 * (((r:ℚ)/255 + (b:ℚ)/255)/2)| ≤ 1/2 := by
    have h1 := jsRound_err ((((r:ℚ)/255 + (b:ℚ)/255))/2 * 100)
    rw [hLdef]
    calc |(jsRound ((((r:ℚ)/255 + (b:ℚ)/255))/2 * 100) : ℚ) -
          100 * (((r:ℚ)/255 + (b:ℚ)/255)/2)|
        = |(jsRound ((((r:ℚ)/255 + (b:ℚ)/255))/2 * 100) : ℚ) -
          (((r:ℚ)/255 + (b:ℚ)/255))/2 * 100| := by ring_nf
      _ ≤ 1/2 := h1
  have hL0 : 0 ≤ L := by
    rw [hLdef]
    exact jsRound_nonneg_int (by positivity)
  have hL100 : L ≤ 100 := by
    rw [hLdef]
    exact jsRound_le_int 100 (by push_cast; linarith)
  have hH0 : 0 ≤ H := by
    rw [hHdef]
    exact jsRound_nonneg_int (by positivity)
  have hH60 : H ≤ 60 := by
    rw [hHdef]
    exact jsRound_le_int 60 (by push_cast; nlinarith)
  have hu0 : (0:ℚ) ≤ (H:ℚ)/30 := by positivity
  have hu2 : (H:ℚ)/30 ≤ 2 := by
    have h1 : (H:ℚ) ≤ 60 := by exact_mod_cast hH60
    linarith
  have huerr : |(H:ℚ)/30 - 2 * (((g:ℚ)/255 - (b:ℚ)/255) /
      ((r:ℚ)/255 - (b:ℚ)/255))| ≤ 1/60 := div30_err hHerr
  have haclose := a_close S L sst (((r:ℚ)/255 + (b:ℚ)/255)/2)
    ((r:ℚ)/255 - (b:ℚ)/255) hSerr hLerr hsst0 hsst1 hL0 hL100 hastar
  have hlclose : |(L:ℚ)/100 - ((r:ℚ)/255 + (b:ℚ)/255)/2| ≤ 1/200 :=
    div100_err hLerr
  -- resolve the three tent arguments
  rw [show (0:ℚ) + (H:ℚ)/30 = (H:ℚ)/30 from by ring,
    jsRem12_id hu0 (by linarith),
    jsRem12_id (by linarith : (0:ℚ) ≤ 8 + (H:ℚ)/30) (by linarith),
    jsRem12_id (by linarith : (0:ℚ) ≤ 4 + (H:ℚ)/30) (by linarith)]
  refine ⟨?_, ?_, ?_⟩
  · -- red channel: tent value is the flat -1
    refine channel_close r (((r:ℚ)/255 + (b:ℚ)/255)/2) (-1) ((L:ℚ)/100)
      ((S:ℚ)/100 * ((L:ℚ)/100 ⊓ (1 - (L:ℚ)/100))) (gfun ((H:ℚ)/30))
      ((r:ℚ)/255 - (b:ℚ)/255) ?_ hlclose haclose (gfun_bound _) ?_
      (by linarith) hd1
    · ring
    · rw [gfun_flat_low hu2]
      norm_num
  · -- green channel: tent value is the descending ramp
    refine channel_close g (((r:ℚ)/255 + (b:ℚ)/255)/2)
      (clampc (1 - 2 * (((g:ℚ)/255 - (b:ℚ)/255) / ((r:ℚ)/255 - (b:ℚ)/255))))
      ((L:ℚ)/100)
      ((S:ℚ)/100 * ((L:ℚ)/100 ⊓ (1 - (L:ℚ)/100))) (gfun (8 + (H:ℚ)/30))
      ((r:ℚ)/255 - (b:ℚ)/255) ?_ hlclose haclose (gfun_bound _) ?_
      (by linarith) hd1
    · rw [clampc_eq_id (by linarith) (by linarith)]
      have hne : ((r:ℚ) - (b:ℚ)) ≠ 0 := by
        have h2 : (0:ℚ) < (r:ℚ) - (b:ℚ) := by linarith
        exact ne_of_gt h2
      have hne2 : ((r:ℚ)/255 - (b:ℚ)/255) ≠ 0 := ne_of_gt hd0
      field_simp
      ring
    · rw [gfun_high_form (by linarith)]
      calc |clampc (9 - (8 + (H:ℚ)/30)) -
            clampc (1 - 2 * (((g:ℚ)/255 - (b:ℚ)/255) /
              ((r:ℚ)/255 - (b:ℚ)/255)))|
          ≤ |(9 - (8 + (H:ℚ)/30)) - (1 - 2 * (((g:ℚ)/255 - (b:ℚ)/255) /
              ((r:ℚ)/255 - (b:ℚ)/255)))| := clampc_lip _ _
        _ = |(H:ℚ)/30 - 2 * (((g:ℚ)/255 - (b:ℚ)/255) /
              ((r:ℚ)/255 - (b:ℚ)/255))| := by rw [abs_sub_comm]; ring_nf
        _ ≤ 1/60 := huerr
  · -- blue channel: tent value is the flat 1
    rw [gfun_low_form (by linarith : 4 + (H:ℚ)/30 ≤ 8),
      show (4 : ℚ) + (H:ℚ)/30 - 3 = 1 + (H:ℚ)/30 from by ring,
      clampc_eq_one (by linarith)]
    refine channel_close b (((r:ℚ)/255 + (b:ℚ)/255)/2) 1 ((L:ℚ)/100)
      ((S:ℚ)/100 * ((L:ℚ)/100 ⊓ (1 - (L:ℚ)/100))) 1
      ((r:ℚ)/255 - (b:ℚ)/255) ?_ hlclose haclose (by norm_num) (by norm_num)
      (by linarith) hd1
    ring



theorem jsRound_ge_int {q : ℚ} (n : ℤ) (h : (n : ℚ) ≤ q) : n ≤ jsRound q := by
  simp only [jsRound]
  rw [Int.le_floor]
  linarith

set_option maxHeartbeats 1000000 in
theorem roundtrip_D (r g b : ℤ)
    (hr1 : 0 ≤ r) (hr2 : r ≤ 255) (hg1 : 0 ≤ g) (hg2 : g ≤ 255)
    (hb1 : 0 ≤ b) (hb2 : b ≤ 255)
    (hgrey : ¬ ((r:ℚ)/255) ⊔ (((g:ℚ)/255) ⊔ ((b:ℚ)/255)) =
      ((r:ℚ)/255) ⊓ (((g:ℚ)/255) ⊓ ((b:ℚ)/255)))
    (hA : ((r:ℚ)/255) ⊔ (((g:ℚ)/255) ⊔ ((b:ℚ)/255)) = (r:ℚ)/255)
    (hgb : (g:ℚ)/255 < (b:ℚ)/255) :
    |(hslToRgb (rgbToHsl (r:ℚ) (g:ℚ) (b:ℚ)).h (rgbToHsl (r:ℚ) (g:ℚ) (b:ℚ)).s
        (rgbToHsl (r:ℚ) (g:ℚ) (b:ℚ)).l).r - r| ≤ 5 ∧
    |(hslToRgb (rgbToHsl (r:ℚ) (g:ℚ) (b:ℚ)).h (rgbToHsl (r:ℚ) (g:ℚ) (b:ℚ)).s
        (rgbToHsl (r:ℚ) (g:ℚ) (b:ℚ)).l).g - g| ≤ 5 ∧
    |(hslToRgb (rgbToHsl (r:ℚ) (g:ℚ) (b:ℚ)).h (rgbToHsl (r:ℚ) (g:ℚ) (b:ℚ)).s
        (rgbToHsl (r:ℚ) (g:ℚ) (b:ℚ)).l).b - b| ≤ 5 := by
  have hrq0 : (0:ℚ) ≤ (r:ℚ)/255 := by positivity
  have hgq0 : (0:ℚ) ≤ (g:ℚ)/255 := by positivity
  have hbq0 : (0:ℚ) ≤ (b:ℚ)/255 := by positivity
  have hrc : ((r:ℚ)) ≤ 255 := by exact_mod_cast hr2
  have hgc : ((g:ℚ)) ≤ 255 := by exact_mod_cast hg2
  have hbc : ((b:ℚ)) ≤ 255 := by exact_mod_cast hb2
  have hrq1 : (r:ℚ)/255 ≤ 1 := by linarith
  have hgq1 : (g:ℚ)/255 ≤ 1 := by linarith
  have hbq1 : (b:ℚ)/255 ≤ 1 := by linarith
  have hbr : (b:ℚ)/255 ≤ (r:ℚ)/255 := by
    have h1 : (b:ℚ)/255 ≤ ((r:ℚ)/255) ⊔ (((g:ℚ)/255) ⊔ ((b:ℚ)/255)) :=
      le_sup_of_le_right le_sup_right
    rw [hA] at h1
    exact h1
  have hgr : (g:ℚ)/255 < (r:ℚ)/255 := lt_of_lt_of_le hgb hbr
  have hm : ((r:ℚ)/255) ⊓ (((g:ℚ)/255) ⊓ ((b:ℚ)/255)) = (g:ℚ)/255 := by
    rw [inf_eq_left.mpr hgb.le, inf_eq_right.mpr hgr.le]
  have hd0 : (0:ℚ) < (r:ℚ)/255 - (g:ℚ)/255 := by linarith
  have hd1 : (r:ℚ)/255 - (g:ℚ)/255 ≤ 1 := by linarith
  have hl0 : (0:ℚ) < ((r:ℚ)/255 + (g:ℚ)/255)/2 := by linarith
  have hl1 : ((r:ℚ)/255 + (g:ℚ)/255)/2 < 1 := by linarith
  set sst : ℚ := if ((r:ℚ)/255 + (g:ℚ)/255)/2 > 1/2 then
      ((r:ℚ)/255 - (g:ℚ)/255) / (2 - (r:ℚ)/255 - (g:ℚ)/255)
    else ((r:ℚ)/255 - (g:ℚ)/255) / ((r:ℚ)/255 + (g:ℚ)/255) with hsstdef
  have hsst0 : 0 ≤ sst := by
    rw [hsstdef]
    split_ifs with hcase
    · apply div_nonneg (by linarith) (by linarith)
    · apply div_nonneg (by linarith) (by linarith)
  have hsst1 : sst ≤ 1 := by
    rw [hsstdef]
    split_ifs with hcase
    · rw [div_le_one (by linarith)]
      linarith
    · rw [div_le_one (by linarith)]
      linarith
  have hastar : sst * min (((r:ℚ)/255 + (g:ℚ)/255)/2)
      (1 - ((r:ℚ)/255 + (g:ℚ)/255)/2) = ((r:ℚ)/255 - (g:ℚ)/255)/2 := by
    rw [hsstdef]
    split_ifs with hcase
    · rw [min_eq_right (by linarith)]
      rw [div_mul_eq_mul_div, div_eq_div_iff (by linarith) (by norm_num)]
      ring
    · rw [min_eq_left (by linarith)]
      rw [div_mul_eq_mul_div, div_eq_div_iff (by linarith) (by norm_num)]
      ring
  have hh6a : (-1:ℚ) ≤ ((g:ℚ)/255 - (b:ℚ)/255) / ((r:ℚ)/255 - (g:ℚ)/255) := by
    rw [le_div_iff₀ hd0]
    linarith
  have hh6b : ((g:ℚ)/255 - (b:ℚ)/255) / ((r:ℚ)/255 - (g:ℚ)/255) < 0 :=
    div_neg_of_neg_of_pos (by linarith) hd0
  have hout : rgbToHsl (r:ℚ) (g:ℚ) (b:ℚ) =
      ⟨((jsRound ((((g:ℚ)/255 - (b:ℚ)/255) / ((r:ℚ)/255 - (g:ℚ)/255) + 6) / 6
          * 360) : ℤ) : ℚ),
       ((jsRound (sst * 100) : ℤ) : ℚ),
       ((jsRound ((((r:ℚ)/255 + (g:ℚ)/255))/2 * 100) : ℤ) : ℚ)⟩ := by
    simp only [rgbToHsl]
    rw [if_neg hgrey, if_pos hA, if_pos hgb, hA, hm]
  rw [hout]
  simp only [hslToRgb]
  simp only [gfun_def_eq]
  set H : ℤ := jsRound ((((g:ℚ)/255 - (b:ℚ)/255) / ((r:ℚ)/255 - (g:ℚ)/255) + 6)
    / 6 * 360) with hHdef
  set S : ℤ := jsRound (sst * 100) with hSdef
  set L : ℤ := jsRound ((((r:ℚ)/255 + (g:ℚ)/255))/2 * 100) with hLdef
  have hHerr : |(H:ℚ) - 60 * (((g:ℚ)/255 - (b:ℚ)/255) /
      ((r:ℚ)/255 - (g:ℚ)/255) + 6)| ≤ 1/2 := by
    have h1 := jsRound_err ((((g:ℚ)/255 - (b:ℚ)/255) /
      ((r:ℚ)/255 - (g:ℚ)/255) + 6) / 6 * 360)
    rw [hHdef]
    calc |(jsRound ((((g:ℚ)/255 - (b:ℚ)/255) / ((r:ℚ)/255 - (g:ℚ)/255) + 6)
          / 6 * 360) : ℚ) - 60 * (((g:ℚ)/255 - (b:ℚ)/255) /
          ((r:ℚ)/255 - (g:ℚ)/255) + 6)|
        = |(jsRound ((((g:ℚ)/255 - (b:ℚ)/255) / ((r:ℚ)/255 - (g:ℚ)/255) + 6)
          / 6 * 360) : ℚ) - (((g:ℚ)/255 - (b:ℚ)/255) /
          ((r:ℚ)/255 - (g:ℚ)/255) + 6) / 6 * 360| := by ring_nf
      _ ≤ 1/2 := h1
  have hSerr : |(S:ℚ) - 100 * sst| ≤ 1/2 := by
    have h1 := jsRound_err (sst * 100)
    rw [hSdef]
    calc |(jsRound (sst * 100) : ℚ) - 100 * sst|
        = |(jsRound (sst * 100) : ℚ) - sst * 100| := by ring_nf
      _ ≤ 1/2 := h1
  have hLerr : |(L:ℚ) - 100 * (((r:ℚ)/255 + (g:ℚ)/255)/2)| ≤ 1/2 := by
    have h1 := jsRound_err ((((r:ℚ)/255 + (g:ℚ)/255))/2 * 100)
    rw [hLdef]
    calc |(jsRound ((((r:ℚ)/255 + (g:ℚ)/255))/2 * 100) : ℚ) -
          100 * (((r:ℚ)/255 + (g:ℚ)/255)/2)|
        = |(jsRound ((((r:ℚ)/255 + (g:ℚ)/255))/2 * 100) : ℚ) -
          (((r:ℚ)/255 + (g:ℚ)/255))/2 * 100| := by ring_nf
      _ ≤ 1/2 := h1
  have hL0 : 0 ≤ L := by
    rw [hLdef]
    exact jsRound_nonneg_int (by positivity)
  have hL100 : L ≤ 100 := by
    rw [hLdef]
    exact jsRound_le_int 100 (by push_cast; linarith)
  have hH300 : 300 ≤ H := by
    rw [hHdef]
    exact jsRound_ge_int 300 (by push_cast; nlinarith)
  have hH360 : H ≤ 360 := by
    rw [hHdef]
    exact jsRound_le_int 360 (by push_cast; nlinarith)
  have hu10 : (10:ℚ) ≤ (H:ℚ)/30 := by
    have h1 : (300:ℚ) ≤ (H:ℚ) := by exact_mod_cast hH300
    linarith
  have hu12 : (H:ℚ)/30 ≤ 12 := by
    have h1 : (H:ℚ) ≤ 360 := by exact_mod_cast hH360
    linarith
  have huerr : |(H:ℚ)/30 - 2 * (((g:ℚ)/255 - (b:ℚ)/255) /
      ((r:ℚ)/255 - (g:ℚ)/255) + 6)| ≤ 1/60 := div30_err hHerr
  have haclose := a_close S L sst (((r:ℚ)/255 + (g:ℚ)/255)/2)
    ((r:ℚ)/255 - (g:ℚ)/255) hSerr hLerr hsst0 hsst1 hL0 hL100 hastar
  have hlclose : |(L:ℚ)/100 - ((r:ℚ)/255 + (g:ℚ)/255)/2| ≤ 1/200 :=
    div100_err hLerr
  rw [show (0:ℚ) + (H:ℚ)/30 = (H:ℚ)/30 from by ring,
    jsRem12_wrap (by linarith : (12:ℚ) ≤ 8 + (H:ℚ)/30) (by linarith),
    show (8:ℚ) + (H:ℚ)/30 - 12 = (H:ℚ)/30 - 4 from by ring,
    jsRem12_wrap (by linarith : (12:ℚ) ≤ 4 + (H:ℚ)/30) (by linarith),
    show (4:ℚ) + (H:ℚ)/30 - 12 = (H:ℚ)/30 - 8 from by ring]
  refine ⟨?_, ?_, ?_⟩
  · -- red channel: the tent is flat -1 on both sides of the wrap
    have hg1eq : gfun (jsRem ((H:ℚ)/30) 12) = -1 := by
      by_cases hu : (H:ℚ)/30 < 12
      · rw [jsRem12_id (by linarith) hu]
        exact gfun_flat_high hu10
      · rw [jsRem12_wrap (by linarith) (by linarith)]
        exact gfun_flat_low (by linarith)
    rw [hg1eq]
    refine channel_close r (((r:ℚ)/255 + (g:ℚ)/255)/2) (-1) ((L:ℚ)/100)
      ((S:ℚ)/100 * ((L:ℚ)/100 ⊓ (1 - (L:ℚ)/100))) (-1)
      ((r:ℚ)/255 - (g:ℚ)/255) ?_ hlclose haclose (by norm_num) (by norm_num)
      (by linarith) hd1
    ring
  · -- green channel: the tent is flat 1
    rw [gfun_high_form (by linarith : (6:ℚ) ≤ (H:ℚ)/30 - 4),
      show (9:ℚ) - ((H:ℚ)/30 - 4) = 13 - (H:ℚ)/30 from by ring,
      clampc_eq_one (by linarith)]
    refine channel_close g (((r:ℚ)/255 + (g:ℚ)/255)/2) 1 ((L:ℚ)/100)
      ((S:ℚ)/100 * ((L:ℚ)/100 ⊓ (1 - (L:ℚ)/100))) 1
      ((r:ℚ)/255 - (g:ℚ)/255) ?_ hlclose haclose (by norm_num) (by norm_num)
      (by linarith) hd1
    ring
  · -- blue channel: the tent is the rising ramp
    rw [gfun_low_form (by linarith : (H:ℚ)/30 - 8 ≤ 8),
      show (H:ℚ)/30 - 8 - 3 = (H:ℚ)/30 - 11 from by ring]
    refine channel_close b (((r:ℚ)/255 + (g:ℚ)/255)/2)
      (clampc (2 * (((g:ℚ)/255 - (b:ℚ)/255) / ((r:ℚ)/255 - (g:ℚ)/255) + 6)
        - 11))
      ((L:ℚ)/100)
      ((S:ℚ)/100 * ((L:ℚ)/100 ⊓ (1 - (L:ℚ)/100)))
      (clampc ((H:ℚ)/30 - 11))
      ((r:ℚ)/255 - (g:ℚ)/255) ?_ hlclose haclose (clampc_bound _) ?_
      (by linarith) hd1
    · rw [clampc_eq_id (by linarith) (by linarith)]
      have hne : ((r:ℚ) - (g:ℚ)) ≠ 0 := by
        have h2 : (0:ℚ) < (r:ℚ) - (g:ℚ) := by linarith
        exact ne_of_gt h2
      have hne2 : ((r:ℚ)/255 - (g:ℚ)/255) ≠ 0 := ne_of_gt hd0
      field_simp
      ring
    · calc |clampc ((H:ℚ)/30 - 11) -
            clampc (2 * (((g:ℚ)/255 - (b:ℚ)/255) /
              ((r:ℚ)/255 - (g:ℚ)/255) + 6) - 11)|
          ≤ |((H:ℚ)/30 - 11) - (2 * (((g:ℚ)/255 - (b:ℚ)/255) /
              ((r:ℚ)/255 - (g:ℚ)/255) + 6) - 11)| := clampc_lip _ _
        _ = |(H:ℚ)/30 - 2 * (((g:ℚ)/255 - (b:ℚ)/255) /
              ((r:ℚ)/255 - (g:ℚ)/255) + 6)| := by ring_nf
        _ ≤ 1/60 := huerr

set_option maxHeartbeats 1600000 in
theorem roundtrip_B (r g b : ℤ)
    (hr1 : 0 ≤ r) (hr2 : r ≤ 255) (hg1 : 0 ≤ g) (hg2 : g ≤ 255)
    (hb1 : 0 ≤ b) (hb2 : b ≤ 255)
    (hgrey : ¬ ((r:ℚ)/255) ⊔ (((g:ℚ)/255) ⊔ ((b:ℚ)/255)) =
      ((r:ℚ)/255) ⊓ (((g:ℚ)/255) ⊓ ((b:ℚ)/255)))
    (hA : ¬ ((r:ℚ)/255) ⊔ (((g:ℚ)/255) ⊔ ((b:ℚ)/255)) = (r:ℚ)/255)
    (hB : ((r:ℚ)/255) ⊔ (((g:ℚ)/255) ⊔ ((b:ℚ)/255)) = (g:ℚ)/255) :
    |(hslToRgb (rgbToHsl (r:ℚ) (g:ℚ) (b:ℚ)).h (rgbToHsl (r:ℚ) (g:ℚ) (b:ℚ)).s
        (rgbToHsl (r:ℚ) (g:ℚ) (b:ℚ)).l).r - r| ≤ 5 ∧
    |(hslToRgb (rgbToHsl (r:ℚ) (g:ℚ) (b:ℚ)).h (rgbToHsl (r:ℚ) (g:ℚ) (b:ℚ)).s
        (rgbToHsl (r:ℚ) (g:ℚ) (b:ℚ)).l).g - g| ≤ 5 ∧
    |(hslToRgb (rgbToHsl (r:ℚ) (g:ℚ) (b:ℚ)).h (rgbToHsl (r:ℚ) (g:ℚ) (b:ℚ)).s
        (rgbToHsl (r:ℚ) (g:ℚ) (b:ℚ)).l).b - b| ≤ 5 := by
  have hrq0 : (0:ℚ) ≤ (r:ℚ)/255 := by positivity
  have hgq0 : (0:ℚ) ≤ (g:ℚ)/255 := by positivity
  have hbq0 : (0:ℚ) ≤ (b:ℚ)/255 := by positivity
  have hrc : ((r:ℚ)) ≤ 255 := by exact_mod_cast hr2
  have hgc : ((g:ℚ)) ≤ 255 := by exact_mod_cast hg2
  have hbc : ((b:ℚ)) ≤ 255 := by exact_mod_cast hb2
  have hrq1 : (r:ℚ)/255 ≤ 1 := by linarith
  have hgq1 : (g:ℚ)/255 ≤ 1 := by linarith
  have hbq1 : (b:ℚ)/255 ≤ 1 := by linarith
  have hrg : (r:ℚ)/255 ≤ (g:ℚ)/255 := by
    have h1 : (r:ℚ)/255 ≤ ((r:ℚ)/255) ⊔ (((g:ℚ)/255) ⊔ ((b:ℚ)/255)) :=
      le_sup_left
    rw [hB] at h1
    exact h1
  have hbg : (b:ℚ)/255 ≤ (g:ℚ)/255 := by
    have h1 : (b:ℚ)/255 ≤ ((r:ℚ)/255) ⊔ (((g:ℚ)/255) ⊔ ((b:ℚ)/255)) :=
      le_sup_of_le_right le_sup_right
    rw [hB] at h1
    exact h1
  have hrltg : (r:ℚ)/255 < (g:ℚ)/255 := by
    rcases lt_or_eq_of_le hrg with h | h
    · exact h
    · exact absurd (by rw [hB, ← h]) hA
  have hm : ((r:ℚ)/255) ⊓ (((g:ℚ)/255) ⊓ ((b:ℚ)/255)) =
      ((r:ℚ)/255) ⊓ ((b:ℚ)/255) := by
    rw [inf_eq_right.mpr hbg]
  have hm1 : ((r:ℚ)/255) ⊓ ((b:ℚ)/255) ≤ (r:ℚ)/255 := inf_le_left
  have hm2 : ((r:ℚ)/255) ⊓ ((b:ℚ)/255) ≤ (b:ℚ)/255 := inf_le_right
  have hm0 : (0:ℚ) ≤ ((r:ℚ)/255) ⊓ ((b:ℚ)/255) := le_inf hrq0 hbq0
  have hd0 : (0:ℚ) < (g:ℚ)/255 - ((r:ℚ)/255) ⊓ ((b:ℚ)/255) := by
    have h1 := hm1
    linarith
  have hd1 : (g:ℚ)/255 - ((r:ℚ)/255) ⊓ ((b:ℚ)/255) ≤ 1 := by linarith
  have hl0 : (0:ℚ) < ((g:ℚ)/255 + ((r:ℚ)/255) ⊓ ((b:ℚ)/255))/2 := by linarith
  have hl1 : ((g:ℚ)/255 + ((r:ℚ)/255) ⊓ ((b:ℚ)/255))/2 < 1 := by linarith
  set sst : ℚ := if ((g:ℚ)/255 + ((r:ℚ)/255) ⊓ ((b:ℚ)/255))/2 > 1/2 then
      ((g:ℚ)/255 - ((r:ℚ)/255) ⊓ ((b:ℚ)/255)) /
        (2 - (g:ℚ)/255 - ((r:ℚ)/255) ⊓ ((b:ℚ)/255))
    else ((g:ℚ)/255 - ((r:ℚ)/255) ⊓ ((b:ℚ)/255)) /
        ((g:ℚ)/255 + ((r:ℚ)/255) ⊓ ((b:ℚ)/255)) with hsstdef
  have hsst0 : 0 ≤ sst := by
    rw [hsstdef]
    split_ifs with hcase
    · apply div_nonneg (by linarith) (by linarith)
    · apply div_nonneg (by linarith) (by linarith)
  have hsst1 : sst ≤ 1 := by
    rw [hsstdef]
    split_ifs with hcase
    · rw [div_le_one (by linarith)]
      linarith
    · rw [div_le_one (by linarith)]
      linarith
  have hastar : sst * min (((g:ℚ)/255 + ((r:ℚ)/255) ⊓ ((b:ℚ)/255))/2)
      (1 - ((g:ℚ)/255 + ((r:ℚ)/255) ⊓ ((b:ℚ)/255))/2) =
      ((g:ℚ)/255 - ((r:ℚ)/255) ⊓ ((b:ℚ)/255))/2 := by
    rw [hsstdef]
    split_ifs with hcase
    · rw [show min (((g:ℚ)/255 + ((r:ℚ)/255) ⊓ ((b:ℚ)/255))/2)
          (1 - ((g:ℚ)/255 + ((r:ℚ)/255) ⊓ ((b:ℚ)/255))/2) =
          1 - ((g:ℚ)/255 + ((r:ℚ)/255) ⊓ ((b:ℚ)/255))/2 from
          min_eq_right (by linarith)]
      rw [div_mul_eq_mul_div, div_eq_div_iff (by linarith) (by norm_num)]
      ring
    · rw [show min (((g:ℚ)/255 + ((r:ℚ)/255) ⊓ ((b:ℚ)/255))/2)
          (1 - ((g:ℚ)/255 + ((r:ℚ)/255) ⊓ ((b:ℚ)/255))/2) =
          ((g:ℚ)/255 + ((r:ℚ)/255) ⊓ ((b:ℚ)/255))/2 from
          min_eq_left (by linarith)]
      rw [div_mul_eq_mul_div, div_eq_div_iff (by linarith) (by norm_num)]
      ring
  have hh6a : (-1:ℚ) ≤ ((b:ℚ)/255 - (r:ℚ)/255) /
      ((g:ℚ)/255 - ((r:ℚ)/255) ⊓ ((b:ℚ)/255)) := by
    rw [le_div_iff₀ hd0]
    linarith
  have hh6b : ((b:ℚ)/255 - (r:ℚ)/255) /
      ((g:ℚ)/255 - ((r:ℚ)/255) ⊓ ((b:ℚ)/255)) ≤ 1 := by
    rw [div_le_one hd0]
    linarith
  have hout : rgbToHsl (r:ℚ) (g:ℚ) (b:ℚ) =
      ⟨((jsRound ((((b:ℚ)/255 - (r:ℚ)/255) /
          ((g:ℚ)/255 - ((r:ℚ)/255) ⊓ ((b:ℚ)/255)) + 2) / 6 * 360) : ℤ) : ℚ),
       ((jsRound (sst * 100) : ℤ) : ℚ),
       ((jsRound ((((g:ℚ)/255 + ((r:ℚ)/255) ⊓ ((b:ℚ)/255)))/2 * 100) : ℤ) :
         ℚ)⟩ := by
    simp only [rgbToHsl]
    rw [if_neg hgrey, if_neg hA, if_pos hB, hB, hm]
  rw [hout]
  simp only [hslToRgb]
  simp only [gfun_def_eq]
  set H : ℤ := jsRound ((((b:ℚ)/255 - (r:ℚ)/255) /
    ((g:ℚ)/255 - ((r:ℚ)/255) ⊓ ((b:ℚ)/255)) + 2) / 6 * 360) with hHdef
  set S : ℤ := jsRound (sst * 100) with hSdef
  set L : ℤ := jsRound ((((g:ℚ)/255 + ((r:ℚ)/255) ⊓ ((b:ℚ)/255)))/2 * 100)
    with hLdef
  have hHerr : |(H:ℚ) - 60 * (((b:ℚ)/255 - (r:ℚ)/255) /
      ((g:ℚ)/255 - ((r:ℚ)/255) ⊓ ((b:ℚ)/255)) + 2)| ≤ 1/2 := by
    have h1 := jsRound_err ((((b:ℚ)/255 - (r:ℚ)/255) /
      ((g:ℚ)/255 - ((r:ℚ)/255) ⊓ ((b:ℚ)/255)) + 2) / 6 * 360)
    rw [hHdef]
    calc |(jsRound ((((b:ℚ)/255 - (r:ℚ)/255) /
          ((g:ℚ)/255 - ((r:ℚ)/255) ⊓ ((b:ℚ)/255)) + 2) / 6 * 360) : ℚ) -
          60 * (((b:ℚ)/255 - (r:ℚ)/255) /
          ((g:ℚ)/255 - ((r:ℚ)/255) ⊓ ((b:ℚ)/255)) + 2)|
        = |(jsRound ((((b:ℚ)/255 - (r:ℚ)/255) /
          ((g:ℚ)/255 - ((r:ℚ)/255) ⊓ ((b:ℚ)/255)) + 2) / 6 * 360) : ℚ) -
          (((b:ℚ)/255 - (r:ℚ)/255) /
          ((g:ℚ)/255 - ((r:ℚ)/255) ⊓ ((b:ℚ)/255)) + 2) / 6 * 360| := by
          ring_nf
      _ ≤ 1/2 := h1
  have hSerr : |(S:ℚ) - 100 * sst| ≤ 1/2 := by
    have h1 := jsRound_err (sst * 100)
    rw [hSdef]
    calc |(jsRound (sst * 100) : ℚ) - 100 * sst|
        = |(jsRound (sst * 100) : ℚ) - sst * 100| := by ring_nf
      _ ≤ 1/2 := h1
  have hLerr : |(L:ℚ) - 100 *
      (((g:ℚ)/255 + ((r:ℚ)/255) ⊓ ((b:ℚ)/255))/2)| ≤ 1/2 := by
    have h1 := jsRound_err ((((g:ℚ)/255 + ((r:ℚ)/255) ⊓ ((b:ℚ)/255)))/2 * 100)
    rw [hLdef]
    calc |(jsRound ((((g:ℚ)/255 + ((r:ℚ)/255) ⊓ ((b:ℚ)/255)))/2 * 100) : ℚ) -
          100 * (((g:ℚ)/255 + ((r:ℚ)/255) ⊓ ((b:ℚ)/255))/2)|
        = |(jsRound ((((g:ℚ)/255 + ((r:ℚ)/255) ⊓ ((b:ℚ)/255)))/2 * 100) : ℚ) -
          (((g:ℚ)/255 + ((r:ℚ)/255) ⊓ ((b:ℚ)/255)))/2 * 100| := by ring_nf
      _ ≤ 1/2 := h1
  have hL0 : 0 ≤ L := by
    rw [hLdef]
    exact jsRound_nonneg_int (by linarith)
  have hL100 : L ≤ 100 := by
    rw [hLdef]
    exact jsRound_le_int 100 (by push_cast; linarith)
  have hH60 : 60 ≤ H := by
    rw [hHdef]
    exact jsRound_ge_int 60 (by push_cast; linarith)
  have hH180 : H ≤ 180 := by
    rw [hHdef]
    exact jsRound_le_int 180 (by push_cast; linarith)
  have hu2 : (2:ℚ) ≤ (H:ℚ)/30 := by
    have h1 : (60:ℚ) ≤ (H:ℚ) := by exact_mod_cast hH60
    linarith
  have hu6 : (H:ℚ)/30 ≤ 6 := by
    have h1 : (H:ℚ) ≤ 180 := by exact_mod_cast hH180
    linarith
  have huerr : |(H:ℚ)/30 - 2 * (((b:ℚ)/255 - (r:ℚ)/255) /
      ((g:ℚ)/255 - ((r:ℚ)/255) ⊓ ((b:ℚ)/255)) + 2)| ≤ 1/60 := div30_err hHerr
  have haclose := a_close S L sst
    (((g:ℚ)/255 + ((r:ℚ)/255) ⊓ ((b:ℚ)/255))/2)
    ((g:ℚ)/255 - ((r:ℚ)/255) ⊓ ((b:ℚ)/255))
    hSerr hLerr hsst0 hsst1 hL0 hL100 hastar
  have hlclose : |(L:ℚ)/100 - ((g:ℚ)/255 + ((r:ℚ)/255) ⊓ ((b:ℚ)/255))/2| ≤
      1/200 := div100_err hLerr
  rw [show (0:ℚ) + (H:ℚ)/30 = (H:ℚ)/30 from by ring,
    jsRem12_id (by linarith : (0:ℚ) ≤ (H:ℚ)/30) (by linarith),
    jsRem12_id (by linarith : (0:ℚ) ≤ 4 + (H:ℚ)/30) (by linarith)]
  refine ⟨?_, ?_, ?_⟩
  · -- red channel: the tent is the rising ramp
    rw [gfun_low_form (by linarith : (H:ℚ)/30 ≤ 8)]
    refine channel_close r (((g:ℚ)/255 + ((r:ℚ)/255) ⊓ ((b:ℚ)/255))/2)
      (clampc (2 * (((b:ℚ)/255 - (r:ℚ)/255) /
        ((g:ℚ)/255 - ((r:ℚ)/255) ⊓ ((b:ℚ)/255)) + 2) - 3))
      ((L:ℚ)/100)
      ((S:ℚ)/100 * ((L:ℚ)/100 ⊓ (1 - (L:ℚ)/100)))
      (clampc ((H:ℚ)/30 - 3))
      ((g:ℚ)/255 - ((r:ℚ)/255) ⊓ ((b:ℚ)/255)) ?_ hlclose haclose
      (clampc_bound _) ?_ (by linarith) hd1
    · rcases le_total ((b:ℚ)/255) ((r:ℚ)/255) with hc | hc
      · rw [show ((r:ℚ)/255) ⊓ ((b:ℚ)/255) = (b:ℚ)/255 from
          inf_eq_right.mpr hc]
        have hdd : (0:ℚ) < (g:ℚ)/255 - (b:ℚ)/255 := by linarith
        have h1 : -1 ≤ ((b:ℚ)/255 - (r:ℚ)/255) /
            ((g:ℚ)/255 - (b:ℚ)/255) := by
          rw [le_div_iff₀ hdd]
          linarith
        have h2 : ((b:ℚ)/255 - (r:ℚ)/255) / ((g:ℚ)/255 - (b:ℚ)/255) ≤ 0 :=
          div_nonpos_of_nonpos_of_nonneg (by linarith) (by linarith)
        rw [clampc_eq_id (by linarith) (by linarith)]
        have hne : ((g:ℚ) - (b:ℚ)) ≠ 0 := by
          have h3 : (0:ℚ) < (g:ℚ) - (b:ℚ) := by linarith
          exact ne_of_gt h3
        have hne2 : ((g:ℚ)/255 - (b:ℚ)/255) ≠ 0 := ne_of_gt hdd
        field_simp
        ring
      · rw [show ((r:ℚ)/255) ⊓ ((b:ℚ)/255) = (r:ℚ)/255 from
          inf_eq_left.mpr hc]
        have hdd : (0:ℚ) < (g:ℚ)/255 - (r:ℚ)/255 := by linarith
        have h2 : 0 ≤ ((b:ℚ)/255 - (r:ℚ)/255) / ((g:ℚ)/255 - (r:ℚ)/255) :=
          div_nonneg (by linarith) (by linarith)
        rw [clampc_eq_one (by linarith)]
        ring
    · calc |clampc ((H:ℚ)/30 - 3) -
            clampc (2 * (((b:ℚ)/255 - (r:ℚ)/255) /
              ((g:ℚ)/255 - ((r:ℚ)/255) ⊓ ((b:ℚ)/255)) + 2) - 3)|
          ≤ |((H:ℚ)/30 - 3) - (2 * (((b:ℚ)/255 - (r:ℚ)/255) /
              ((g:ℚ)/255 - ((r:ℚ)/255) ⊓ ((b:ℚ)/255)) + 2) - 3)| :=
            clampc_lip _ _
        _ = |(H:ℚ)/30 - 2 * (((b:ℚ)/255 - (r:ℚ)/255) /
              ((g:ℚ)/255 - ((r:ℚ)/255) ⊓ ((b:ℚ)/255)) + 2)| := by ring_nf
        _ ≤ 1/60 := huerr
  · -- green channel: the tent is flat -1 on both sides of the wrap
    have hg2eq : gfun (jsRem (8 + (H:ℚ)/30) 12) = -1 := by
      by_cases hu : 8 + (H:ℚ)/30 < 12
      · rw [jsRem12_id (by linarith) hu]
        exact gfun_flat_high (by linarith)
      · rw [jsRem12_wrap (by linarith) (by linarith)]
        exact gfun_flat_low (by linarith)
    rw [hg2eq]
    refine channel_close g (((g:ℚ)/255 + ((r:ℚ)/255) ⊓ ((b:ℚ)/255))/2) (-1)
      ((L:ℚ)/100)
      ((S:ℚ)/100 * ((L:ℚ)/100 ⊓ (1 - (L:ℚ)/100)))
      (-1)
      ((g:ℚ)/255 - ((r:ℚ)/255) ⊓ ((b:ℚ)/255)) ?_ hlclose haclose
      (by norm_num) (by norm_num) (by linarith) hd1
    ring
  · -- blue channel: the tent is the falling ramp
    rw [gfun_high_form (by linarith : (6:ℚ) ≤ 4 + (H:ℚ)/30),
      show (9:ℚ) - (4 + (H:ℚ)/30) = 5 - (H:ℚ)/30 from by ring]
    refine channel_close b (((g:ℚ)/255 + ((r:ℚ)/255) ⊓ ((b:ℚ)/255))/2)
      (clampc (5 - 2 * (((b:ℚ)/255 - (r:ℚ)/255) /
        ((g:ℚ)/255 - ((r:ℚ)/255) ⊓ ((b:ℚ)/255)) + 2)))
      ((L:ℚ)/100)
      ((S:ℚ)/100 * ((L:ℚ)/100 ⊓ (1 - (L:ℚ)/100)))
      (clampc (5 - (H:ℚ)/30))
      ((g:ℚ)/255 - ((r:ℚ)/255) ⊓ ((b:ℚ)/255)) ?_ hlclose haclose
      (clampc_bound _) ?_ (by linarith) hd1
    · rcases le_total ((r:ℚ)/255) ((b:ℚ)/255) with hc | hc
      · rw [show ((r:ℚ)/255) ⊓ ((b:ℚ)/255) = (r:ℚ)/255 from
          inf_eq_left.mpr hc]
        have hdd : (0:ℚ) < (g:ℚ)/255 - (r:ℚ)/255 := by linarith
        have h1 : ((b:ℚ)/255 - (r:ℚ)/255) / ((g:ℚ)/255 - (r:ℚ)/255) ≤ 1 := by
          rw [div_le_one hdd]
          linarith
        have h2 : 0 ≤ ((b:ℚ)/255 - (r:ℚ)/255) / ((g:ℚ)/255 - (r:ℚ)/255) :=
          div_nonneg (by linarith) (by linarith)
        rw [clampc_eq_id (by linarith) (by linarith)]
        have hne : ((g:ℚ) - (r:ℚ)) ≠ 0 := by
          have h3 : (0:ℚ) < (g:ℚ) - (r:ℚ) := by linarith
          exact ne_of_gt h3
        have hne2 : ((g:ℚ)/255 - (r:ℚ)/255) ≠ 0 := ne_of_gt hdd
        field_simp
        ring
      · rw [show ((r:ℚ)/255) ⊓ ((b:ℚ)/255) = (b:ℚ)/255 from
          inf_eq_right.mpr hc]
        have hdd : (0:ℚ) < (g:ℚ)/255 - (b:ℚ)/255 := by linarith
        have h2 : ((b:ℚ)/255 - (r:ℚ)/255) / ((g:ℚ)/255 - (b:ℚ)/255) ≤ 0 :=
          div_nonpos_of_nonpos_of_nonneg (by linarith) (by linarith)
        rw [clampc_eq_one (by linarith)]
        ring
    · calc |clampc (5 - (H:ℚ)/30) -
            clampc (5 - 2 * (((b:ℚ)/255 - (r:ℚ)/255) /
              ((g:ℚ)/255 - ((r:ℚ)/255) ⊓ ((b:ℚ)/255)) + 2))|
          ≤ |(5 - (H:ℚ)/30) - (5 - 2 * (((b:ℚ)/255 - (r:ℚ)/255) /
              ((g:ℚ)/255 - ((r:ℚ)/255) ⊓ ((b:ℚ)/255)) + 2))| :=
            clampc_lip _ _
        _ = |(H:ℚ)/30 - 2 * (((b:ℚ)/255 - (r:ℚ)/255) /
              ((g:ℚ)/255 - ((r:ℚ)/255) ⊓ ((b:ℚ)/255)) + 2)| := by
            rw [show (5 - (H:ℚ)/30) - (5 - 2 * (((b:ℚ)/255 - (r:ℚ)/255) /
              ((g:ℚ)/255 - ((r:ℚ)/255) ⊓ ((b:ℚ)/255)) + 2)) =
              -((H:ℚ)/30 - 2 * (((b:ℚ)/255 - (r:ℚ)/255) /
              ((g:ℚ)/255 - ((r:ℚ)/255) ⊓ ((b:ℚ)/255)) + 2)) from by ring,
              abs_neg]
        _ ≤ 1/60 := huerr

set_option maxHeartbeats 1600000 in
theorem roundtrip_C (r g b : ℤ)
    (hr1 : 0 ≤ r) (hr2 : r ≤ 255) (hg1 : 0 ≤ g) (hg2 : g ≤ 255)
    (hb1 : 0 ≤ b) (hb2 : b ≤ 255)
    (hgrey : ¬ ((r:ℚ)/255) ⊔ (((g:ℚ)/255) ⊔ ((b:ℚ)/255)) =
      ((r:ℚ)/255) ⊓ (((g:ℚ)/255) ⊓ ((b:ℚ)/255)))
    (hA : ¬ ((r:ℚ)/255) ⊔ (((g:ℚ)/255) ⊔ ((b:ℚ)/255)) = (r:ℚ)/255)
    (hB : ¬ ((r:ℚ)/255) ⊔ (((g:ℚ)/255) ⊔ ((b:ℚ)/255)) = (g:ℚ)/255) :
    |(hslToRgb (rgbToHsl (r:ℚ) (g:ℚ) (b:ℚ)).h (rgbToHsl (r:ℚ) (g:ℚ) (b:ℚ)).s
        (rgbToHsl (r:ℚ) (g:ℚ) (b:ℚ)).l).r - r| ≤ 5 ∧
    |(hslToRgb (rgbToHsl (r:ℚ) (g:ℚ) (b:ℚ)).h (rgbToHsl (r:ℚ) (g:ℚ) (b:ℚ)).s
        (rgbToHsl (r:ℚ) (g:ℚ) (b:ℚ)).l).g - g| ≤ 5 ∧
    |(hslToRgb (rgbToHsl (r:ℚ) (g:ℚ) (b:ℚ)).h (rgbToHsl (r:ℚ) (g:ℚ) (b:ℚ)).s
        (rgbToHsl (r:ℚ) (g:ℚ) (b:ℚ)).l).b - b| ≤ 5 := by
  have hrq0 : (0:ℚ) ≤ (r:ℚ)/255 := by positivity
  have hgq0 : (0:ℚ) ≤ (g:ℚ)/255 := by positivity
  have hbq0 : (0:ℚ) ≤ (b:ℚ)/255 := by positivity
  have hrc : ((r:ℚ)) ≤ 255 := by exact_mod_cast hr2
  have hgc : ((g:ℚ)) ≤ 255 := by exact_mod_cast hg2
  have hbc : ((b:ℚ)) ≤ 255 := by exact_mod_cast hb2
  have hrq1 : (r:ℚ)/255 ≤ 1 := by linarith
  have hgq1 : (g:ℚ)/255 ≤ 1 := by linarith
  have hbq1 : (b:ℚ)/255 ≤ 1 := by linarith
  have hMb : ((r:ℚ)/255) ⊔ (((g:ℚ)/255) ⊔ ((b:ℚ)/255)) = (b:ℚ)/255 := by
    rcases le_total ((g:ℚ)/255) ((b:ℚ)/255) with hgb2 | hgb2
    · have hin : ((g:ℚ)/255) ⊔ ((b:ℚ)/255) = (b:ℚ)/255 :=
        sup_eq_right.mpr hgb2
      rw [hin]
      rcases le_total ((r:ℚ)/255) ((b:ℚ)/255) with hrb2 | hrb2
      · exact sup_eq_right.mpr hrb2
      · exfalso
        apply hA
        rw [hin]
        exact sup_eq_left.mpr hrb2
    · have hin : ((g:ℚ)/255) ⊔ ((b:ℚ)/255) = (g:ℚ)/255 :=
        sup_eq_left.mpr hgb2
      rcases le_total ((r:ℚ)/255) ((g:ℚ)/255) with hrg2 | hrg2
      · exfalso
        apply hB
        rw [hin]
        exact sup_eq_right.mpr hrg2
      · exfalso
        apply hA
        rw [hin]
        exact sup_eq_left.mpr hrg2
  have hgb3 : (g:ℚ)/255 ≤ (b:ℚ)/255 := by
    have h1 : (g:ℚ)/255 ≤ ((r:ℚ)/255) ⊔ (((g:ℚ)/255) ⊔ ((b:ℚ)/255)) :=
      le_sup_of_le_right le_sup_left
    rw [hMb] at h1
    exact h1
  have hrb : (r:ℚ)/255 ≤ (b:ℚ)/255 := by
    have h1 : (r:ℚ)/255 ≤ ((r:ℚ)/255) ⊔ (((g:ℚ)/255) ⊔ ((b:ℚ)/255)) :=
      le_sup_left
    rw [hMb] at h1
    exact h1
  have hrltb : (r:ℚ)/255 < (b:ℚ)/255 := by
    rcases lt_or_eq_of_le hrb with h | h
    · exact h
    · exact absurd (by rw [hMb, ← h]) hA
  have hgltb : (g:ℚ)/255 < (b:ℚ)/255 := by
    rcases lt_or_eq_of_le hgb3 with h | h
    · exact h
    · exact absurd (by rw [hMb, ← h]) hB
  have hm : ((r:ℚ)/255) ⊓ (((g:ℚ)/255) ⊓ ((b:ℚ)/255)) =
      ((r:ℚ)/255) ⊓ ((g:ℚ)/255) := by
    rw [inf_eq_left.mpr hgb3]
  have hm1 : ((r:ℚ)/255) ⊓ ((g:ℚ)/255) ≤ (r:ℚ)/255 := inf_le_left
  have hm2 : ((r:ℚ)/255) ⊓ ((g:ℚ)/255) ≤ (g:ℚ)/255 := inf_le_right
  have hm0 : (0:ℚ) ≤ ((r:ℚ)/255) ⊓ ((g:ℚ)/255) := le_inf hrq0 hgq0
  have hd0 : (0:ℚ) < (b:ℚ)/255 - ((r:ℚ)/255) ⊓ ((g:ℚ)/255) := by
    have h1 := hm1
    linarith
  have hd1 : (b:ℚ)/255 - ((r:ℚ)/255) ⊓ ((g:ℚ)/255) ≤ 1 := by linarith
  have hl0 : (0:ℚ) < ((b:ℚ)/255 + ((r:ℚ)/255) ⊓ ((g:ℚ)/255))/2 := by linarith
  have hl1 : ((b:ℚ)/255 + ((r:ℚ)/255) ⊓ ((g:ℚ)/255))/2 < 1 := by linarith
  set sst : ℚ := if ((b:ℚ)/255 + ((r:ℚ)/255) ⊓ ((g:ℚ)/255))/2 > 1/2 then
      ((b:ℚ)/255 - ((r:ℚ)/255) ⊓ ((g:ℚ)/255)) /
        (2 - (b:ℚ)/255 - ((r:ℚ)/255) ⊓ ((g:ℚ)/255))
    else ((b:ℚ)/255 - ((r:ℚ)/255) ⊓ ((g:ℚ)/255)) /
        ((b:ℚ)/255 + ((r:ℚ)/255) ⊓ ((g:ℚ)/255)) with hsstdef
  have hsst0 : 0 ≤ sst := by
    rw [hsstdef]
    split_ifs with hcase
    · apply div_nonneg (by linarith) (by linarith)
    · apply div_nonneg (by linarith) (by linarith)
  have hsst1 : sst ≤ 1 := by
    rw [hsstdef]
    split_ifs with hcase
    · rw [div_le_one (by linarith)]
      linarith
    · rw [div_le_one (by linarith)]
      linarith
  have hastar : sst * min (((b:ℚ)/255 + ((r:ℚ)/255) ⊓ ((g:ℚ)/255))/2)
      (1 - ((b:ℚ)/255 + ((r:ℚ)/255) ⊓ ((g:ℚ)/255))/2) =
      ((b:ℚ)/255 - ((r:ℚ)/255) ⊓ ((g:ℚ)/255))/2 := by
    rw [hsstdef]
    split_ifs with hcase
    · rw [show min (((b:ℚ)/255 + ((r:ℚ)/255) ⊓ ((g:ℚ)/255))/2)
          (1 - ((b:ℚ)/255 + ((r:ℚ)/255) ⊓ ((g:ℚ)/255))/2) =
          1 - ((b:ℚ)/255 + ((r:ℚ)/255) ⊓ ((g:ℚ)/255))/2 from
          min_eq_right (by linarith)]
      rw [div_mul_eq_mul_div, div_eq_div_iff (by linarith) (by norm_num)]
      ring
    · rw [show min (((b:ℚ)/255 + ((r:ℚ)/255) ⊓ ((g:ℚ)/255))/2)
          (1 - ((b:ℚ)/255 + ((r:ℚ)/255) ⊓ ((g:ℚ)/255))/2) =
          ((b:ℚ)/255 + ((r:ℚ)/255) ⊓ ((g:ℚ)/255))/2 from
          min_eq_left (by linarith)]
      rw [div_mul_eq_mul_div, div_eq_div_iff (by linarith) (by norm_num)]
      ring
  have hh6a : (-1:ℚ) ≤ ((r:ℚ)/255 - (g:ℚ)/255) /
      ((b:ℚ)/255 - ((r:ℚ)/255) ⊓ ((g:ℚ)/255)) := by
    rw [le_div_iff₀ hd0]
    linarith
  have hh6b : ((r:ℚ)/255 - (g:ℚ)/255) /
      ((b:ℚ)/255 - ((r:ℚ)/255) ⊓ ((g:ℚ)/255)) ≤ 1 := by
    rw [div_le_one hd0]
    linarith
  have hout : rgbToHsl (r:ℚ) (g:ℚ) (b:ℚ) =
      ⟨((jsRound ((((r:ℚ)/255 - (g:ℚ)/255) /
          ((b:ℚ)/255 - ((r:ℚ)/255) ⊓ ((g:ℚ)/255)) + 4) / 6 * 360) : ℤ) : ℚ),
       ((jsRound (sst * 100) : ℤ) : ℚ),
       ((jsRound ((((b:ℚ)/255 + ((r:ℚ)/255) ⊓ ((g:ℚ)/255)))/2 * 100) : ℤ) :
         ℚ)⟩ := by
    simp only [rgbToHsl]
    rw [if_neg hgrey, if_neg hA, if_neg hB, hMb, hm]
  rw [hout]
  simp only [hslToRgb]
  simp only [gfun_def_eq]
  set H : ℤ := jsRound ((((r:ℚ)/255 - (g:ℚ)/255) /
    ((b:ℚ)/255 - ((r:ℚ)/255) ⊓ ((g:ℚ)/255)) + 4) / 6 * 360) with hHdef
  set S : ℤ := jsRound (sst * 100) with hSdef
  set L : ℤ := jsRound ((((b:ℚ)/255 + ((r:ℚ)/255) ⊓ ((g:ℚ)/255)))/2 * 100)
    with hLdef
  have hHerr : |(H:ℚ) - 60 * (((r:ℚ)/255 - (g:ℚ)/255) /
      ((b:ℚ)/255 - ((r:ℚ)/255) ⊓ ((g:ℚ)/255)) + 4)| ≤ 1/2 := by
    have h1 := jsRound_err ((((r:ℚ)/255 - (g:ℚ)/255) /
      ((b:ℚ)/255 - ((r:ℚ)/255) ⊓ ((g:ℚ)/255)) + 4) / 6 * 360)
    rw [hHdef]
    calc |(jsRound ((((r:ℚ)/255 - (g:ℚ)/255) /
          ((b:ℚ)/255 - ((r:ℚ)/255) ⊓ ((g:ℚ)/255)) + 4) / 6 * 360) : ℚ) -
          60 * (((r:ℚ)/255 - (g:ℚ)/255) /
          ((b:ℚ)/255 - ((r:ℚ)/255) ⊓ ((g:ℚ)/255)) + 4)|
        = |(jsRound ((((r:ℚ)/255 - (g:ℚ)/255) /
          ((b:ℚ)/255 - ((r:ℚ)/255) ⊓ ((g:ℚ)/255)) + 4) / 6 * 360) : ℚ) -
          (((r:ℚ)/255 - (g:ℚ)/255) /
          ((b:ℚ)/255 - ((r:ℚ)/255) ⊓ ((g:ℚ)/255)) + 4) / 6 * 360| := by
          ring_nf
      _ ≤ 1/2 := h1
  have hSerr : |(S:ℚ) - 100 * sst| ≤ 1/2 := by
    have h1 := jsRound_err (sst * 100)
    rw [hSdef]
    calc |(jsRound (sst * 100) : ℚ) - 100 * sst|
        = |(jsRound (sst * 100) : ℚ) - sst * 100| := by ring_nf
      _ ≤ 1/2 := h1
  have hLerr : |(L:ℚ) - 100 *
      (((b:ℚ)/255 + ((r:ℚ)/255) ⊓ ((g:ℚ)/255))/2)| ≤ 1/2 := by
    have h1 := jsRound_err ((((b:ℚ)/255 + ((r:ℚ)/255) ⊓ ((g:ℚ)/255)))/2 * 100)
    rw [hLdef]
    calc |(jsRound ((((b:ℚ)/255 + ((r:ℚ)/255) ⊓ ((g:ℚ)/255)))/2 * 100) : ℚ) -
          100 * (((b:ℚ)/255 + ((r:ℚ)/255) ⊓ ((g:ℚ)/255))/2)|
        = |(jsRound ((((b:ℚ)/255 + ((r:ℚ)/255) ⊓ ((g:ℚ)/255)))/2 * 100) : ℚ) -
          (((b:ℚ)/255 + ((r:ℚ)/255) ⊓ ((g:ℚ)/255)))/2 * 100| := by ring_nf
      _ ≤ 1/2 := h1
  have hL0 : 0 ≤ L := by
    rw [hLdef]
    exact jsRound_nonneg_int (by linarith)
  have hL100 : L ≤ 100 := by
    rw [hLdef]
    exact jsRound_le_int 100 (by push_cast; linarith)
  have hH180 : 180 ≤ H := by
    rw [hHdef]
    exact jsRound_ge_int 180 (by push_cast; linarith)
  have hH300 : H ≤ 300 := by
    rw [hHdef]
    exact jsRound_le_int 300 (by push_cast; linarith)
  have hu6 : (6:ℚ) ≤ (H:ℚ)/30 := by
    have h1 : (180:ℚ) ≤ (H:ℚ) := by exact_mod_cast hH180
    linarith
  have hu10 : (H:ℚ)/30 ≤ 10 := by
    have h1 : (H:ℚ) ≤ 300 := by exact_mod_cast hH300
    linarith
  have huerr : |(H:ℚ)/30 - 2 * (((r:ℚ)/255 - (g:ℚ)/255) /
      ((b:ℚ)/255 - ((r:ℚ)/255) ⊓ ((g:ℚ)/255)) + 4)| ≤ 1/60 := div30_err hHerr
  have haclose := a_close S L sst
    (((b:ℚ)/255 + ((r:ℚ)/255) ⊓ ((g:ℚ)/255))/2)
    ((b:ℚ)/255 - ((r:ℚ)/255) ⊓ ((g:ℚ)/255))
    hSerr hLerr hsst0 hsst1 hL0 hL100 hastar
  have hlclose : |(L:ℚ)/100 - ((b:ℚ)/255 + ((r:ℚ)/255) ⊓ ((g:ℚ)/255))/2| ≤
      1/200 := div100_err hLerr
  rw [show (0:ℚ) + (H:ℚ)/30 = (H:ℚ)/30 from by ring,
    jsRem12_id (by linarith : (0:ℚ) ≤ (H:ℚ)/30) (by linarith),
    jsRem12_wrap (by linarith : (12:ℚ) ≤ 8 + (H:ℚ)/30) (by linarith),
    show (8:ℚ) + (H:ℚ)/30 - 12 = (H:ℚ)/30 - 4 from by ring]
  refine ⟨?_, ?_, ?_⟩
  · -- red channel: the tent is the falling ramp
    rw [gfun_high_form (by linarith : (6:ℚ) ≤ (H:ℚ)/30)]
    refine channel_close r (((b:ℚ)/255 + ((r:ℚ)/255) ⊓ ((g:ℚ)/255))/2)
      (clampc (9 - 2 * (((r:ℚ)/255 - (g:ℚ)/255) /
        ((b:ℚ)/255 - ((r:ℚ)/255) ⊓ ((g:ℚ)/255)) + 4)))
      ((L:ℚ)/100)
      ((S:ℚ)/100 * ((L:ℚ)/100 ⊓ (1 - (L:ℚ)/100)))
      (clampc (9 - (H:ℚ)/30))
      ((b:ℚ)/255 - ((r:ℚ)/255) ⊓ ((g:ℚ)/255)) ?_ hlclose haclose
      (clampc_bound _) ?_ (by linarith) hd1
    · rcases le_total ((g:ℚ)/255) ((r:ℚ)/255) with hc | hc
      · rw [show ((r:ℚ)/255) ⊓ ((g:ℚ)/255) = (g:ℚ)/255 from
          inf_eq_right.mpr hc]
        have hdd : (0:ℚ) < (b:ℚ)/255 - (g:ℚ)/255 := by linarith
        have h1 : ((r:ℚ)/255 - (g:ℚ)/255) / ((b:ℚ)/255 - (g:ℚ)/255) ≤ 1 := by
          rw [div_le_one hdd]
          linarith
        have h2 : 0 ≤ ((r:ℚ)/255 - (g:ℚ)/255) / ((b:ℚ)/255 - (g:ℚ)/255) :=
          div_nonneg (by linarith) (by linarith)
        rw [clampc_eq_id (by linarith) (by linarith)]
        have hne : ((b:ℚ) - (g:ℚ)) ≠ 0 := by
          have h3 : (0:ℚ) < (b:ℚ) - (g:ℚ) := by linarith
          exact ne_of_gt h3
        have hne2 : ((b:ℚ)/255 - (g:ℚ)/255) ≠ 0 := ne_of_gt hdd
        field_simp
        ring
      · rw [show ((r:ℚ)/255) ⊓ ((g:ℚ)/255) = (r:ℚ)/255 from
          inf_eq_left.mpr hc]
        have hdd : (0:ℚ) < (b:ℚ)/255 - (r:ℚ)/255 := by linarith
        have h2 : ((r:ℚ)/255 - (g:ℚ)/255) / ((b:ℚ)/255 - (r:ℚ)/255) ≤ 0 :=
          div_nonpos_of_nonpos_of_nonneg (by linarith) (by linarith)
        rw [clampc_eq_one (by linarith)]
        ring
    · calc |clampc (9 - (H:ℚ)/30) -
            clampc (9 - 2 * (((r:ℚ)/255 - (g:ℚ)/255) /
              ((b:ℚ)/255 - ((r:ℚ)/255) ⊓ ((g:ℚ)/255)) + 4))|
          ≤ |(9 - (H:ℚ)/30) - (9 - 2 * (((r:ℚ)/255 - (g:ℚ)/255) /
              ((b:ℚ)/255 - ((r:ℚ)/255) ⊓ ((g:ℚ)/255)) + 4))| :=
            clampc_lip _ _
        _ = |(H:ℚ)/30 - 2 * (((r:ℚ)/255 - (g:ℚ)/255) /
              ((b:ℚ)/255 - ((r:ℚ)/255) ⊓ ((g:ℚ)/255)) + 4)| := by
            rw [show (9 - (H:ℚ)/30) - (9 - 2 * (((r:ℚ)/255 - (g:ℚ)/255) /
              ((b:ℚ)/255 - ((r:ℚ)/255) ⊓ ((g:ℚ)/255)) + 4)) =
              -((H:ℚ)/30 - 2 * (((r:ℚ)/255 - (g:ℚ)/255) /
              ((b:ℚ)/255 - ((r:ℚ)/255) ⊓ ((g:ℚ)/255)) + 4)) from by ring,
              abs_neg]
        _ ≤ 1/60 := huerr
  · -- green channel: the tent is the rising ramp after the wrap
    rw [gfun_low_form (by linarith : (H:ℚ)/30 - 4 ≤ 8),
      show (H:ℚ)/30 - 4 - 3 = (H:ℚ)/30 - 7 from by ring]
    refine channel_close g (((b:ℚ)/255 + ((r:ℚ)/255) ⊓ ((g:ℚ)/255))/2)
      (clampc (2 * (((r:ℚ)/255 - (g:ℚ)/255) /
        ((b:ℚ)/255 - ((r:ℚ)/255) ⊓ ((g:ℚ)/255)) + 4) - 7))
      ((L:ℚ)/100)
      ((S:ℚ)/100 * ((L:ℚ)/100 ⊓ (1 - (L:ℚ)/100)))
      (clampc ((H:ℚ)/30 - 7))
      ((b:ℚ)/255 - ((r:ℚ)/255) ⊓ ((g:ℚ)/255)) ?_ hlclose haclose
      (clampc_bound _) ?_ (by linarith) hd1
    · rcases le_total ((r:ℚ)/255) ((g:ℚ)/255) with hc | hc
      · rw [show ((r:ℚ)/255) ⊓ ((g:ℚ)/255) = (r:ℚ)/255 from
          inf_eq_left.mpr hc]
        have hdd : (0:ℚ) < (b:ℚ)/255 - (r:ℚ)/255 := by linarith
        have h1 : -1 ≤ ((r:ℚ)/255 - (g:ℚ)/255) /
            ((b:ℚ)/255 - (r:ℚ)/255) := by
          rw [le_div_iff₀ hdd]
          linarith
        have h2 : ((r:ℚ)/255 - (g:ℚ)/255) / ((b:ℚ)/255 - (r:ℚ)/255) ≤ 0 :=
          div_nonpos_of_nonpos_of_nonneg (by linarith) (by linarith)
        rw [clampc_eq_id (by linarith) (by linarith)]
        have hne : ((b:ℚ) - (r:ℚ)) ≠ 0 := by
          have h3 : (0:ℚ) < (b:ℚ) - (r:ℚ) := by linarith
          exact ne_of_gt h3
        have hne2 : ((b:ℚ)/255 - (r:ℚ)/255) ≠ 0 := ne_of_gt hdd
        field_simp
        ring
      · rw [show ((r:ℚ)/255) ⊓ ((g:ℚ)/255) = (g:ℚ)/255 from
          inf_eq_right.mpr hc]
        have hdd : (0:ℚ) < (b:ℚ)/255 - (g:ℚ)/255 := by linarith
        have h2 : 0 ≤ ((r:ℚ)/255 - (g:ℚ)/255) / ((b:ℚ)/255 - (g:ℚ)/255) :=
          div_nonneg (by linarith) (by linarith)
        rw [clampc_eq_one (by linarith)]
        ring
    · calc |clampc ((H:ℚ)/30 - 7) -
            clampc (2 * (((r:ℚ)/255 - (g:ℚ)/255) /
              ((b:ℚ)/255 - ((r:ℚ)/255) ⊓ ((g:ℚ)/255)) + 4) - 7)|
          ≤ |((H:ℚ)/30 - 7) - (2 * (((r:ℚ)/255 - (g:ℚ)/255) /
              ((b:ℚ)/255 - ((r:ℚ)/255) ⊓ ((g:ℚ)/255)) + 4) - 7)| :=
            clampc_lip _ _
        _ = |(H:ℚ)/30 - 2 * (((r:ℚ)/255 - (g:ℚ)/255) /
              ((b:ℚ)/255 - ((r:ℚ)/255) ⊓ ((g:ℚ)/255)) + 4)| := by ring_nf
        _ ≤ 1/60 := huerr
  · -- blue channel: the tent is flat -1 on both sides of the wrap
    have hb2eq : gfun (jsRem (4 + (H:ℚ)/30) 12) = -1 := by
      by_cases hu : 4 + (H:ℚ)/30 < 12
      · rw [jsRem12_id (by linarith) hu]
        exact gfun_flat_high (by linarith)
      · rw [jsRem12_wrap (by linarith) (by linarith)]
        exact gfun_flat_low (by linarith)
    rw [hb2eq]
    refine channel_close b (((b:ℚ)/255 + ((r:ℚ)/255) ⊓ ((g:ℚ)/255))/2) (-1)
      ((L:ℚ)/100)
      ((S:ℚ)/100 * ((L:ℚ)/100 ⊓ (1 - (L:ℚ)/100)))
      (-1)
      ((b:ℚ)/255 - ((r:ℚ)/255) ⊓ ((g:ℚ)/255)) ?_ hlclose haclose
      (by norm_num) (by norm_num) (by linarith) hd1
    ring


set_option maxHeartbeats 800000 in
theorem roundtrip_grey (r g b : ℤ)
    (hgrey : ((r:ℚ)/255) ⊔ (((g:ℚ)/255) ⊔ ((b:ℚ)/255)) =
      ((r:ℚ)/255) ⊓ (((g:ℚ)/255) ⊓ ((b:ℚ)/255))) :
    |(hslToRgb (rgbToHsl (r:ℚ) (g:ℚ) (b:ℚ)).h (rgbToHsl (r:ℚ) (g:ℚ) (b:ℚ)).s
        (rgbToHsl (r:ℚ) (g:ℚ) (b:ℚ)).l).r - r| ≤ 5 ∧
    |(hslToRgb (rgbToHsl (r:ℚ) (g:ℚ) (b:ℚ)).h (rgbToHsl (r:ℚ) (g:ℚ) (b:ℚ)).s
        (rgbToHsl (r:ℚ) (g:ℚ) (b:ℚ)).l).g - g| ≤ 5 ∧
    |(hslToRgb (rgbToHsl (r:ℚ) (g:ℚ) (b:ℚ)).h (rgbToHsl (r:ℚ) (g:ℚ) (b:ℚ)).s
        (rgbToHsl (r:ℚ) (g:ℚ) (b:ℚ)).l).b - b| ≤ 5 := by
  have hMr : ((r:ℚ)/255) ⊔ (((g:ℚ)/255) ⊔ ((b:ℚ)/255)) = (r:ℚ)/255 :=
    le_antisymm (by rw [hgrey]; exact inf_le_left) le_sup_left
  have hmr : ((r:ℚ)/255) ⊓ (((g:ℚ)/255) ⊓ ((b:ℚ)/255)) = (r:ℚ)/255 :=
    le_antisymm inf_le_left (by rw [← hgrey]; exact le_sup_left)
  have hgup : (g:ℚ)/255 ≤ (r:ℚ)/255 := by
    have h1 : (g:ℚ)/255 ≤ ((r:ℚ)/255) ⊔ (((g:ℚ)/255) ⊔ ((b:ℚ)/255)) :=
      le_sup_of_le_right le_sup_left
    rw [hMr] at h1
    exact h1
  have hgdn : (r:ℚ)/255 ≤ (g:ℚ)/255 := by
    have h1 : ((r:ℚ)/255) ⊓ (((g:ℚ)/255) ⊓ ((b:ℚ)/255)) ≤ (g:ℚ)/255 :=
      inf_le_of_right_le inf_le_left
    rw [hmr] at h1
    exact h1
  have hbup : (b:ℚ)/255 ≤ (r:ℚ)/255 := by
    have h1 : (b:ℚ)/255 ≤ ((r:ℚ)/255) ⊔ (((g:ℚ)/255) ⊔ ((b:ℚ)/255)) :=
      le_sup_of_le_right le_sup_right
    rw [hMr] at h1
    exact h1
  have hbdn : (r:ℚ)/255 ≤ (b:ℚ)/255 := by
    have h1 : ((r:ℚ)/255) ⊓ (((g:ℚ)/255) ⊓ ((b:ℚ)/255)) ≤ (b:ℚ)/255 :=
      inf_le_of_right_le inf_le_right
    rw [hmr] at h1
    exact h1
  have hgr2 : (g:ℚ) = (r:ℚ) := by linarith
  have hbr2 : (b:ℚ) = (r:ℚ) := by linarith
  have hout : rgbToHsl (r:ℚ) (g:ℚ) (b:ℚ) =
      ⟨((jsRound ((0:ℚ) * 360) : ℤ) : ℚ), ((jsRound ((0:ℚ) * 100) : ℤ) : ℚ),
       ((jsRound ((((r:ℚ)/255 + (r:ℚ)/255)) / 2 * 100) : ℤ) : ℚ)⟩ := by
    simp only [rgbToHsl]
    rw [if_pos hgrey, hMr, hmr]
  rw [hout]
  simp only [hslToRgb]
  rw [show ((0:ℚ) * 100) = 0 from by norm_num,
    show jsRound (0:ℚ) = 0 from by decide]
  push_cast
  rw [show ((0:ℚ) / 100) = 0 from by norm_num]
  simp only [zero_mul, sub_zero]
  have herr := jsRound_err (((r:ℚ)/255 + (r:ℚ)/255) / 2 * 100)
  refine ⟨?_, ?_, ?_⟩
  · apply round_channel_bound
    rw [abs_le] at herr ⊢
    constructor <;> nlinarith [herr.1, herr.2]
  · apply round_channel_bound
    rw [abs_le] at herr ⊢
    constructor <;> nlinarith [herr.1, herr.2]
  · apply round_channel_bound
    rw [abs_le] at herr ⊢
    constructor <;> nlinarith [herr.1, herr.2]

/-- C2 (refutation of the literal tolerance): on input (255, 19, 0) the
round trip through `rgbToHsl` and `hslToRgb` returns a green channel of 17,
which is 2 away from the original 19, so a ±1 tolerance fails. -/
theorem roundtrip_pm1_counterexample :
    ¬ (|(hslToRgb (rgbToHsl 255 19 0).h (rgbToHsl 255 19 0).s
          (rgbToHsl 255 19 0).l).r - 255| ≤ 1 ∧
       |(hslToRgb (rgbToHsl 255 19 0).h (rgbToHsl 255 19 0).s
          (rgbToHsl 255 19 0).l).g - 19| ≤ 1 ∧
       |(hslToRgb (rgbToHsl 255 19 0).h (rgbToHsl 255 19 0).s
          (rgbToHsl 255 19 0).l).b - 0| ≤ 1) := by decide

/-- C2 (corrected): for every RGB triple with integer channels in [0, 255],
composing `rgbToHsl` with `hslToRgb` reproduces each channel to within ±5
(the spec's ±1 does not hold; ±5 accounts for the integer rounding of h, s
and l). -/
theorem rgbToHsl_hslToRgb_roundtrip (r g b : ℤ)
    (hr1 : 0 ≤ r) (hr2 : r ≤ 255) (hg1 : 0 ≤ g) (hg2 : g ≤ 255)
    (hb1 : 0 ≤ b) (hb2 : b ≤ 255) :
    |(hslToRgb (rgbToHsl (r:ℚ) (g:ℚ) (b:ℚ)).h (rgbToHsl (r:ℚ) (g:ℚ) (b:ℚ)).s
        (rgbToHsl (r:ℚ) (g:ℚ) (b:ℚ)).l).r - r| ≤ 5 ∧
    |(hslToRgb (rgbToHsl (r:ℚ) (g:ℚ) (b:ℚ)).h (rgbToHsl (r:ℚ) (g:ℚ) (b:ℚ)).s
        (rgbToHsl (r:ℚ) (g:ℚ) (b:ℚ)).l).g - g| ≤ 5 ∧
    |(hslToRgb (rgbToHsl (r:ℚ) (g:ℚ) (b:ℚ)).h (rgbToHsl (r:ℚ) (g:ℚ) (b:ℚ)).s
        (rgbToHsl (r:ℚ) (g:ℚ) (b:ℚ)).l).b - b| ≤ 5 := by
  by_cases hgrey : ((r:ℚ)/255) ⊔ (((g:ℚ)/255) ⊔ ((b:ℚ)/255)) =
      ((r:ℚ)/255) ⊓ (((g:ℚ)/255) ⊓ ((b:ℚ)/255))
  · exact roundtrip_grey r g b hgrey
  · by_cases hA : ((r:ℚ)/255) ⊔ (((g:ℚ)/255) ⊔ ((b:ℚ)/255)) = (r:ℚ)/255
    · by_cases hgb : (g:ℚ)/255 < (b:ℚ)/255
      · exact roundtrip_D r g b hr1 hr2 hg1 hg2 hb1 hb2 hgrey hA hgb
      · exact roundtrip_A r g b hr1 hr2 hg1 hg2 hb1 hb2 hgrey hA hgb
    · by_cases hB : ((r:ℚ)/255) ⊔ (((g:ℚ)/255) ⊔ ((b:ℚ)/255)) = (g:ℚ)/255
      · exact roundtrip_B r g b hr1 hr2 hg1 hg2 hb1 hb2 hgrey hA hB
      · exact roundtrip_C r g b hr1 hr2 hg1 hg2 hb1 hb2 hgrey hA hB

theorem rgbToHsl_hslToRgb_roundtrip_witness :
    |(hslToRgb (rgbToHsl (((255:ℤ)):ℚ) (((19:ℤ)):ℚ) (((0:ℤ)):ℚ)).h
        (rgbToHsl (((255:ℤ)):ℚ) (((19:ℤ)):ℚ) (((0:ℤ)):ℚ)).s
        (rgbToHsl (((255:ℤ)):ℚ) (((19:ℤ)):ℚ) (((0:ℤ)):ℚ)).l).r -
      (255:ℤ)| ≤ 5 ∧
    |(hslToRgb (rgbToHsl (((255:ℤ)):ℚ) (((19:ℤ)):ℚ) (((0:ℤ)):ℚ)).h
        (rgbToHsl (((255:ℤ)):ℚ) (((19:ℤ)):ℚ) (((0:ℤ)):ℚ)).s
        (rgbToHsl (((255:ℤ)):ℚ) (((19:ℤ)):ℚ) (((0:ℤ)):ℚ)).l).g -
      (19:ℤ)| ≤ 5 ∧
    |(hslToRgb (rgbToHsl (((255:ℤ)):ℚ) (((19:ℤ)):ℚ) (((0:ℤ)):ℚ)).h
        (rgbToHsl (((255:ℤ)):ℚ) (((19:ℤ)):ℚ) (((0:ℤ)):ℚ)).s
        (rgbToHsl (((255:ℤ)):ℚ) (((19:ℤ)):ℚ) (((0:ℤ)):ℚ)).l).b -
      (0:ℤ)| ≤ 5 :=
  rgbToHsl_hslToRgb_roundtrip 255 19 0 (by decide) (by decide) (by decide)
    (by decide) (by decide) (by decide)

end HueKai
